import Mathlib

/-!
# Timetable generator: shallow embedding

Embedding of `backend/controllers/timetableController.js` and of
`syncAvailabilityWithSchedule` from `backend/controllers/facultyController.js`.

* JavaScript arrays are lists, objects with string keys are association lists.
* A `Set` of strings is observed only through `has`; it is the list of added keys.
* `Math.random()` is a stream of rationals in `[0,1)`, read in program order.
* A thrown exception is `Except.error`.
-/

namespace Timetable

/-! ## Constants -/

/-- The six teaching slots (`timeSlots`). -/
def timeSlots : List String :=
  ["09:00-10:00", "10:00-11:00", "11:00-12:00", "13:00-14:00", "14:00-15:00", "15:00-16:00"]

/-- Lunch break slot, not available for classes. -/
def LUNCH_BREAK : String := "12:00-13:00"

/-- Full day list kept for the UI. -/
def days : List String := ["Mon", "Tue", "Wed", "Thu", "Fri", "Sat"]

/-- Working days used by the generators. -/
def WORKING_DAYS : List String := ["Mon", "Tue", "Wed", "Thu", "Fri"]

/-! ## Helpers -/

/-- The helper `toKey(...parts)`, that is `parts.join("||")`. -/
def toKey (parts : List String) : String := "||".intercalate parts

/-- One value of `Math.random()`: the rational `num / den`, in `[0,1)`. -/
structure Draw where
  num : Nat
  den : Nat
  lt : num < den

/-- The expression `Math.floor(Math.random() * n)` for the draw `d`. -/
def floorMul (d : Draw) (n : Nat) : Nat := d.num * n / d.den

/-- The test `Math.random() < 0.5` for the draw `d`. -/
def belowHalf (d : Draw) : Bool := decide (2 * d.num < d.den)

/-- Simple lowercase mapping of the Unicode Character Database (version 14.0) above
U+007F, as rules `(lo, hi, stride, target)`: a code point `c` with `lo ≤ c ≤ hi` and
`(c - lo) % stride = 0` maps to `target + (c - lo)`; every other code point maps to
itself. -/
def lowerRules : List (Nat × Nat × Nat × Nat) :=
  [(0xC0, 0xD6, 1, 0xE0), (0xD8, 0xDE, 1, 0xF8), (0x100, 0x12E, 2, 0x101),
   (0x132, 0x136, 2, 0x133), (0x139, 0x147, 2, 0x13A), (0x14A, 0x176, 2, 0x14B),
   (0x178, 0x178, 1, 0xFF), (0x179, 0x17D, 2, 0x17A), (0x181, 0x181, 1, 0x253),
   (0x182, 0x184, 2, 0x183), (0x186, 0x186, 1, 0x254), (0x187, 0x187, 1, 0x188),
   (0x189, 0x18A, 1, 0x256), (0x18B, 0x18B, 1, 0x18C), (0x18E, 0x18E, 1, 0x1DD),
   (0x18F, 0x18F, 1, 0x259), (0x190, 0x190, 1, 0x25B), (0x191, 0x191, 1, 0x192),
   (0x193, 0x193, 1, 0x260), (0x194, 0x194, 1, 0x263), (0x196, 0x196, 1, 0x269),
   (0x197, 0x197, 1, 0x268), (0x198, 0x198, 1, 0x199), (0x19C, 0x19C, 1, 0x26F),
   (0x19D, 0x19D, 1, 0x272), (0x19F, 0x19F, 1, 0x275), (0x1A0, 0x1A4, 2, 0x1A1),
   (0x1A6, 0x1A6, 1, 0x280), (0x1A7, 0x1A7, 1, 0x1A8), (0x1A9, 0x1A9, 1, 0x283),
   (0x1AC, 0x1AC, 1, 0x1AD), (0x1AE, 0x1AE, 1, 0x288), (0x1AF, 0x1AF, 1, 0x1B0),
   (0x1B1, 0x1B2, 1, 0x28A), (0x1B3, 0x1B5, 2, 0x1B4), (0x1B7, 0x1B7, 1, 0x292),
   (0x1B8, 0x1B8, 1, 0x1B9), (0x1BC, 0x1BC, 1, 0x1BD), (0x1C4, 0x1C4, 1, 0x1C6),
   (0x1C5, 0x1C5, 1, 0x1C6), (0x1C7, 0x1C7, 1, 0x1C9), (0x1C8, 0x1C8, 1, 0x1C9),
   (0x1CA, 0x1CA, 1, 0x1CC), (0x1CB, 0x1DB, 2, 0x1CC), (0x1DE, 0x1EE, 2, 0x1DF),
   (0x1F1, 0x1F1, 1, 0x1F3), (0x1F2, 0x1F4, 2, 0x1F3), (0x1F6, 0x1F6, 1, 0x195),
   (0x1F7, 0x1F7, 1, 0x1BF), (0x1F8, 0x21E, 2, 0x1F9), (0x220, 0x220, 1, 0x19E),
   (0x222, 0x232, 2, 0x223), (0x23A, 0x23A, 1, 0x2C65), (0x23B, 0x23B, 1, 0x23C),
   (0x23D, 0x23D, 1, 0x19A), (0x23E, 0x23E, 1, 0x2C66), (0x241, 0x241, 1, 0x242),
   (0x243, 0x243, 1, 0x180), (0x244, 0x244, 1, 0x289), (0x245, 0x245, 1, 0x28C)] ++
  [(0x246, 0x24E, 2, 0x247), (0x370, 0x372, 2, 0x371), (0x376, 0x376, 1, 0x377),
   (0x37F, 0x37F, 1, 0x3F3), (0x386, 0x386, 1, 0x3AC), (0x388, 0x38A, 1, 0x3AD),
   (0x38C, 0x38C, 1, 0x3CC), (0x38E, 0x38F, 1, 0x3CD), (0x391, 0x3A1, 1, 0x3B1),
   (0x3A3, 0x3AB, 1, 0x3C3), (0x3CF, 0x3CF, 1, 0x3D7), (0x3D8, 0x3EE, 2, 0x3D9),
   (0x3F4, 0x3F4, 1, 0x3B8), (0x3F7, 0x3F7, 1, 0x3F8), (0x3F9, 0x3F9, 1, 0x3F2),
   (0x3FA, 0x3FA, 1, 0x3FB), (0x3FD, 0x3FF, 1, 0x37B), (0x400, 0x40F, 1, 0x450),
   (0x410, 0x42F, 1, 0x430), (0x460, 0x480, 2, 0x461), (0x48A, 0x4BE, 2, 0x48B),
   (0x4C0, 0x4C0, 1, 0x4CF), (0x4C1, 0x4CD, 2, 0x4C2), (0x4D0, 0x52E, 2, 0x4D1),
   (0x531, 0x556, 1, 0x561), (0x10A0, 0x10C5, 1, 0x2D00), (0x10C7, 0x10C7, 1, 0x2D27),
   (0x10CD, 0x10CD, 1, 0x2D2D), (0x13A0, 0x13EF, 1, 0xAB70), (0x13F0, 0x13F5, 1, 0x13F8),
   (0x1C90, 0x1CBA, 1, 0x10D0), (0x1CBD, 0x1CBF, 1, 0x10FD), (0x1E00, 0x1E94, 2, 0x1E01),
   (0x1E9E, 0x1E9E, 1, 0xDF), (0x1EA0, 0x1EFE, 2, 0x1EA1), (0x1F08, 0x1F0F, 1, 0x1F00),
   (0x1F18, 0x1F1D, 1, 0x1F10), (0x1F28, 0x1F2F, 1, 0x1F20), (0x1F38, 0x1F3F, 1, 0x1F30),
   (0x1F48, 0x1F4D, 1, 0x1F40), (0x1F59, 0x1F5F, 2, 0x1F51), (0x1F68, 0x1F6F, 1, 0x1F60),
   (0x1F88, 0x1F8F, 1, 0x1F80), (0x1F98, 0x1F9F, 1, 0x1F90), (0x1FA8, 0x1FAF, 1, 0x1FA0),
   (0x1FB8, 0x1FB9, 1, 0x1FB0), (0x1FBA, 0x1FBB, 1, 0x1F70), (0x1FBC, 0x1FBC, 1, 0x1FB3),
   (0x1FC8, 0x1FCB, 1, 0x1F72), (0x1FCC, 0x1FCC, 1, 0x1FC3), (0x1FD8, 0x1FD9, 1, 0x1FD0),
   (0x1FDA, 0x1FDB, 1, 0x1F76), (0x1FE8, 0x1FE9, 1, 0x1FE0), (0x1FEA, 0x1FEB, 1, 0x1F7A),
   (0x1FEC, 0x1FEC, 1, 0x1FE5), (0x1FF8, 0x1FF9, 1, 0x1F78), (0x1FFA, 0x1FFB, 1, 0x1F7C),
   (0x1FFC, 0x1FFC, 1, 0x1FF3), (0x2126, 0x2126, 1, 0x3C9), (0x212A, 0x212A, 1, 0x6B)] ++
  [(0x212B, 0x212B, 1, 0xE5), (0x2132, 0x2132, 1, 0x214E), (0x2160, 0x216F, 1, 0x2170),
   (0x2183, 0x2183, 1, 0x2184), (0x24B6, 0x24CF, 1, 0x24D0), (0x2C00, 0x2C2F, 1, 0x2C30),
   (0x2C60, 0x2C60, 1, 0x2C61), (0x2C62, 0x2C62, 1, 0x26B), (0x2C63, 0x2C63, 1, 0x1D7D),
   (0x2C64, 0x2C64, 1, 0x27D), (0x2C67, 0x2C6B, 2, 0x2C68), (0x2C6D, 0x2C6D, 1, 0x251),
   (0x2C6E, 0x2C6E, 1, 0x271), (0x2C6F, 0x2C6F, 1, 0x250), (0x2C70, 0x2C70, 1, 0x252),
   (0x2C72, 0x2C72, 1, 0x2C73), (0x2C75, 0x2C75, 1, 0x2C76), (0x2C7E, 0x2C7F, 1, 0x23F),
   (0x2C80, 0x2CE2, 2, 0x2C81), (0x2CEB, 0x2CED, 2, 0x2CEC), (0x2CF2, 0x2CF2, 1, 0x2CF3),
   (0xA640, 0xA66C, 2, 0xA641), (0xA680, 0xA69A, 2, 0xA681), (0xA722, 0xA72E, 2, 0xA723),
   (0xA732, 0xA76E, 2, 0xA733), (0xA779, 0xA77B, 2, 0xA77A), (0xA77D, 0xA77D, 1, 0x1D79),
   (0xA77E, 0xA786, 2, 0xA77F), (0xA78B, 0xA78B, 1, 0xA78C), (0xA78D, 0xA78D, 1, 0x265),
   (0xA790, 0xA792, 2, 0xA791), (0xA796, 0xA7A8, 2, 0xA797), (0xA7AA, 0xA7AA, 1, 0x266),
   (0xA7AB, 0xA7AB, 1, 0x25C), (0xA7AC, 0xA7AC, 1, 0x261), (0xA7AD, 0xA7AD, 1, 0x26C),
   (0xA7AE, 0xA7AE, 1, 0x26A), (0xA7B0, 0xA7B0, 1, 0x29E), (0xA7B1, 0xA7B1, 1, 0x287),
   (0xA7B2, 0xA7B2, 1, 0x29D), (0xA7B3, 0xA7B3, 1, 0xAB53), (0xA7B4, 0xA7C2, 2, 0xA7B5),
   (0xA7C4, 0xA7C4, 1, 0xA794), (0xA7C5, 0xA7C5, 1, 0x282), (0xA7C6, 0xA7C6, 1, 0x1D8E),
   (0xA7C7, 0xA7C9, 2, 0xA7C8), (0xA7D0, 0xA7D0, 1, 0xA7D1), (0xA7D6, 0xA7D8, 2, 0xA7D7),
   (0xA7F5, 0xA7F5, 1, 0xA7F6), (0xFF21, 0xFF3A, 1, 0xFF41), (0x10400, 0x10427, 1, 0x10428),
   (0x104B0, 0x104D3, 1, 0x104D8), (0x10570, 0x1057A, 1, 0x10597), (0x1057C, 0x1058A, 1, 0x105A3),
   (0x1058C, 0x10592, 1, 0x105B3), (0x10594, 0x10595, 1, 0x105BB), (0x10C80, 0x10CB2, 1, 0x10CC0),
   (0x118A0, 0x118BF, 1, 0x118C0), (0x16E40, 0x16E5F, 1, 0x16E60), (0x1E900, 0x1E921, 1, 0x1E922)]

/-- Ranges of the code points with the Unicode property Case_Ignorable. -/
def caseIgnorableRanges : List (Nat × Nat) :=
  [(0x27, 0x27), (0x2E, 0x2E), (0x3A, 0x3A), (0x5E, 0x5E), (0x60, 0x60),
   (0xA8, 0xA8), (0xAD, 0xAD), (0xAF, 0xAF), (0xB4, 0xB4), (0xB7, 0xB8),
   (0x2B0, 0x36F), (0x374, 0x375), (0x37A, 0x37A), (0x384, 0x385), (0x387, 0x387),
   (0x483, 0x489), (0x559, 0x559), (0x55F, 0x55F), (0x591, 0x5BD), (0x5BF, 0x5BF),
   (0x5C1, 0x5C2), (0x5C4, 0x5C5), (0x5C7, 0x5C7), (0x5F4, 0x5F4), (0x600, 0x605),
   (0x610, 0x61A), (0x61C, 0x61C), (0x640, 0x640), (0x64B, 0x65F), (0x670, 0x670),
   (0x6D6, 0x6DD), (0x6DF, 0x6E8), (0x6EA, 0x6ED), (0x70F, 0x70F), (0x711, 0x711),
   (0x730, 0x74A), (0x7A6, 0x7B0), (0x7EB, 0x7F5), (0x7FA, 0x7FA), (0x7FD, 0x7FD),
   (0x816, 0x82D), (0x859, 0x85B), (0x888, 0x888), (0x890, 0x891), (0x898, 0x89F),
   (0x8C9, 0x902), (0x93A, 0x93A), (0x93C, 0x93C), (0x941, 0x948), (0x94D, 0x94D),
   (0x951, 0x957), (0x962, 0x963), (0x971, 0x971), (0x981, 0x981), (0x9BC, 0x9BC),
   (0x9C1, 0x9C4), (0x9CD, 0x9CD), (0x9E2, 0x9E3), (0x9FE, 0x9FE), (0xA01, 0xA02)] ++
  [(0xA3C, 0xA3C), (0xA41, 0xA42), (0xA47, 0xA48), (0xA4B, 0xA4D), (0xA51, 0xA51),
   (0xA70, 0xA71), (0xA75, 0xA75), (0xA81, 0xA82), (0xABC, 0xABC), (0xAC1, 0xAC5),
   (0xAC7, 0xAC8), (0xACD, 0xACD), (0xAE2, 0xAE3), (0xAFA, 0xAFF), (0xB01, 0xB01),
   (0xB3C, 0xB3C), (0xB3F, 0xB3F), (0xB41, 0xB44), (0xB4D, 0xB4D), (0xB55, 0xB56),
   (0xB62, 0xB63), (0xB82, 0xB82), (0xBC0, 0xBC0), (0xBCD, 0xBCD), (0xC00, 0xC00),
   (0xC04, 0xC04), (0xC3C, 0xC3C), (0xC3E, 0xC40), (0xC46, 0xC48), (0xC4A, 0xC4D),
   (0xC55, 0xC56), (0xC62, 0xC63), (0xC81, 0xC81), (0xCBC, 0xCBC), (0xCBF, 0xCBF),
   (0xCC6, 0xCC6), (0xCCC, 0xCCD), (0xCE2, 0xCE3), (0xD00, 0xD01), (0xD3B, 0xD3C),
   (0xD41, 0xD44), (0xD4D, 0xD4D), (0xD62, 0xD63), (0xD81, 0xD81), (0xDCA, 0xDCA),
   (0xDD2, 0xDD4), (0xDD6, 0xDD6), (0xE31, 0xE31), (0xE34, 0xE3A), (0xE46, 0xE4E),
   (0xEB1, 0xEB1), (0xEB4, 0xEBC), (0xEC6, 0xEC6), (0xEC8, 0xECD), (0xF18, 0xF19),
   (0xF35, 0xF35), (0xF37, 0xF37), (0xF39, 0xF39), (0xF71, 0xF7E), (0xF80, 0xF84)] ++
  [(0xF86, 0xF87), (0xF8D, 0xF97), (0xF99, 0xFBC), (0xFC6, 0xFC6), (0x102D, 0x1030),
   (0x1032, 0x1037), (0x1039, 0x103A), (0x103D, 0x103E), (0x1058, 0x1059), (0x105E, 0x1060),
   (0x1071, 0x1074), (0x1082, 0x1082), (0x1085, 0x1086), (0x108D, 0x108D), (0x109D, 0x109D),
   (0x10FC, 0x10FC), (0x135D, 0x135F), (0x1712, 0x1714), (0x1732, 0x1733), (0x1752, 0x1753),
   (0x1772, 0x1773), (0x17B4, 0x17B5), (0x17B7, 0x17BD), (0x17C6, 0x17C6), (0x17C9, 0x17D3),
   (0x17D7, 0x17D7), (0x17DD, 0x17DD), (0x180B, 0x180F), (0x1843, 0x1843), (0x1885, 0x1886),
   (0x18A9, 0x18A9), (0x1920, 0x1922), (0x1927, 0x1928), (0x1932, 0x1932), (0x1939, 0x193B),
   (0x1A17, 0x1A18), (0x1A1B, 0x1A1B), (0x1A56, 0x1A56), (0x1A58, 0x1A5E), (0x1A60, 0x1A60),
   (0x1A62, 0x1A62), (0x1A65, 0x1A6C), (0x1A73, 0x1A7C), (0x1A7F, 0x1A7F), (0x1AA7, 0x1AA7),
   (0x1AB0, 0x1ACE), (0x1B00, 0x1B03), (0x1B34, 0x1B34), (0x1B36, 0x1B3A), (0x1B3C, 0x1B3C),
   (0x1B42, 0x1B42), (0x1B6B, 0x1B73), (0x1B80, 0x1B81), (0x1BA2, 0x1BA5), (0x1BA8, 0x1BA9),
   (0x1BAB, 0x1BAD), (0x1BE6, 0x1BE6), (0x1BE8, 0x1BE9), (0x1BED, 0x1BED), (0x1BEF, 0x1BF1)] ++
  [(0x1C2C, 0x1C33), (0x1C36, 0x1C37), (0x1C78, 0x1C7D), (0x1CD0, 0x1CD2), (0x1CD4, 0x1CE0),
   (0x1CE2, 0x1CE8), (0x1CED, 0x1CED), (0x1CF4, 0x1CF4), (0x1CF8, 0x1CF9), (0x1D2C, 0x1D6A),
   (0x1D78, 0x1D78), (0x1D9B, 0x1DFF), (0x1FBD, 0x1FBD), (0x1FBF, 0x1FC1), (0x1FCD, 0x1FCF),
   (0x1FDD, 0x1FDF), (0x1FED, 0x1FEF), (0x1FFD, 0x1FFE), (0x200B, 0x200F), (0x2018, 0x2019),
   (0x2024, 0x2024), (0x2027, 0x2027), (0x202A, 0x202E), (0x2060, 0x2064), (0x2066, 0x206F),
   (0x2071, 0x2071), (0x207F, 0x207F), (0x2090, 0x209C), (0x20D0, 0x20F0), (0x2C7C, 0x2C7D),
   (0x2CEF, 0x2CF1), (0x2D6F, 0x2D6F), (0x2D7F, 0x2D7F), (0x2DE0, 0x2DFF), (0x2E2F, 0x2E2F),
   (0x3005, 0x3005), (0x302A, 0x302D), (0x3031, 0x3035), (0x303B, 0x303B), (0x3099, 0x309E),
   (0x30FC, 0x30FE), (0xA015, 0xA015), (0xA4F8, 0xA4FD), (0xA60C, 0xA60C), (0xA66F, 0xA672),
   (0xA674, 0xA67D), (0xA67F, 0xA67F), (0xA69C, 0xA69F), (0xA6F0, 0xA6F1), (0xA700, 0xA721),
   (0xA770, 0xA770), (0xA788, 0xA78A), (0xA7F2, 0xA7F4), (0xA7F8, 0xA7F9), (0xA802, 0xA802),
   (0xA806, 0xA806), (0xA80B, 0xA80B), (0xA825, 0xA826), (0xA82C, 0xA82C), (0xA8C4, 0xA8C5)] ++
  [(0xA8E0, 0xA8F1), (0xA8FF, 0xA8FF), (0xA926, 0xA92D), (0xA947, 0xA951), (0xA980, 0xA982),
   (0xA9B3, 0xA9B3), (0xA9B6, 0xA9B9), (0xA9BC, 0xA9BD), (0xA9CF, 0xA9CF), (0xA9E5, 0xA9E6),
   (0xAA29, 0xAA2E), (0xAA31, 0xAA32), (0xAA35, 0xAA36), (0xAA43, 0xAA43), (0xAA4C, 0xAA4C),
   (0xAA70, 0xAA70), (0xAA7C, 0xAA7C), (0xAAB0, 0xAAB0), (0xAAB2, 0xAAB4), (0xAAB7, 0xAAB8),
   (0xAABE, 0xAABF), (0xAAC1, 0xAAC1), (0xAADD, 0xAADD), (0xAAEC, 0xAAED), (0xAAF3, 0xAAF4),
   (0xAAF6, 0xAAF6), (0xAB5B, 0xAB5F), (0xAB69, 0xAB6B), (0xABE5, 0xABE5), (0xABE8, 0xABE8),
   (0xABED, 0xABED), (0xFB1E, 0xFB1E), (0xFBB2, 0xFBC2), (0xFE00, 0xFE0F), (0xFE13, 0xFE13),
   (0xFE20, 0xFE2F), (0xFE52, 0xFE52), (0xFE55, 0xFE55), (0xFEFF, 0xFEFF), (0xFF07, 0xFF07),
   (0xFF0E, 0xFF0E), (0xFF1A, 0xFF1A), (0xFF3E, 0xFF3E), (0xFF40, 0xFF40), (0xFF70, 0xFF70),
   (0xFF9E, 0xFF9F), (0xFFE3, 0xFFE3), (0xFFF9, 0xFFFB), (0x101FD, 0x101FD), (0x102E0, 0x102E0),
   (0x10376, 0x1037A), (0x10780, 0x10785), (0x10787, 0x107B0), (0x107B2, 0x107BA), (0x10A01, 0x10A03),
   (0x10A05, 0x10A06), (0x10A0C, 0x10A0F), (0x10A38, 0x10A3A), (0x10A3F, 0x10A3F), (0x10AE5, 0x10AE6)] ++
  [(0x10D24, 0x10D27), (0x10EAB, 0x10EAC), (0x10F46, 0x10F50), (0x10F82, 0x10F85), (0x11001, 0x11001),
   (0x11038, 0x11046), (0x11070, 0x11070), (0x11073, 0x11074), (0x1107F, 0x11081), (0x110B3, 0x110B6),
   (0x110B9, 0x110BA), (0x110BD, 0x110BD), (0x110C2, 0x110C2), (0x110CD, 0x110CD), (0x11100, 0x11102),
   (0x11127, 0x1112B), (0x1112D, 0x11134), (0x11173, 0x11173), (0x11180, 0x11181), (0x111B6, 0x111BE),
   (0x111C9, 0x111CC), (0x111CF, 0x111CF), (0x1122F, 0x11231), (0x11234, 0x11234), (0x11236, 0x11237),
   (0x1123E, 0x1123E), (0x112DF, 0x112DF), (0x112E3, 0x112EA), (0x11300, 0x11301), (0x1133B, 0x1133C),
   (0x11340, 0x11340), (0x11366, 0x1136C), (0x11370, 0x11374), (0x11438, 0x1143F), (0x11442, 0x11444),
   (0x11446, 0x11446), (0x1145E, 0x1145E), (0x114B3, 0x114B8), (0x114BA, 0x114BA), (0x114BF, 0x114C0),
   (0x114C2, 0x114C3), (0x115B2, 0x115B5), (0x115BC, 0x115BD), (0x115BF, 0x115C0), (0x115DC, 0x115DD),
   (0x11633, 0x1163A), (0x1163D, 0x1163D), (0x1163F, 0x11640), (0x116AB, 0x116AB), (0x116AD, 0x116AD),
   (0x116B0, 0x116B5), (0x116B7, 0x116B7), (0x1171D, 0x1171F), (0x11722, 0x11725), (0x11727, 0x1172B),
   (0x1182F, 0x11837), (0x11839, 0x1183A), (0x1193B, 0x1193C), (0x1193E, 0x1193E), (0x11943, 0x11943)] ++
  [(0x119D4, 0x119D7), (0x119DA, 0x119DB), (0x119E0, 0x119E0), (0x11A01, 0x11A0A), (0x11A33, 0x11A38),
   (0x11A3B, 0x11A3E), (0x11A47, 0x11A47), (0x11A51, 0x11A56), (0x11A59, 0x11A5B), (0x11A8A, 0x11A96),
   (0x11A98, 0x11A99), (0x11C30, 0x11C36), (0x11C38, 0x11C3D), (0x11C3F, 0x11C3F), (0x11C92, 0x11CA7),
   (0x11CAA, 0x11CB0), (0x11CB2, 0x11CB3), (0x11CB5, 0x11CB6), (0x11D31, 0x11D36), (0x11D3A, 0x11D3A),
   (0x11D3C, 0x11D3D), (0x11D3F, 0x11D45), (0x11D47, 0x11D47), (0x11D90, 0x11D91), (0x11D95, 0x11D95),
   (0x11D97, 0x11D97), (0x11EF3, 0x11EF4), (0x13430, 0x13438), (0x16AF0, 0x16AF4), (0x16B30, 0x16B36),
   (0x16B40, 0x16B43), (0x16F4F, 0x16F4F), (0x16F8F, 0x16F9F), (0x16FE0, 0x16FE1), (0x16FE3, 0x16FE4),
   (0x1AFF0, 0x1AFF3), (0x1AFF5, 0x1AFFB), (0x1AFFD, 0x1AFFE), (0x1BC9D, 0x1BC9E), (0x1BCA0, 0x1BCA3),
   (0x1CF00, 0x1CF2D), (0x1CF30, 0x1CF46), (0x1D167, 0x1D169), (0x1D173, 0x1D182), (0x1D185, 0x1D18B),
   (0x1D1AA, 0x1D1AD), (0x1D242, 0x1D244), (0x1DA00, 0x1DA36), (0x1DA3B, 0x1DA6C), (0x1DA75, 0x1DA75),
   (0x1DA84, 0x1DA84), (0x1DA9B, 0x1DA9F), (0x1DAA1, 0x1DAAF), (0x1E000, 0x1E006), (0x1E008, 0x1E018),
   (0x1E01B, 0x1E021), (0x1E023, 0x1E024), (0x1E026, 0x1E02A), (0x1E130, 0x1E13D), (0x1E2AE, 0x1E2AE)] ++
  [(0x1E2EC, 0x1E2EF), (0x1E8D0, 0x1E8D6), (0x1E944, 0x1E94B), (0x1F3FB, 0x1F3FF), (0xE0001, 0xE0001),
   (0xE0020, 0xE007F), (0xE0100, 0xE01EF)]

/-- Ranges of the code points with the Unicode property Cased that are not
Case_Ignorable. -/
def casedRanges : List (Nat × Nat) :=
  [(0x41, 0x5A), (0x61, 0x7A), (0xAA, 0xAA), (0xB5, 0xB5), (0xBA, 0xBA),
   (0xC0, 0xD6), (0xD8, 0xF6), (0xF8, 0x1BA), (0x1BC, 0x1BF), (0x1C4, 0x293),
   (0x295, 0x2AF), (0x370, 0x373), (0x376, 0x377), (0x37B, 0x37D), (0x37F, 0x37F),
   (0x386, 0x386), (0x388, 0x38A), (0x38C, 0x38C), (0x38E, 0x3A1), (0x3A3, 0x3F5),
   (0x3F7, 0x481), (0x48A, 0x52F), (0x531, 0x556), (0x560, 0x588), (0x10A0, 0x10C5),
   (0x10C7, 0x10C7), (0x10CD, 0x10CD), (0x10D0, 0x10FA), (0x10FD, 0x10FF), (0x13A0, 0x13F5),
   (0x13F8, 0x13FD), (0x1C80, 0x1C88), (0x1C90, 0x1CBA), (0x1CBD, 0x1CBF), (0x1D00, 0x1D2B),
   (0x1D6B, 0x1D77), (0x1D79, 0x1D9A), (0x1E00, 0x1F15), (0x1F18, 0x1F1D), (0x1F20, 0x1F45),
   (0x1F48, 0x1F4D), (0x1F50, 0x1F57), (0x1F59, 0x1F59), (0x1F5B, 0x1F5B), (0x1F5D, 0x1F5D),
   (0x1F5F, 0x1F7D), (0x1F80, 0x1FB4), (0x1FB6, 0x1FBC), (0x1FBE, 0x1FBE), (0x1FC2, 0x1FC4),
   (0x1FC6, 0x1FCC), (0x1FD0, 0x1FD3), (0x1FD6, 0x1FDB), (0x1FE0, 0x1FEC), (0x1FF2, 0x1FF4),
   (0x1FF6, 0x1FFC), (0x2102, 0x2102), (0x2107, 0x2107), (0x210A, 0x2113), (0x2115, 0x2115)] ++
  [(0x2119, 0x211D), (0x2124, 0x2124), (0x2126, 0x2126), (0x2128, 0x2128), (0x212A, 0x212D),
   (0x212F, 0x2134), (0x2139, 0x2139), (0x213C, 0x213F), (0x2145, 0x2149), (0x214E, 0x214E),
   (0x2160, 0x217F), (0x2183, 0x2184), (0x24B6, 0x24E9), (0x2C00, 0x2C7B), (0x2C7E, 0x2CE4),
   (0x2CEB, 0x2CEE), (0x2CF2, 0x2CF3), (0x2D00, 0x2D25), (0x2D27, 0x2D27), (0x2D2D, 0x2D2D),
   (0xA640, 0xA66D), (0xA680, 0xA69B), (0xA722, 0xA76F), (0xA771, 0xA787), (0xA78B, 0xA78E),
   (0xA790, 0xA7CA), (0xA7D0, 0xA7D1), (0xA7D3, 0xA7D3), (0xA7D5, 0xA7D9), (0xA7F5, 0xA7F6),
   (0xA7FA, 0xA7FA), (0xAB30, 0xAB5A), (0xAB60, 0xAB68), (0xAB70, 0xABBF), (0xFB00, 0xFB06),
   (0xFB13, 0xFB17), (0xFF21, 0xFF3A), (0xFF41, 0xFF5A), (0x10400, 0x1044F), (0x104B0, 0x104D3),
   (0x104D8, 0x104FB), (0x10570, 0x1057A), (0x1057C, 0x1058A), (0x1058C, 0x10592), (0x10594, 0x10595),
   (0x10597, 0x105A1), (0x105A3, 0x105B1), (0x105B3, 0x105B9), (0x105BB, 0x105BC), (0x10C80, 0x10CB2),
   (0x10CC0, 0x10CF2), (0x118A0, 0x118DF), (0x16E40, 0x16E7F), (0x1D400, 0x1D454), (0x1D456, 0x1D49C),
   (0x1D49E, 0x1D49F), (0x1D4A2, 0x1D4A2), (0x1D4A5, 0x1D4A6), (0x1D4A9, 0x1D4AC), (0x1D4AE, 0x1D4B9)] ++
  [(0x1D4BB, 0x1D4BB), (0x1D4BD, 0x1D4C3), (0x1D4C5, 0x1D505), (0x1D507, 0x1D50A), (0x1D50D, 0x1D514),
   (0x1D516, 0x1D51C), (0x1D51E, 0x1D539), (0x1D53B, 0x1D53E), (0x1D540, 0x1D544), (0x1D546, 0x1D546),
   (0x1D54A, 0x1D550), (0x1D552, 0x1D6A5), (0x1D6A8, 0x1D6C0), (0x1D6C2, 0x1D6DA), (0x1D6DC, 0x1D6FA),
   (0x1D6FC, 0x1D714), (0x1D716, 0x1D734), (0x1D736, 0x1D74E), (0x1D750, 0x1D76E), (0x1D770, 0x1D788),
   (0x1D78A, 0x1D7A8), (0x1D7AA, 0x1D7C2), (0x1D7C4, 0x1D7CB), (0x1DF00, 0x1DF09), (0x1DF0B, 0x1DF1E),
   (0x1E900, 0x1E943), (0x1F130, 0x1F149), (0x1F150, 0x1F169), (0x1F170, 0x1F189)]

/-- Membership of a code point in a list of ranges. -/
def inRanges (rs : List (Nat × Nat)) (n : Nat) : Bool :=
  rs.any (fun r => decide (r.1 ≤ n) && decide (n ≤ r.2))

/-- The simple lowercase mapping on code points above U+007F. -/
def lowerCode (n : Nat) : Nat :=
  match lowerRules.find?
      (fun r => decide (r.1 ≤ n) && decide (n ≤ r.2.1) && decide ((n - r.1) % r.2.2.1 = 0)) with
  | some r => r.2.2.2 + (n - r.1)
  | none => n

/-- The next character that is not case-ignorable is a cased letter. -/
def casedNext (l : List Char) : Bool :=
  match l.dropWhile (fun c => inRanges caseIgnorableRanges c.toNat) with
  | c :: _ => inRanges casedRanges c.toNat
  | [] => false

/-- The context Final_Sigma of the Unicode special casing: a cased letter precedes, with
only case-ignorable characters in between, and no cased letter follows in the same way.
`before` holds the preceding characters, the nearest first. -/
def finalSigma (before after : List Char) : Bool :=
  casedNext before && !casedNext after

/-- Lower-casing of the characters of a string from a position on; `before` holds the
characters before the position, the nearest first. ASCII letters A-Z map to a-z; capital
sigma maps to the final or the non-final small sigma by its context; capital I with dot
above maps to `i` followed by the combining dot above; every other character follows the
simple lowercase mapping. -/
def lowerFrom (before : List Char) : List Char → List Char
  | [] => []
  | c :: rest =>
    (if c.val < 128 then [c.toLower]
     else if c.toNat = 0x3A3 then
       [Char.ofNat (if finalSigma before rest then 0x3C2 else 0x3C3)]
     else if c.toNat = 0x130 then [Char.ofNat 0x69, Char.ofNat 0x307]
     else [Char.ofNat (lowerCode c.toNat)]) ++ lowerFrom (c :: before) rest

/-- The method `String.prototype.toLowerCase`: the locale-independent Unicode default case
conversion (Unicode Character Database 14.0), on a string of Unicode scalar values. -/
def toLowerCase (s : String) : String := ⟨lowerFrom [] s.data⟩

/-- The method `s.includes(t)`: `t` occurs in `s` as a contiguous substring. -/
def includes (s t : String) : Bool := s.data.tails.any (fun u => t.data.isPrefixOf u)

/-- Swap of two array cells, `[a[i], a[j]] = [a[j], a[i]]`. -/
def swapAt {α : Type} (a : List α) (i j : Nat) : List α :=
  match a[i]?, a[j]? with
  | some x, some y => (a.set i y).set j x
  | _, _ => a

/-- Loop of `shuffle`: `n` is the number of iterations left, the current index is `i = n`. -/
def shuffleLoop {α : Type} (rand : Nat → Draw) : Nat → Nat → List α → List α × Nat
  | 0, k, a => (a, k)
  | i + 1, k, a => shuffleLoop rand i (k + 1) (swapAt a (i + 1) (floorMul (rand k) (i + 2)))

/-- Fisher-Yates `shuffle(arr)`; `k` is the index of the next random draw. Returns the
shuffled copy and the index of the next unused draw. -/
def shuffle {α : Type} (rand : Nat → Draw) (k : Nat) (arr : List α) : List α × Nat :=
  shuffleLoop rand (arr.length - 1) k arr

/-- A calendar cell `{ day, time }`. -/
structure Slot where
  day : String
  time : String
deriving DecidableEq, Repr

/-- The grid `ALL_SLOTS`: working days times teaching slots. -/
def ALL_SLOTS : List Slot :=
  WORKING_DAYS.flatMap (fun day => timeSlots.map (fun t => { day := day, time := t }))

/-! ## Records -/

/-- One entry of a faculty availability map (a `Mixed` field): a list of slots or a
per-slot boolean object. -/
inductive AvailEntry where
  | list (slots : List String)
  | slotMap (m : List (String × Bool))
deriving DecidableEq, Repr

/-- Availability object: day key to entry. -/
abbrev AvailMap := List (String × AvailEntry)

/-- Faculty document (`models/Faculty.js`); `name`, `department`, `expertise` and
`availability` may be absent, as the controllers allow for. -/
structure Faculty where
  _id : String
  name : Option String
  department : Option String
  expertise : Option (List String)
  max_weekly_hours : Nat
  availability : Option AvailMap
deriving DecidableEq, Repr

/-- Modelled from the spec: the Room document (`models/Room.js` is not among the sources):
identifier, name, capacity. The controllers read `_id` and `name`. -/
structure Room where
  _id : String
  name : String
  capacity : Nat
deriving DecidableEq, Repr

/-- Modelled from the spec: the Course document (`models/Course.js` is not among the
sources): identifier, title, code and an optional semester. The controllers read `title`,
`code` and `semester`. -/
structure Course where
  _id : String
  title : String
  code : String
  semester : Option Nat
deriving DecidableEq, Repr

/-- Session record as the generators build it. `batch_id` and `semester` are absent in
the records of `generateAndSaveStudentTimetable`. `faculty_id` and `room_id` hold the
hexadecimal form of the `ObjectId`. -/
structure Session where
  course : String
  course_code : String
  faculty : String
  faculty_id : String
  room : String
  room_id : String
  day : String
  time : String
  batch_id : Option String
  semester : Option Nat
deriving DecidableEq, Repr

/-- Which part of a generator pushed a session (bookkeeping, not a field of the record). -/
inductive Origin where
  | structured
  | fallback
  | padding
deriving DecidableEq, Repr

/-- A session together with its origin. -/
structure Placed where
  session : Session
  origin : Origin
deriving DecidableEq, Repr

/-- JavaScript truthiness of an optional string: absent and empty are falsy. -/
def truthy : Option String → Option String
  | some s => if s = "" then none else some s
  | none => none

/-- The helper `facultyNameOf(f)`, that is `f?.name || f?.department || "faculty"`. -/
def facultyNameOf (f : Faculty) : String :=
  match truthy f.name with
  | some n => n
  | none =>
    match truthy f.department with
    | some d => d
    | none => "faculty"

/-- Words of the regular expression of `isLabLike`. -/
def labWords : List String :=
  ["lab", "practical", "programming", "database", "web development", "software engineering"]

/-- Case folding of the flag `i` of a regular expression without the flag `u`, for a
pattern of ASCII letters: A-Z is identified with a-z, and no character above U+007F
matches an ASCII letter, so every other character is kept as it is. -/
def foldAscii (s : String) : String := ⟨s.data.map Char.toLower⟩

/-- The helper `isLabLike(title)`: the case-insensitive regular expression
`/lab|practical|programming|database|web development|software engineering/i`
matches somewhere in the title. -/
def isLabLike (title : String) : Bool :=
  labWords.any (fun w => includes (foldAscii title) w)

/-- Expertise test of one faculty member for a course title. -/
def hasExpertise (title : String) (f : Faculty) : Bool :=
  (f.expertise.getD []).any (fun exp =>
    includes (toLowerCase title) (toLowerCase exp) ||
    includes (toLowerCase exp) (toLowerCase title))

/-- The pool `availableFaculty.length ? availableFaculty : faculty`. -/
def candidatePool (title : String) (faculty : List Faculty) : List Faculty :=
  let availableFaculty := faculty.filter (hasExpertise title)
  if availableFaculty.length ≠ 0 then availableFaculty else faculty

/-- The value `(f.availability && f.availability[day.toLowerCase()]) || timeSlots`. -/
def availOf (f : Faculty) (day : String) : AvailEntry :=
  match f.availability with
  | none => .list timeSlots
  | some m =>
    match m.lookup (toLowerCase day) with
    | some e => e
    | none => .list timeSlots

/-- Room loop: first room of the roster whose key is not in `roomAtSlot`. -/
def pickRoom (roomAtSlot : List String) (rooms : List Room) (day time : String) :
    Option Room :=
  rooms.find? (fun r => decide (toKey [r.name, day, time] ∉ roomAtSlot))

/-- Slot loop `for (const timeSlot of avail)` of the per-student generators. -/
def scanSlots (facultyAtSlot roomAtSlot : List String) (rooms : List Room)
    (fName day : String) : List String → Option (String × Room)
  | [] => none
  | timeSlot :: rest =>
    if timeSlot = LUNCH_BREAK then scanSlots facultyAtSlot roomAtSlot rooms fName day rest
    else if toKey [fName, day, timeSlot] ∈ facultyAtSlot then
      scanSlots facultyAtSlot roomAtSlot rooms fName day rest
    else
      match pickRoom roomAtSlot rooms day timeSlot with
      | none => scanSlots facultyAtSlot roomAtSlot rooms fName day rest
      | some r => some (timeSlot, r)

/-- Faculty loop of the per-student generators; iterating a per-slot boolean object
with `for ... of` throws a `TypeError`. -/
def scanFaculty (facultyAtSlot roomAtSlot : List String) (rooms : List Room)
    (day : String) : List Faculty → Except String (Option (Faculty × String × Room))
  | [] => .ok none
  | f :: rest =>
    match availOf f day with
    | .slotMap _ => .error "TypeError: avail is not iterable"
    | .list avail =>
      match scanSlots facultyAtSlot roomAtSlot rooms (facultyNameOf f) day avail with
      | some (t, r) => .ok (some (f, t, r))
      | none => scanFaculty facultyAtSlot roomAtSlot rooms day rest

/-- Day loop of the per-student generators: the structured search, first fit. -/
def scanDays (facultyAtSlot roomAtSlot : List String) (rooms : List Room)
    (pool : List Faculty) : List String →
    Except String (Option (String × Faculty × String × Room))
  | [] => .ok none
  | day :: rest =>
    match scanFaculty facultyAtSlot roomAtSlot rooms day pool with
    | .error e => .error e
    | .ok (some (f, t, r)) => .ok (some (day, f, t, r))
    | .ok none => scanDays facultyAtSlot roomAtSlot rooms pool rest

/-- The expression `course.semester || Math.floor(Math.random() * 8) + 1`; returns the
value and the index of the next unused draw. -/
def semesterOr (semester : Option Nat) (rand : Nat → Draw) (k : Nat) : Nat × Nat :=
  match semester with
  | some (n + 1) => (n + 1, k)
  | _ => (floorMul (rand k) 8 + 1, k + 1)

/-! ## 1) generateStudentTimetable -/

/-- Mutable state of one run of `generateStudentTimetable`; `k` is the index of the next
random draw. -/
structure GenState where
  timetable : List Placed
  facultyAtSlot : List String
  roomAtSlot : List String
  k : Nat

/-- Record pushed by `generateStudentTimetable` and `generateNaiveTimetable`; the two
`Math.random()` calls of `batch_id` and `semester` are made in this order. Returns the
record and the index of the next unused draw. -/
def semesterEntry (rand : Nat → Draw) (k : Nat) (semester : Option Nat)
    (course code fName fId rName rId day time : String) : Session × Nat :=
  let b := semesterOr semester rand k
  let s := semesterOr semester rand b.2
  ({ course := course, course_code := code, faculty := fName, faculty_id := fId,
     room := rName, room_id := rId, day := day, time := time,
     batch_id := some ("Sem" ++ toString b.1), semester := some s.1 }, s.2)

/-- Body of `for (const course of courses)` in `generateStudentTimetable`: the structured
search over `WORKING_DAYS`, then the fallback when nothing was assigned. -/
def studentStep (rand : Nat → Draw) (faculty : List Faculty) (rooms : List Room)
    (st : GenState) (course : Course) : Except String GenState :=
  let pool := candidatePool course.title faculty
  match scanDays st.facultyAtSlot st.roomAtSlot rooms pool WORKING_DAYS with
  | .error e => .error e
  | .ok (some (day, f, timeSlot, chosenRoom)) =>
    let e := semesterEntry rand st.k course.semester course.title course.code
      (facultyNameOf f) f._id chosenRoom.name chosenRoom._id day timeSlot
    .ok { timetable := st.timetable ++ [⟨e.1, .structured⟩]
          facultyAtSlot := toKey [facultyNameOf f, day, timeSlot] :: st.facultyAtSlot
          roomAtSlot := toKey [chosenRoom.name, day, timeSlot] :: st.roomAtSlot
          k := e.2 }
  | .ok none =>
    match WORKING_DAYS[floorMul (rand st.k) WORKING_DAYS.length]?,
          timeSlots[floorMul (rand (st.k + 1)) timeSlots.length]?,
          faculty[floorMul (rand (st.k + 2)) faculty.length]?,
          rooms[floorMul (rand (st.k + 3)) rooms.length]? with
    | some fallbackDay, some fallbackTime, some f, some r =>
      let e := semesterEntry rand (st.k + 4) course.semester course.title course.code
        (facultyNameOf f) f._id r.name r._id fallbackDay fallbackTime
      .ok { st with timetable := st.timetable ++ [⟨e.1, .fallback⟩], k := e.2 }
    | _, _, _, _ => .error "TypeError: Cannot read properties of undefined"

/-- The loop `for (const course of courses)`. -/
def studentLoop (rand : Nat → Draw) (faculty : List Faculty) (rooms : List Room) :
    List Course → GenState → Except String GenState
  | [], st => .ok st
  | course :: rest, st =>
    match studentStep rand faculty rooms st course with
    | .error e => .error e
    | .ok st1 => studentLoop rand faculty rooms rest st1

/-- The function `generateStudentTimetable`, on the fetched courses, faculty and rooms. -/
def generateStudentTimetable (rand : Nat → Draw) (courses : List Course)
    (faculty : List Faculty) (rooms : List Room) : Except String (List Placed) :=
  if courses.length = 0 ∨ faculty.length = 0 ∨ rooms.length = 0 then
    .error ("Missing data - Courses: " ++ toString courses.length ++ ", Faculty: " ++
      toString faculty.length ++ ", Rooms: " ++ toString rooms.length)
  else
    match studentLoop rand faculty rooms courses
        { timetable := [], facultyAtSlot := [], roomAtSlot := [], k := 0 } with
    | .error e => .error e
    | .ok st => .ok st.timetable

/-! ## 2) generateNaiveTimetable -/

/-- The workload cap `maxPerFacultyTotal`. -/
def maxPerFacultyTotal : Nat := 6

/-- The call `workload.get(fId)`; every roster id is initialised to 0. -/
def workloadGet (workload : List (String × Nat)) (fId : String) : Nat :=
  (workload.lookup fId).getD 0

/-- Mutable state of one run of `generateNaiveTimetable`. -/
structure NaiveState where
  timetable : List Placed
  facultyAtSlot : List String
  roomAtSlot : List String
  workload : List (String × Nat)
  k : Nat

/-- Faculty loop of `generateNaiveTimetable`; `avail.includes` on a per-slot boolean
object throws a `TypeError`. -/
def chooseFaculty (facultyAtSlot : List String) (workload : List (String × Nat))
    (slot : Slot) : List Faculty → Except String (Option Faculty)
  | [] => .ok none
  | f :: rest =>
    match availOf f slot.day with
    | .slotMap _ => .error "TypeError: avail.includes is not a function"
    | .list avail =>
      if slot.time ∉ avail then chooseFaculty facultyAtSlot workload slot rest
      else if toKey [facultyNameOf f, slot.day, slot.time] ∈ facultyAtSlot then
        chooseFaculty facultyAtSlot workload slot rest
      else if workloadGet workload f._id ≥ maxPerFacultyTotal then
        chooseFaculty facultyAtSlot workload slot rest
      else .ok (some f)

/-- Course field of a naive session: the title, annotated for a lab-like course with a
random session type (one draw). Returns the field and the index of the next draw. -/
def naiveCourseField (rand : Nat → Draw) (k : Nat) (title : String) : String × Nat :=
  if isLabLike title then
    (title ++ " (" ++ (if belowHalf (rand k) then "Lab" else "Theory") ++ ")", k + 1)
  else (title, k)

/-- The loop `for (const slot of slots)` of `generateNaiveTimetable`. -/
def naiveLoop (rand : Nat → Draw) (targetClasses : Nat) (shuffledCourses : List Course)
    (shuffledFaculty : List Faculty) (shuffledRooms : List Room) :
    List Slot → NaiveState → Except String NaiveState
  | [], st => .ok st
  | slot :: rest, st =>
    if st.timetable.length ≥ targetClasses then .ok st
    else if slot.time = LUNCH_BREAK then
      naiveLoop rand targetClasses shuffledCourses shuffledFaculty shuffledRooms rest st
    else
      match shuffledCourses[floorMul (rand st.k) shuffledCourses.length]? with
      | none => .error "TypeError: Cannot read properties of undefined"
      | some selectedCourse =>
        let st1 := { st with k := st.k + 1 }
        match chooseFaculty st.facultyAtSlot st.workload slot
            (candidatePool selectedCourse.title shuffledFaculty) with
        | .error e => .error e
        | .ok none =>
          naiveLoop rand targetClasses shuffledCourses shuffledFaculty shuffledRooms rest st1
        | .ok (some chosenFaculty) =>
          match pickRoom st.roomAtSlot shuffledRooms slot.day slot.time with
          | none =>
            naiveLoop rand targetClasses shuffledCourses shuffledFaculty shuffledRooms rest st1
          | some chosenRoom =>
            let c := naiveCourseField rand st1.k selectedCourse.title
            let e := semesterEntry rand c.2 selectedCourse.semester c.1 selectedCourse.code
              (facultyNameOf chosenFaculty) chosenFaculty._id chosenRoom.name chosenRoom._id
              slot.day slot.time
            naiveLoop rand targetClasses shuffledCourses shuffledFaculty shuffledRooms rest
              { timetable := st.timetable ++ [⟨e.1, .structured⟩]
                facultyAtSlot :=
                  toKey [facultyNameOf chosenFaculty, slot.day, slot.time] :: st.facultyAtSlot
                roomAtSlot := toKey [chosenRoom.name, slot.day, slot.time] :: st.roomAtSlot
                workload := (chosenFaculty._id,
                  workloadGet st.workload chosenFaculty._id + 1) :: st.workload
                k := e.2 }

/-- The handler `generateNaiveTimetable`, on the fetched rosters: the persisted session
list, or the message of the 400 or 500 response. -/
def generateNaiveTimetable (rand : Nat → Draw) (courses : List Course)
    (faculty : List Faculty) (rooms : List Room) : Except String (List Placed) :=
  if courses.length = 0 then .error "No courses found. Please add courses first."
  else if faculty.length = 0 then .error "No faculty found. Please add faculty first."
  else if rooms.length = 0 then .error "No rooms found. Please add rooms first."
  else
    let workload := faculty.map (fun f => (f._id, 0))
    let targetClasses := min (courses.length * 2) (WORKING_DAYS.length * timeSlots.length)
    let slots := shuffle rand 0 ALL_SLOTS
    let shuffledCourses := shuffle rand slots.2 courses
    let shuffledFaculty := shuffle rand shuffledCourses.2 faculty
    let shuffledRooms := shuffle rand shuffledFaculty.2 rooms
    match naiveLoop rand targetClasses shuffledCourses.1 shuffledFaculty.1 shuffledRooms.1
        slots.1 { timetable := [], facultyAtSlot := [], roomAtSlot := [],
                  workload := workload, k := shuffledRooms.2 } with
    | .error e => .error e
    | .ok st => .ok (shuffle rand st.k st.timetable).1

/-! ## 4) generateAndSaveStudentTimetable -/

/-- An identifier read back from a stored document: an `ObjectId` or a plain string. -/
inductive JsId where
  | objectId (hex : String)
  | str (s : String)
deriving DecidableEq, Repr

/-- The conversion `String(id)`. -/
def JsId.toStr : JsId → String
  | .objectId hex => hex
  | .str s => s

/-- JavaScript truthiness of an optional identifier: an `ObjectId` is an object. -/
def truthyId : Option JsId → Option String
  | some (.objectId hex) => some hex
  | some (.str s) => if s = "" then none else some s
  | none => none

/-- Modelled from the spec: a session object as found in the `data` array of a stored
timetable document (`models/Timetable.js` is not among the sources); the fields are the
ones the controllers read, and each may be absent. -/
structure StoredSession where
  course : Option String
  course_name : Option String
  course_code : Option String
  faculty : Option String
  faculty_name : Option String
  faculty_id : Option JsId
  room : Option String
  room_id : Option JsId
  day : Option String
  time : Option String
  time_slot : Option String
deriving DecidableEq, Repr

/-- A generator record as it is stored. -/
def Session.toStored (s : Session) : StoredSession :=
  { course := some s.course, course_name := none, course_code := some s.course_code,
    faculty := some s.faculty, faculty_name := none,
    faculty_id := some (.objectId s.faculty_id),
    room := some s.room, room_id := some (.objectId s.room_id),
    day := some s.day, time := some s.time, time_slot := none }

/-- Modelled from the spec: a stored timetable document (`models/Timetable.js` is not
among the sources): optional owner, version label, session list. -/
structure TimetableDoc where
  student_id : Option String
  version_name : String
  data : Option (List StoredSession)
deriving DecidableEq, Repr

/-- The value `session.faculty || session.faculty_name || session.faculty_id || "Faculty"`,
as a string. -/
def storedFacultyName (s : StoredSession) : String :=
  match truthy s.faculty with
  | some n => n
  | none =>
    match truthy s.faculty_name with
    | some n => n
    | none =>
      match truthyId s.faculty_id with
      | some n => n
      | none => "Faculty"

/-- The value `session.room || session.room_id || "Room"`, as a string. -/
def storedRoomName (s : StoredSession) : String :=
  match truthy s.room with
  | some n => n
  | none =>
    match truthyId s.room_id with
    | some n => n
    | none => "Room"

/-- The value `session.time || session.time_slot`. -/
def storedTime (s : StoredSession) : Option String :=
  match truthy s.time with
  | some t => some t
  | none => truthy s.time_slot

/-- Occupancy keys contributed by one stored session (faculty key, room key), when the
session has a day and a time. -/
def seedKeys (s : StoredSession) : Option (String × String) :=
  match truthy s.day, storedTime s with
  | some day, some time =>
    some (toKey [storedFacultyName s, day, time], toKey [storedRoomName s, day, time])
  | _, _ => none

/-- All sessions of all stored timetables, in document order. -/
def storedSessions (existingTimetables : List TimetableDoc) : List StoredSession :=
  existingTimetables.flatMap (fun tt => tt.data.getD [])

/-- The set `facultyAtSlot` after the seeding loop. -/
def seedFaculty (existingTimetables : List TimetableDoc) : List String :=
  (storedSessions existingTimetables).filterMap (fun s => (seedKeys s).map Prod.fst)

/-- The set `roomAtSlot` after the seeding loop. -/
def seedRoom (existingTimetables : List TimetableDoc) : List String :=
  (storedSessions existingTimetables).filterMap (fun s => (seedKeys s).map Prod.snd)

/-- The constant `minClassesPerDay`. -/
def minClassesPerDay : Nat := 4

/-- Mutable state of one run of `generateAndSaveStudentTimetable`. `dailySchedule` is
read and written at working days only. -/
structure SaveState where
  timetable : List Placed
  dailySchedule : String → List Placed
  facultyAtSlot : List String
  roomAtSlot : List String
  k : Nat

/-- The statements `timetable.push(classEntry); dailySchedule[day].push(classEntry)`. -/
def SaveState.push (st : SaveState) (day : String) (e : Placed) : SaveState :=
  { st with
    timetable := st.timetable ++ [e]
    dailySchedule := fun d => if d = day then st.dailySchedule d ++ [e] else st.dailySchedule d }

/-- The expression `[...workingDays].sort((a, b) => dailySchedule[a].length -
dailySchedule[b].length)`; the sort is stable. -/
def sortedDays (dailySchedule : String → List Placed) : List String :=
  WORKING_DAYS.insertionSort
    (fun a b => (dailySchedule a).length ≤ (dailySchedule b).length)

/-- Session type label of the structured loop (`session === 0`) and of the fallback loop
(`assigned === 0`). -/
def sessionType (isLabCourse : Bool) (index : Nat) : String :=
  if isLabCourse then (if index = 0 then "Theory" else "Lab") else "Theory"

/-- Course field of a record, the title with its session type when the course is lab-like. -/
def courseField (title : String) (isLabCourse : Bool) (sessionType : String) : String :=
  title ++ (if isLabCourse then " (" ++ sessionType ++ ")" else "")

/-- Record built by `generateAndSaveStudentTimetable` (no batch label, no semester). -/
def classEntry (course code fName fId rName rId day time : String) : Session :=
  { course := course, course_code := code, faculty := fName, faculty_id := fId,
    room := rName, room_id := rId, day := day, time := time,
    batch_id := none, semester := none }

/-- The loop `for (let session = 0; session < sessionsNeeded && assigned < sessionsNeeded;
session++)`; returns `assigned` and the state. The first argument bounds the number of
iterations. -/
def structuredPass (course : Course) (isLabCourse : Bool) (sessionsNeeded : Nat)
    (facultyToTry : List Faculty) (rooms : List Room) :
    Nat → Nat → Nat → SaveState → Except String (Nat × SaveState)
  | 0, session, assigned, st =>
    if session < sessionsNeeded ∧ assigned < sessionsNeeded then .error "iteration bound"
    else .ok (assigned, st)
  | fuel + 1, session, assigned, st =>
    if session < sessionsNeeded ∧ assigned < sessionsNeeded then
      match scanDays st.facultyAtSlot st.roomAtSlot rooms facultyToTry
          (sortedDays st.dailySchedule) with
      | .error e => .error e
      | .ok none =>
        structuredPass course isLabCourse sessionsNeeded facultyToTry rooms fuel
          (session + 1) assigned st
      | .ok (some (day, selectedFaculty, timeSlot, chosenRoom)) =>
        let e : Placed :=
          ⟨classEntry (courseField course.title isLabCourse (sessionType isLabCourse session))
            course.code (facultyNameOf selectedFaculty) selectedFaculty._id
            chosenRoom.name chosenRoom._id day timeSlot, .structured⟩
        let st1 := st.push day e
        structuredPass course isLabCourse sessionsNeeded facultyToTry rooms fuel
          (session + 1) (assigned + 1)
          { st1 with
            facultyAtSlot := toKey [facultyNameOf selectedFaculty, day, timeSlot] ::
              st.facultyAtSlot
            roomAtSlot := toKey [chosenRoom.name, day, timeSlot] :: st.roomAtSlot }
    else .ok (assigned, st)

/-- The loop `while (assigned < sessionsNeeded)`: fallback placement, no occupancy check.
The first argument bounds the number of iterations. -/
def fallbackPass (rand : Nat → Draw) (course : Course) (isLabCourse : Bool)
    (sessionsNeeded : Nat) (faculty : List Faculty) (rooms : List Room) :
    Nat → Nat → SaveState → Except String SaveState
  | 0, assigned, st =>
    if assigned < sessionsNeeded then .error "iteration bound" else .ok st
  | fuel + 1, assigned, st =>
    if assigned < sessionsNeeded then
      match faculty[floorMul (rand st.k) faculty.length]?,
            (sortedDays st.dailySchedule)[0]?,
            timeSlots[floorMul (rand (st.k + 1)) timeSlots.length]?,
            rooms[floorMul (rand (st.k + 2)) rooms.length]? with
      | some fallbackFaculty, some fallbackDay, some fallbackTime, some room =>
        let e : Placed :=
          ⟨classEntry (courseField course.title isLabCourse (sessionType isLabCourse assigned))
            course.code (facultyNameOf fallbackFaculty) fallbackFaculty._id
            room.name room._id fallbackDay fallbackTime, .fallback⟩
        fallbackPass rand course isLabCourse sessionsNeeded faculty rooms fuel (assigned + 1)
          { st.push fallbackDay e with k := st.k + 3 }
      | _, _, _, _ => .error "TypeError: Cannot read properties of undefined"
    else .ok st

/-- Body of `for (const course of courses)`: structured loop, then fallback loop. -/
def saveStep (rand : Nat → Draw) (faculty : List Faculty) (rooms : List Room)
    (st : SaveState) (course : Course) : Except String SaveState :=
  let isLabCourse := isLabLike course.title
  let sessionsNeeded := if isLabCourse then 2 else 1
  let facultyToTry := candidatePool course.title faculty
  match structuredPass course isLabCourse sessionsNeeded facultyToTry rooms
      sessionsNeeded 0 0 st with
  | .error e => .error e
  | .ok (assigned, st1) =>
    fallbackPass rand course isLabCourse sessionsNeeded faculty rooms sessionsNeeded
      assigned st1

/-- The loop `for (const course of courses)`. -/
def saveLoop (rand : Nat → Draw) (faculty : List Faculty) (rooms : List Room) :
    List Course → SaveState → Except String SaveState
  | [], st => .ok st
  | course :: rest, st =>
    match saveStep rand faculty rooms st course with
    | .error e => .error e
    | .ok st1 => saveLoop rand faculty rooms rest st1

/-- The loop `while (dailySchedule[day].length < minClassesPerDay && courses.length > 0)`
of the padding pass. The first argument bounds the number of iterations. -/
def padDay (rand : Nat → Draw) (courses : List Course) (faculty : List Faculty)
    (rooms : List Room) (day : String) : Nat → SaveState → Except String SaveState
  | 0, st =>
    if (st.dailySchedule day).length < minClassesPerDay ∧ courses.length > 0 then
      .error "iteration bound"
    else .ok st
  | fuel + 1, st =>
    if (st.dailySchedule day).length < minClassesPerDay ∧ courses.length > 0 then
      match courses[floorMul (rand st.k) courses.length]?,
            faculty[floorMul (rand (st.k + 1)) faculty.length]?,
            timeSlots[floorMul (rand (st.k + 2)) timeSlots.length]?,
            rooms[floorMul (rand (st.k + 3)) rooms.length]? with
      | some randomCourse, some randomFaculty, some randomTime, some room =>
        let e : Placed :=
          ⟨classEntry (randomCourse.title ++ " (Extra)") randomCourse.code
            (facultyNameOf randomFaculty) randomFaculty._id room.name room._id day randomTime,
            .padding⟩
        padDay rand courses faculty rooms day fuel { st.push day e with k := st.k + 4 }
      | _, _, _, _ => .error "TypeError: Cannot read properties of undefined"
    else .ok st

/-- The padding pass `workingDays.forEach((day) => ...)`. -/
def padLoop (rand : Nat → Draw) (courses : List Course) (faculty : List Faculty)
    (rooms : List Room) : List String → SaveState → Except String SaveState
  | [], st => .ok st
  | day :: rest, st =>
    match padDay rand courses faculty rooms day minClassesPerDay st with
    | .error e => .error e
    | .ok st1 => padLoop rand courses faculty rooms rest st1

/-- The function `generateAndSaveStudentTimetable`, on the fetched courses, faculty, rooms
and stored timetables: the returned (and persisted) session list, or the error thrown. -/
def generateAndSaveStudentTimetable (rand : Nat → Draw) (courses : List Course)
    (faculty : List Faculty) (rooms : List Room) (existingTimetables : List TimetableDoc) :
    Except String (List Placed) :=
  if courses.length = 0 then .error "No courses found for the provided course IDs"
  else if faculty.length = 0 then .error "No faculty available for assignment"
  else if rooms.length = 0 then .error "No rooms available for assignment"
  else
    match saveLoop rand faculty rooms courses
        { timetable := [], dailySchedule := fun _ => [],
          facultyAtSlot := seedFaculty existingTimetables,
          roomAtSlot := seedRoom existingTimetables, k := 0 } with
    | .error e => .error e
    | .ok st =>
      match padLoop rand courses faculty rooms WORKING_DAYS st with
      | .error e => .error e
      | .ok st1 => .ok st1.timetable

/-! ## syncAvailabilityWithSchedule -/

/-- Property access `obj[key]` with a possibly undefined key: the key is converted to the
string "undefined". -/
def jsKey : Option String → String
  | some s => s
  | none => "undefined"

/-- The object `dayMap` of the reconciler. -/
def dayMap : List (String × String) :=
  [("Mon", "Monday"), ("Tue", "Tuesday"), ("Wed", "Wednesday"), ("Thu", "Thursday"),
   ("Fri", "Friday")]

/-- The test `slot.faculty_id !== faculty._id.toString()`; an `ObjectId` is never strictly
equal to a string. -/
def facultyIdDiffers (slot : StoredSession) (facultyId : String) : Bool :=
  match slot.faculty_id with
  | some (.str s) => s != facultyId
  | _ => true

/-- The text that V8 gives for a built-in function, `String(fn)`. -/
def nativeFunction (name : String) : String :=
  "function " ++ name ++ "() \x7b [native code] \x7d"

/-- The properties that a plain object such as `dayMap` inherits from `Object.prototype`,
each with the property key that its value converts to: the built-in methods convert to
their function text, and `__proto__` yields `Object.prototype`, which converts to
"[object Object]". -/
def objectPrototype : List (String × String) :=
  [("constructor", nativeFunction "Object"),
   ("__defineGetter__", nativeFunction "__defineGetter__"),
   ("__defineSetter__", nativeFunction "__defineSetter__"),
   ("hasOwnProperty", nativeFunction "hasOwnProperty"),
   ("__lookupGetter__", nativeFunction "__lookupGetter__"),
   ("__lookupSetter__", nativeFunction "__lookupSetter__"),
   ("isPrototypeOf", nativeFunction "isPrototypeOf"),
   ("propertyIsEnumerable", nativeFunction "propertyIsEnumerable"),
   ("toString", nativeFunction "toString"),
   ("valueOf", nativeFunction "valueOf"),
   ("__proto__", "[object Object]"),
   ("toLocaleString", nativeFunction "toLocaleString")]

/-- The property key that `dayName = dayMap[slot.day]` converts to in
`availability[dayName]`: the full day name for the five day codes; for a day that names a
property inherited from `Object.prototype`, the key of the inherited value; and
"undefined" for every other day and for an absent day. -/
def dayNameKey (day : Option String) : String :=
  match dayMap.lookup (jsKey day) with
  | some dayName => dayName
  | none => jsKey (objectPrototype.lookup (jsKey day))

/-- The filter callback of the reconciler: `availability[dayName] &&
availability[dayName][slot.time_slot] === false` for a slot of this faculty. The submitted
availability is a JSON object, so its own entries are all it holds under these keys, and a
value inherited by an entry is never `false`. -/
def isConflict (facultyId : String) (availability : AvailMap) (slot : StoredSession) : Bool :=
  if facultyIdDiffers slot facultyId then false
  else
    let dayName := dayNameKey slot.day
    match availability.lookup dayName with
    | some (.slotMap m) => m.lookup (jsKey slot.time_slot) == some false
    | _ => false

/-- Conflict report of `syncAvailabilityWithSchedule`: the count `conflicts` and the
sessions selected by the filter, which the response lists as `conflictingClasses` after
projecting each to `course_name`, `day`, `time_slot` and `room_id`. -/
structure ConflictReport where
  conflicts : Nat
  conflictingClasses : List StoredSession
deriving DecidableEq, Repr

/-- The handler `syncAvailabilityWithSchedule`, on the stored faculty id, the submitted
availability and the data of the timetable found (if any). -/
def syncAvailabilityWithSchedule (facultyId : String) (availability : AvailMap)
    (latestData : Option (List StoredSession)) : ConflictReport :=
  match latestData with
  | some data =>
    let conflictingClasses := data.filter (isConflict facultyId availability)
    { conflicts := conflictingClasses.length, conflictingClasses := conflictingClasses }
  | none => { conflicts := 0, conflictingClasses := [] }

/-! ## Predicates used in the statements -/

/-- What a successful structured search guarantees about the chosen combination. -/
structure Feasible (fas ras : List String) (rooms : List Room) (pool : List Faculty)
    (dayList : List String) (day : String) (f : Faculty) (t : String) (r : Room) : Prop where
  day_mem : day ∈ dayList
  faculty_mem : f ∈ pool
  avail : ∃ l, availOf f day = .list l ∧ t ∈ l
  not_lunch : t ≠ LUNCH_BREAK
  faculty_free : toKey [facultyNameOf f, day, t] ∉ fas
  room_mem : r ∈ rooms
  room_free : toKey [r.name, day, t] ∉ ras


/-- Two sessions share (faculty, day, time-slot); the faculty is the `faculty` field of
the record, the identity used by the occupancy keys. -/
def FacultyClash (a b : Session) : Prop :=
  a.faculty = b.faculty ∧ a.day = b.day ∧ a.time = b.time

/-- Two sessions share (room, day, time-slot). -/
def RoomClash (a b : Session) : Prop :=
  a.room = b.room ∧ a.day = b.day ∧ a.time = b.time

/-- No two sessions of the list that were both placed by the structured search share
(faculty, day, time-slot) or (room, day, time-slot). -/
def NoStructuredClash (l : List Placed) : Prop :=
  l.Pairwise (fun p q => p.origin = .structured → q.origin = .structured →
    ¬ FacultyClash p.session q.session ∧ ¬ RoomClash p.session q.session)

/-- Every structured session of the list has its faculty key and its room key in the
occupancy sets. -/
def Tracked (fas ras : List String) (l : List Placed) : Prop :=
  ∀ p ∈ l, p.origin = .structured →
    toKey [p.session.faculty, p.session.day, p.session.time] ∈ fas ∧
    toKey [p.session.room, p.session.day, p.session.time] ∈ ras

/-- No session of the list is in the lunch slot. -/
def NoLunch (l : List Placed) : Prop := ∀ p ∈ l, p.session.time ≠ LUNCH_BREAK

/-- Run invariant shared by the three generators. -/
structure RunInv (fas ras : List String) (l : List Placed) : Prop where
  tracked : Tracked fas ras l
  noClash : NoStructuredClash l
  noLunch : NoLunch l

/-- The per-day lists of `dailySchedule` hold exactly the sessions of `timetable` on
that day, in order. -/
def DailyOk (st : SaveState) : Prop :=
  ∀ d, st.dailySchedule d = st.timetable.filter (fun p => decide (p.session.day = d))

/-- Invariant of a run of `generateAndSaveStudentTimetable`. -/
structure SaveInv (st : SaveState) : Prop where
  run : RunInv st.facultyAtSlot st.roomAtSlot st.timetable
  daily : DailyOk st

/-- Every faculty member's availability value on every working day is a list (an
explicit list, or the default when the map or the entry is absent). -/
def ListAvail (faculty : List Faculty) : Prop :=
  ∀ f ∈ faculty, ∀ d ∈ WORKING_DAYS, ∃ l, availOf f d = .list l

/-- What one pass over a course appended to the timetable: sessions of one origin, for
this course, labelled by consecutive session indices starting at `first`. -/
structure Appended (c : Course) (isLab : Bool) (o : Origin) (first : Nat)
    (st st1 : SaveState) (new : List Placed) : Prop where
  timetable_eq : st1.timetable = st.timetable ++ new
  origin : ∀ p ∈ new, p.origin = o ∧ p.session.course_code = c.code
  labels : new.map (fun p => p.session.course) =
    (List.range' first new.length).map
      (fun i => courseField c.title isLab (sessionType isLab i))

/-- The sessions pushed while one course is processed (structured loop, then fallback
loop): their number, origins, course code and course fields, in push order. -/
structure CourseBlock (c : Course) (b : List Placed) : Prop where
  length_eq : b.length = if isLabLike c.title then 2 else 1
  origins : ∃ k, k ≤ b.length ∧ b.map (fun p => p.origin) =
    List.replicate k Origin.structured ++ List.replicate (b.length - k) Origin.fallback
  code : ∀ p ∈ b, p.session.course_code = c.code
  labels : b.map (fun p => p.session.course) =
    if isLabLike c.title then [c.title ++ " (Theory)", c.title ++ " (Lab)"] else [c.title]

/-- Number of sessions of a schedule on a day. -/
def sessionsOn (d : String) (l : List Placed) : Nat :=
  (l.filter (fun p => decide (p.session.day = d))).length

/-- Number of sessions of a schedule assigned to the faculty member with the given id. -/
def assignedTo (fId : String) (l : List Placed) : Nat :=
  (l.filter (fun p => decide (p.session.faculty_id = fId))).length

/-- Invariant of the slot loop of `generateNaiveTimetable`. -/
structure NaiveInv (target : Nat) (st : NaiveState) : Prop where
  run : RunInv st.facultyAtSlot st.roomAtSlot st.timetable
  load : ∀ fId, assignedTo fId st.timetable = workloadGet st.workload fId
  cap : ∀ fId, workloadGet st.workload fId ≤ maxPerFacultyTotal
  size : st.timetable.length ≤ target
  origin : ∀ p ∈ st.timetable, p.origin = .structured

/-! ## Sample data -/

/-- Sample faculty member with expertise tag "Database" and no availability map. -/
def sampleFacultyA : Faculty :=
  { _id := "fa", name := some "A", department := some "CS", expertise := some ["Database"],
    max_weekly_hours := 20, availability := none }

/-- Sample faculty member with an unrelated expertise tag and no availability map. -/
def sampleFacultyB : Faculty :=
  { _id := "fb", name := some "B", department := some "CS", expertise := some ["Physics"],
    max_weekly_hours := 20, availability := none }

/-- Sample room. -/
def sampleRoom : Room := { _id := "r1", name := "R1", capacity := 30 }

/-- Sample lab-like course. -/
def sampleCourse : Course :=
  { _id := "c1", title := "Database Systems", code := "CS301", semester := some 3 }

/-- Sample random stream: every draw is 0. -/
def sampleRand : Nat → Draw := fun _ => ⟨0, 1, Nat.zero_lt_one⟩

/-- The derived `sessionsNeeded` of a course: 2 when the title is lab-like, else 1. -/
def sessionsNeeded (c : Course) : Nat := if isLabLike c.title then 2 else 1

/-- Spec-side expertise match: the faculty member has an expertise tag `t` such that
lower(title) contains lower(t) or lower(t) contains lower(title). -/
def ExpertiseMatch (title : String) (f : Faculty) : Prop :=
  ∃ t ∈ f.expertise.getD [],
    includes (toLowerCase title) (toLowerCase t) = true ∨
    includes (toLowerCase t) (toLowerCase title) = true

instance (title : String) (f : Faculty) : Decidable (ExpertiseMatch title f) := by
  unfold ExpertiseMatch
  infer_instance

/-- Spec-side candidate pool: the matching sub-list of the roster in roster order when it
is non-empty, otherwise the entire roster. -/
def specPool (title : String) (roster : List Faculty) : List Faculty :=
  if (roster.filter (fun f => decide (ExpertiseMatch title f))) = [] then roster
  else roster.filter (fun f => decide (ExpertiseMatch title f))

/-- Sample catalog of four courses. -/
def sampleCatalog : List Course :=
  [sampleCourse,
   { _id := "c2", title := "Calculus I", code := "MATH101", semester := some 1 },
   { _id := "c3", title := "Data Structures", code := "CS201", semester := some 2 },
   { _id := "c4", title := "Web Development", code := "CS401", semester := none }]

/-- Body of the slot loop of the per-student generators after the lunch guard, for one
slot: the faculty occupancy test, then the room loop. -/
def trySlot (facultyAtSlot roomAtSlot : List String) (rooms : List Room)
    (fName day timeSlot : String) : Option (String × Room) :=
  if toKey [fName, day, timeSlot] ∈ facultyAtSlot then none
  else (pickRoom roomAtSlot rooms day timeSlot).map (fun r => (timeSlot, r))

/-- The time-slots that the per-student generators try for a faculty member on a day, in
order: the elements of `avail` that pass the guard `if (timeSlot === LUNCH_BREAK)
continue`. Iterating a per-slot boolean object throws. -/
def slotsTried (f : Faculty) (day : String) : Except String (List String) :=
  match availOf f day with
  | .slotMap _ => .error "TypeError: avail is not iterable"
  | .list avail => .ok (avail.filter (fun t => decide (t ≠ LUNCH_BREAK)))

/-- Sample faculty member whose Monday list starts with the lunch slot. -/
def sampleFacultyLunch : Faculty :=
  { sampleFacultyA with
    availability := some [("mon", .list ["12:00-13:00", "10:00-11:00"])] }

/-- Every session of the list carries the name and id of one member of the faculty roster
and the name and id of one room of the room roster. -/
def FromRoster (faculty : List Faculty) (rooms : List Room) (l : List Placed) : Prop :=
  ∀ p ∈ l,
    (∃ f ∈ faculty, p.session.faculty = facultyNameOf f ∧ p.session.faculty_id = f._id) ∧
    (∃ r ∈ rooms, p.session.room = r.name ∧ p.session.room_id = r._id)

/-- Sample faculty member whose entry under the key "mon" is a per-slot boolean object. -/
def sampleFacultyMap : Faculty :=
  { sampleFacultyA with availability := some [("mon", .slotMap [("09:00-10:00", false)])] }

/-- Sample faculty member with the availability the availability form submits: keyed by
full day name, per-slot booleans. -/
def sampleFacultyMonday : Faculty :=
  { sampleFacultyA with availability := some [("Monday", .slotMap [("09:00-10:00", false)])] }

/-- Sample faculty member with a seed-style availability: keyed by full day name, a list
of permitted slots. -/
def sampleFacultySeed : Faculty :=
  { sampleFacultyA with availability := some [("Monday", .list ["10:00-11:00"])] }

/-- The full day names, the keys used by the seed data, the availability form and the
reconciler. -/
def fullDayNames : List String :=
  ["Monday", "Tuesday", "Wednesday", "Thursday", "Friday", "Saturday"]

/-! ## Database state and the handlers on it -/

/-- A document of the Faculty collection with its `user_id` link (`models/Faculty.js`);
the generators read the fields of `doc` only. -/
structure FacultyRecord where
  user_id : Option String
  doc : Faculty
deriving DecidableEq, Repr

/-- Modelled from the spec: the state of the four collections the core reads and writes
(rosters read through `listCourses`, `listFaculty`, `listRooms`; schedule versions). -/
structure Db where
  courses : List Course
  faculty : List FacultyRecord
  rooms : List Room
  timetables : List TimetableDoc
deriving DecidableEq, Repr

/-- Update part of `Faculty.findOneAndUpdate({ user_id }, { availability }, ...)`: the
first document with this `user_id` gets the new availability. Returns the updated document
and the updated collection, or nothing when no document matches. -/
def updateFirst (userId : String) (availability : AvailMap) :
    List FacultyRecord → Option (FacultyRecord × List FacultyRecord)
  | [] => none
  | r :: rest =>
    if r.user_id = some userId then
      some ({ r with doc := { r.doc with availability := some availability } },
        { r with doc := { r.doc with availability := some availability } } :: rest)
    else
      match updateFirst userId availability rest with
      | some (u, l) => some (u, r :: l)
      | none => none

/-- Document inserted by the upsert when no faculty document has this `user_id`: the
schema defaults and the submitted availability. -/
def insertedFaculty (userId : String) (availability : AvailMap) (freshId : String) :
    FacultyRecord :=
  { user_id := some userId,
    doc := { _id := freshId, name := none, department := none, expertise := some [],
             max_weekly_hours := 20, availability := some availability } }

/-- The call `Faculty.findOneAndUpdate({ user_id: facultyId }, { availability },
{ new: true, upsert: true })`; `freshId` is the id an inserted document receives. -/
def upsertAvailability (faculty : List FacultyRecord) (userId : String)
    (availability : AvailMap) (freshId : String) : FacultyRecord × List FacultyRecord :=
  match updateFirst userId availability faculty with
  | some res => res
  | none =>
    (insertedFaculty userId availability freshId,
     faculty ++ [insertedFaculty userId availability freshId])

/-- One element of `conflictingClasses` in the response:
`{ course: c.course_name, day: c.day, time: c.time_slot, room: c.room_id }`. -/
structure ReportEntry where
  course : Option String
  day : Option String
  time : Option String
  room : Option JsId
deriving DecidableEq, Repr

/-- The projection `conflictingClasses.map(c => ...)` of the response. -/
def toReportEntry (c : StoredSession) : ReportEntry :=
  { course := c.course_name, day := c.day, time := c.time_slot, room := c.room_id }

/-- Response of `syncAvailabilityWithSchedule`: status, message, the faculty document,
the conflict count and, when a schedule was checked, the conflicting classes. -/
structure SyncResponse where
  status : Nat
  message : String
  faculty : Faculty
  conflicts : Nat
  conflictingClasses : Option (List ReportEntry)
deriving DecidableEq, Repr

/-- The handler `syncAvailabilityWithSchedule` on a database state: it writes the
availability, reads the latest timetable and answers with the conflict report; returns
the response and the new database state. Modelled from the spec: `findLatest` is the
query `Timetable.findOne().sort({ created_at: -1 })` (latest schedule version), which
depends on the Timetable schema that is not among the sources. -/
def syncAvailabilityHandler (findLatest : List TimetableDoc → Option TimetableDoc)
    (freshId : String) (db : Db) (userId : String) (availability : AvailMap) :
    SyncResponse × Db :=
  let up := upsertAvailability db.faculty userId availability freshId
  let db1 : Db := { db with faculty := up.2 }
  match (findLatest db1.timetables).bind (fun tt => tt.data) with
  | some data =>
    let report := syncAvailabilityWithSchedule up.1.doc._id availability (some data)
    ({ status := 200, message := "Availability synced successfully with teaching schedule",
       faculty := up.1.doc, conflicts := report.conflicts,
       conflictingClasses := some (report.conflictingClasses.map toReportEntry) }, db1)
  | none =>
    ({ status := 200, message := "Availability updated successfully",
       faculty := up.1.doc, conflicts := 0, conflictingClasses := none }, db1)

/-- The call `Timetable.findOneAndUpdate({ student_id }, { student_id, version_name, data },
{ upsert: true, new: true })`: the first document of this student is replaced, or a new
document is inserted. -/
def upsertStudentTimetable (studentId versionName : String) (data : List StoredSession) :
    List TimetableDoc → List TimetableDoc
  | [] => [{ student_id := some studentId, version_name := versionName, data := some data }]
  | tt :: rest =>
    if tt.student_id = some studentId then
      { student_id := some studentId, version_name := versionName, data := some data } :: rest
    else tt :: upsertStudentTimetable studentId versionName data rest

/-- The function `generateAndSaveStudentTimetable(studentId, courseIds)` on a database
state: fetch, generate, and on success upsert the student's schedule version; `now` is
the value of `Date.now()`. Returns the result and the new database state. -/
def generateAndSaveOn (rand : Nat → Draw) (now : Nat) (db : Db) (studentId : String)
    (courseIds : List String) : Except String (List Placed) × Db :=
  let courses := db.courses.filter (fun c => decide (c._id ∈ courseIds))
  match generateAndSaveStudentTimetable rand courses (db.faculty.map (fun r => r.doc))
      db.rooms db.timetables with
  | .error e => (.error e, db)
  | .ok timetable =>
    let versionName := "student_" ++ studentId ++ "_" ++ toString now
    let data := timetable.map (fun p => p.session.toStored)
    (.ok timetable,
      { db with timetables := upsertStudentTimetable studentId versionName data db.timetables })

/-- Sample database: the sample course, two faculty documents, one room, no timetable. -/
def sampleDb : Db :=
  { courses := [sampleCourse],
    faculty := [{ user_id := some "ua", doc := sampleFacultyA },
                { user_id := some "ub", doc := sampleFacultyB }],
    rooms := [sampleRoom], timetables := [] }

/-- Sample database whose only faculty document has a per-slot boolean object under the
key "mon". -/
def sampleDbMap : Db :=
  { sampleDb with faculty := [{ user_id := some "ua", doc := sampleFacultyMap }] }

/-- Sample query for the latest timetable: the last document of the collection. -/
def sampleFindLatest (l : List TimetableDoc) : Option TimetableDoc := l.getLast?

/-- Sample faculty member with expertise "Calculus" and an empty slot list on every
working day. -/
def sampleFacultyBusy : Faculty :=
  { _id := "fx", name := some "X", department := some "Math", expertise := some ["Calculus"],
    max_weekly_hours := 20,
    availability := some [("mon", .list []), ("tue", .list []), ("wed", .list []),
      ("thu", .list []), ("fri", .list [])] }

/-- Sample faculty member with expertise "Physics", available on Monday 09:00-10:00 only. -/
def sampleFacultyMondayOnly : Faculty :=
  { sampleFacultyB with
    availability := some [("mon", .list ["09:00-10:00"]), ("tue", .list []),
      ("wed", .list []), ("thu", .list []), ("fri", .list [])] }

/-- Sample course that is not lab-like. -/
def sampleCalculus : Course :=
  { _id := "c2", title := "Calculus I", code := "MATH101", semester := some 1 }

/-- Second sample course that is not lab-like. -/
def samplePhysics : Course :=
  { _id := "c5", title := "Physics", code := "PHY101", semester := some 1 }

/-- The slots of a faculty member on a day in the order the slot loop tries them: the
availability list without its lunch entries; empty when the value is not a list. -/
def slotList (f : Faculty) (d : String) : List String :=
  match slotsTried f d with
  | .ok l => l
  | .error _ => []

/-- The slots of a faculty member on a day in availability order, lunch entries included;
empty when the value is not a list. -/
def rawSlotList (f : Faculty) (d : String) : List String :=
  match availOf f d with
  | .list l => l
  | .slotMap _ => []

/-- The combinations (day, faculty, slot) in the order of the three nested loops: days in
the given order, then the pool in pool order, then the slots of the faculty member. -/
def searchOrder (slots : Faculty → String → List String) (pool : List Faculty)
    (dayList : List String) : List (String × Faculty × String) :=
  dayList.flatMap (fun d => pool.flatMap (fun f => (slots f d).map (fun t => (d, f, t))))

/-- Both the faculty member and some room are free at the (day, slot) of a combination. -/
def ComboFree (fas ras : List String) (rooms : List Room)
    (c : String × Faculty × String) : Prop :=
  toKey [facultyNameOf c.2.1, c.1, c.2.2] ∉ fas ∧
    ∃ r ∈ rooms, toKey [r.name, c.1, c.2.2] ∉ ras

/-- Day `a` ranks before day `b`: fewer sessions placed so far on `a`, or as many and `a`
earlier in the canonical order Mon, Tue, Wed, Thu, Fri. -/
def DayBefore (timetable : List Placed) (a b : String) : Prop :=
  sessionsOn a timetable < sessionsOn b timetable ∨
    (sessionsOn a timetable = sessionsOn b timetable ∧
      WORKING_DAYS.indexOf a < WORKING_DAYS.indexOf b)

/-- The helper `isLabLike` called with a possibly absent argument: the default parameter
`(title = "")` replaces an absent title by the empty string. -/
def isLabLikeArg (title : Option String) : Bool := isLabLike (title.getD "")

/-- The index pairs `(i, j)` of the swaps of `shuffleLoop`, in loop order. -/
def shuffleIndices (rand : Nat → Draw) : Nat → Nat → List (Nat × Nat)
  | 0, _ => []
  | i + 1, k => (i + 1, floorMul (rand k) (i + 2)) :: shuffleIndices rand i (k + 1)

/-- Sample faculty member whose own weekly cap is 2. -/
def sampleFacultyCapTwo : Faculty := { sampleFacultyA with max_weekly_hours := 2 }

/-- Sample random stream with changing draws: draw `k` is `(k mod 8) / 8`. -/
def sampleRandSpread : Nat → Draw := fun k => ⟨k % 8, 8, Nat.mod_lt k (Nat.succ_pos 7)⟩

/-- Sample course without a semester. -/
def sampleCourseNoSemester : Course := { sampleCalculus with semester := none }

/-- Sample course whose semester is 0. -/
def sampleCourseSemesterZero : Course := { sampleCalculus with semester := some 0 }

/-- A session carries the semester/batch label of a course semester: `batch_id` is "Sem"
followed by a number `b` and `semester` is a number `v`, both equal to the course's
semester when that is non-zero, and both between 1 and 8 when the course has no semester
or semester 0. -/
def Labelled (semester : Option Nat) (s : Session) : Prop :=
  ∃ b v, s.batch_id = some ("Sem" ++ toString b) ∧ s.semester = some v ∧
    (∀ n, semester = some (n + 1) → b = n + 1 ∧ v = n + 1) ∧
    ((semester = none ∨ semester = some 0) → (1 ≤ b ∧ b ≤ 8) ∧ (1 ≤ v ∧ v ≤ 8))

/-- Every session of the list carries the code and the label of one course of the list. -/
def LabelledBy (courses : List Course) (l : List Placed) : Prop :=
  ∀ p ∈ l, ∃ c ∈ courses, p.session.course_code = c.code ∧ Labelled c.semester p.session

/-! ## 5) getStudentTimetable -/

/-- The object `dayMapping` of `getStudentTimetable`. -/
def dayMapping : List (String × String) :=
  [("Mon", "monday"), ("Tue", "tuesday"), ("Wed", "wednesday"), ("Thu", "thursday"),
   ("Fri", "friday"), ("Sat", "saturday")]

/-- One row of the grid of `getStudentTimetable`: the object `{ time, monday, ... }` with
its day entries in the order they are set; an entry holds the course of the session found
or nothing (`null`). -/
structure GridRow where
  time : String
  cells : List (String × Option String)
deriving DecidableEq, Repr

/-- The callback `(t) => t.day === day && (t.time || t.time_slot) === time`. -/
def inCell (day time : String) (t : StoredSession) : Bool :=
  decide (t.day = some day) &&
    decide ((match truthy t.time with
      | some x => some x
      | none => t.time_slot) = some time)

/-- The value `session ? session.course : null` for the session that
`savedTimetable.data.find` returns. -/
def gridCell (data : List StoredSession) (day time : String) : Option String :=
  match data.find? (inCell day time) with
  | some session => session.course
  | none => none

/-- The array `formattedTimetable`: one row per entry of `timeSlots`, one cell per entry
of `days`. -/
def formattedTimetable (data : List StoredSession) : List GridRow :=
  timeSlots.map (fun time =>
    { time := time,
      cells := days.map (fun day => (jsKey (dayMapping.lookup day), gridCell data day time)) })

/-- The handler `getStudentTimetable`, on the timetable document found for the student (if
any): the JSON array sent, or the message of the 500 response. -/
def getStudentTimetable (savedTimetable : Option TimetableDoc) :
    Except String (List GridRow) :=
  match savedTimetable with
  | none => .ok []
  | some doc =>
    match doc.data with
    | none => .error "TypeError: Cannot read properties of undefined (reading 'length')"
    | some data => if data.length = 0 then .ok [] else .ok (formattedTimetable data)

/-- Sample stored session: faculty "B" in room "R1" on Mon at 09:00-10:00. -/
def sampleStoredSession : StoredSession :=
  (classEntry "Old Course" "OLD1" "B" "fb" "R1" "r1" "Mon" "09:00-10:00").toStored

/-- Sample stored timetables: one institution-wide version (no `student_id`) holding the
sample stored session. -/
def sampleStoredDocs : List TimetableDoc :=
  [{ student_id := none, version_name := "v1", data := some [sampleStoredSession] }]

/-- A stored session that has a day and a time (the test `session.day && time` of the
seeding loop) and shares (faculty name, day, time) with a session. -/
def SharesFaculty (s : StoredSession) (p : Session) : Prop :=
  truthy s.day = some p.day ∧ storedTime s = some p.time ∧ storedFacultyName s = p.faculty

/-- A stored session that has a day and a time and shares (room name, day, time) with a
session. -/
def SharesRoom (s : StoredSession) (p : Session) : Prop :=
  truthy s.day = some p.day ∧ storedTime s = some p.time ∧ storedRoomName s = p.room

/-- Invariant of a run of `generateAndSaveStudentTimetable` with respect to the seeded
keys: the occupancy sets still hold every seeded key, and no structured session has a
seeded key. -/
structure SeedInv (sf sr : List String) (st : SaveState) : Prop where
  faculty_kept : ∀ k ∈ sf, k ∈ st.facultyAtSlot
  room_kept : ∀ k ∈ sr, k ∈ st.roomAtSlot
  fresh : ∀ p ∈ st.timetable, p.origin = .structured →
    toKey [p.session.faculty, p.session.day, p.session.time] ∉ sf ∧
    toKey [p.session.room, p.session.day, p.session.time] ∉ sr

/-- The slot loop of `generateNaiveTimetable` as the claim describes it, with the two
occupancy tests taken out: the faculty loop runs against an empty occupancy set, and the
room is the first room of the shuffled roster. The sets are still written. -/
def naiveLoopUnchecked (rand : Nat → Draw) (targetClasses : Nat)
    (shuffledCourses : List Course) (shuffledFaculty : List Faculty)
    (shuffledRooms : List Room) : List Slot → NaiveState → Except String NaiveState
  | [], st => .ok st
  | slot :: rest, st =>
    if st.timetable.length ≥ targetClasses then .ok st
    else if slot.time = LUNCH_BREAK then
      naiveLoopUnchecked rand targetClasses shuffledCourses shuffledFaculty shuffledRooms
        rest st
    else
      match shuffledCourses[floorMul (rand st.k) shuffledCourses.length]? with
      | none => .error "TypeError: Cannot read properties of undefined"
      | some selectedCourse =>
        let st1 := { st with k := st.k + 1 }
        match chooseFaculty [] st.workload slot
            (candidatePool selectedCourse.title shuffledFaculty) with
        | .error e => .error e
        | .ok none =>
          naiveLoopUnchecked rand targetClasses shuffledCourses shuffledFaculty
            shuffledRooms rest st1
        | .ok (some chosenFaculty) =>
          match shuffledRooms.head? with
          | none =>
            naiveLoopUnchecked rand targetClasses shuffledCourses shuffledFaculty
              shuffledRooms rest st1
          | some chosenRoom =>
            let c := naiveCourseField rand st1.k selectedCourse.title
            let e := semesterEntry rand c.2 selectedCourse.semester c.1 selectedCourse.code
              (facultyNameOf chosenFaculty) chosenFaculty._id chosenRoom.name chosenRoom._id
              slot.day slot.time
            naiveLoopUnchecked rand targetClasses shuffledCourses shuffledFaculty
              shuffledRooms rest
              { timetable := st.timetable ++ [⟨e.1, .structured⟩]
                facultyAtSlot :=
                  toKey [facultyNameOf chosenFaculty, slot.day, slot.time] :: st.facultyAtSlot
                roomAtSlot := toKey [chosenRoom.name, slot.day, slot.time] :: st.roomAtSlot
                workload := (chosenFaculty._id,
                  workloadGet st.workload chosenFaculty._id + 1) :: st.workload
                k := e.2 }

/-- The handler `generateNaiveTimetable` as the claim describes it: the same run with the
slot loop `naiveLoopUnchecked`. -/
def generateNaiveUnchecked (rand : Nat → Draw) (courses : List Course)
    (faculty : List Faculty) (rooms : List Room) : Except String (List Placed) :=
  if courses.length = 0 then .error "No courses found. Please add courses first."
  else if faculty.length = 0 then .error "No faculty found. Please add faculty first."
  else if rooms.length = 0 then .error "No rooms found. Please add rooms first."
  else
    let workload := faculty.map (fun f => (f._id, 0))
    let targetClasses := min (courses.length * 2) (WORKING_DAYS.length * timeSlots.length)
    let slots := shuffle rand 0 ALL_SLOTS
    let shuffledCourses := shuffle rand slots.2 courses
    let shuffledFaculty := shuffle rand shuffledCourses.2 faculty
    let shuffledRooms := shuffle rand shuffledFaculty.2 rooms
    match naiveLoopUnchecked rand targetClasses shuffledCourses.1 shuffledFaculty.1
        shuffledRooms.1 slots.1
        { timetable := [], facultyAtSlot := [], roomAtSlot := [],
          workload := workload, k := shuffledRooms.2 } with
    | .error e => .error e
    | .ok st => .ok (shuffle rand st.k st.timetable).1

/-- The shuffled room roster of a run of `generateNaiveTimetable`: the fourth shuffle. -/
def naiveShuffledRooms (rand : Nat → Draw) (courses : List Course)
    (faculty : List Faculty) (rooms : List Room) : List Room :=
  (shuffle rand (shuffle rand (shuffle rand (shuffle rand 0 ALL_SLOTS).2 courses).2
    faculty).2 rooms).1

/-- No key of the list belongs to a calendar cell of `rest`, whatever the name part. -/
def KeysAway (rest : List Slot) (keys : List String) : Prop :=
  ∀ k ∈ keys, ∀ s ∈ rest, ∀ a, k ≠ toKey [a, s.day, s.time]

/-- No two sessions of the list are in the same (day, time-slot) calendar cell. -/
def DistinctCells (l : List Placed) : Prop :=
  l.Pairwise (fun p q => ¬ (p.session.day = q.session.day ∧ p.session.time = q.session.time))

/-- Invariant of the slot loop for the cells: the sessions placed are in pairwise
different cells, none of them in a cell still to be visited, and all in the first room of
the shuffled roster. -/
structure CellInv (shuffledRooms : List Room) (rest : List Slot) (l : List Placed) :
    Prop where
  distinct : DistinctCells l
  away : ∀ p ∈ l, ∀ s ∈ rest, ¬ (p.session.day = s.day ∧ p.session.time = s.time)
  room : ∀ p ∈ l, ∃ r, shuffledRooms.head? = some r ∧ p.session.room = r.name ∧
    p.session.room_id = r._id

/-- Sample second room. -/
def sampleRoomTwo : Room := { _id := "r2", name := "R2", capacity := 30 }

/-- Second sample faculty member with the expertise tag "Database". -/
def sampleFacultyA2 : Faculty := { sampleFacultyA with _id := "fa2", name := some "A2" }

/-- Sample faculty member with a non-ASCII expertise tag. -/
def sampleFacultyElec : Faculty :=
  { sampleFacultyB with _id := "fe", name := some "E", expertise := some ["électronique"] }

/-- The body of the course loop of `generateStudentTimetable` as the claim describes it:
run on a given candidate pool. -/
def studentStepOn (pool : List Faculty) (rand : Nat → Draw) (faculty : List Faculty)
    (rooms : List Room) (st : GenState) (course : Course) : Except String GenState :=
  match scanDays st.facultyAtSlot st.roomAtSlot rooms pool WORKING_DAYS with
  | .error e => .error e
  | .ok (some (day, f, timeSlot, chosenRoom)) =>
    let e := semesterEntry rand st.k course.semester course.title course.code
      (facultyNameOf f) f._id chosenRoom.name chosenRoom._id day timeSlot
    .ok { timetable := st.timetable ++ [⟨e.1, .structured⟩]
          facultyAtSlot := toKey [facultyNameOf f, day, timeSlot] :: st.facultyAtSlot
          roomAtSlot := toKey [chosenRoom.name, day, timeSlot] :: st.roomAtSlot
          k := e.2 }
  | .ok none =>
    match WORKING_DAYS[floorMul (rand st.k) WORKING_DAYS.length]?,
          timeSlots[floorMul (rand (st.k + 1)) timeSlots.length]?,
          faculty[floorMul (rand (st.k + 2)) faculty.length]?,
          rooms[floorMul (rand (st.k + 3)) rooms.length]? with
    | some fallbackDay, some fallbackTime, some f, some r =>
      let e := semesterEntry rand (st.k + 4) course.semester course.title course.code
        (facultyNameOf f) f._id r.name r._id fallbackDay fallbackTime
      .ok { st with timetable := st.timetable ++ [⟨e.1, .fallback⟩], k := e.2 }
    | _, _, _, _ => .error "TypeError: Cannot read properties of undefined"

/-- The body of the course loop of `generateAndSaveStudentTimetable` as the claim describes
it: run on a given candidate pool. -/
def saveStepOn (facultyToTry : List Faculty) (rand : Nat → Draw) (faculty : List Faculty)
    (rooms : List Room) (st : SaveState) (course : Course) : Except String SaveState :=
  let isLabCourse := isLabLike course.title
  let sessionsNeeded := if isLabCourse then 2 else 1
  match structuredPass course isLabCourse sessionsNeeded facultyToTry rooms
      sessionsNeeded 0 0 st with
  | .error e => .error e
  | .ok (assigned, st1) =>
    fallbackPass rand course isLabCourse sessionsNeeded faculty rooms sessionsNeeded
      assigned st1

/-- The slot loop of `generateNaiveTimetable` as the claim describes it: run with a given
candidate pool for each selected course. -/
def naiveLoopOn (pool : Course → List Faculty) (rand : Nat → Draw) (targetClasses : Nat)
    (shuffledCourses : List Course) (shuffledRooms : List Room) :
    List Slot → NaiveState → Except String NaiveState
  | [], st => .ok st
  | slot :: rest, st =>
    if st.timetable.length ≥ targetClasses then .ok st
    else if slot.time = LUNCH_BREAK then
      naiveLoopOn pool rand targetClasses shuffledCourses shuffledRooms rest st
    else
      match shuffledCourses[floorMul (rand st.k) shuffledCourses.length]? with
      | none => .error "TypeError: Cannot read properties of undefined"
      | some selectedCourse =>
        let st1 := { st with k := st.k + 1 }
        match chooseFaculty st.facultyAtSlot st.workload slot (pool selectedCourse) with
        | .error e => .error e
        | .ok none =>
          naiveLoopOn pool rand targetClasses shuffledCourses shuffledRooms rest st1
        | .ok (some chosenFaculty) =>
          match pickRoom st.roomAtSlot shuffledRooms slot.day slot.time with
          | none =>
            naiveLoopOn pool rand targetClasses shuffledCourses shuffledRooms rest st1
          | some chosenRoom =>
            let c := naiveCourseField rand st1.k selectedCourse.title
            let e := semesterEntry rand c.2 selectedCourse.semester c.1 selectedCourse.code
              (facultyNameOf chosenFaculty) chosenFaculty._id chosenRoom.name chosenRoom._id
              slot.day slot.time
            naiveLoopOn pool rand targetClasses shuffledCourses shuffledRooms rest
              { timetable := st.timetable ++ [⟨e.1, .structured⟩]
                facultyAtSlot :=
                  toKey [facultyNameOf chosenFaculty, slot.day, slot.time] :: st.facultyAtSlot
                roomAtSlot := toKey [chosenRoom.name, slot.day, slot.time] :: st.roomAtSlot
                workload := (chosenFaculty._id,
                  workloadGet st.workload chosenFaculty._id + 1) :: st.workload
                k := e.2 }

/-- The handler `generateNaiveTimetable` as the claim describes it: the run whose slot loop
takes, for each selected course, the pool that `poolOf` builds from the shuffled faculty
roster. -/
def generateNaiveOn (poolOf : List Faculty → Course → List Faculty) (rand : Nat → Draw)
    (courses : List Course) (faculty : List Faculty) (rooms : List Room) :
    Except String (List Placed) :=
  if courses.length = 0 then .error "No courses found. Please add courses first."
  else if faculty.length = 0 then .error "No faculty found. Please add faculty first."
  else if rooms.length = 0 then .error "No rooms found. Please add rooms first."
  else
    let workload := faculty.map (fun f => (f._id, 0))
    let targetClasses := min (courses.length * 2) (WORKING_DAYS.length * timeSlots.length)
    let slots := shuffle rand 0 ALL_SLOTS
    let shuffledCourses := shuffle rand slots.2 courses
    let shuffledFaculty := shuffle rand shuffledCourses.2 faculty
    let shuffledRooms := shuffle rand shuffledFaculty.2 rooms
    match naiveLoopOn (poolOf shuffledFaculty.1) rand targetClasses shuffledCourses.1
        shuffledRooms.1 slots.1
        { timetable := [], facultyAtSlot := [], roomAtSlot := [],
          workload := workload, k := shuffledRooms.2 } with
    | .error e => .error e
    | .ok st => .ok (shuffle rand st.k st.timetable).1

/-- The shuffled faculty roster of a run of `generateNaiveTimetable`: the third shuffle. -/
def naiveShuffledFaculty (rand : Nat → Draw) (courses : List Course)
    (faculty : List Faculty) : List Faculty :=
  (shuffle rand (shuffle rand (shuffle rand 0 ALL_SLOTS).2 courses).2 faculty).1

/-! # Properties

## Helpers and the structured search -/

theorem floorMul_lt (d : Draw) {n : Nat} (hn : 0 < n) : floorMul d n < n := by
  unfold floorMul
  have hd : 0 < d.den := Nat.lt_of_le_of_lt (Nat.zero_le _) d.lt
  rw [Nat.div_lt_iff_lt_mul hd]
  exact Nat.mul_lt_mul_of_lt_of_le d.lt (Nat.le_refl n) hn |>.trans_eq (Nat.mul_comm _ _)

theorem getElem?_floorMul {α : Type} (d : Draw) (l : List α) (h : l.length ≠ 0) :
    ∃ x, l[floorMul d l.length]? = some x ∧ x ∈ l := by
  have hlt : floorMul d l.length < l.length := floorMul_lt d (Nat.pos_of_ne_zero h)
  refine ⟨l[floorMul d l.length], ?_, List.getElem_mem _⟩
  exact List.getElem?_eq_getElem hlt

theorem lunch_not_mem_timeSlots : LUNCH_BREAK ∉ timeSlots := by decide

theorem pickRoom_some {ras : List String} {rooms : List Room} {day time : String} {r : Room}
    (h : pickRoom ras rooms day time = some r) :
    r ∈ rooms ∧ toKey [r.name, day, time] ∉ ras := by
  unfold pickRoom at h
  refine ⟨List.mem_of_find?_eq_some h, ?_⟩
  have := List.find?_some h
  simpa using this

theorem scanSlots_some {fas ras : List String} {rooms : List Room} {fName day : String}
    {avail : List String} {t : String} {r : Room}
    (h : scanSlots fas ras rooms fName day avail = some (t, r)) :
    t ∈ avail ∧ t ≠ LUNCH_BREAK ∧ toKey [fName, day, t] ∉ fas ∧
      r ∈ rooms ∧ toKey [r.name, day, t] ∉ ras := by
  induction avail with
  | nil => simp [scanSlots] at h
  | cons a rest ih =>
    unfold scanSlots at h
    split at h
    · obtain ⟨h1, h2⟩ := ih h
      exact ⟨List.mem_cons_of_mem _ h1, h2⟩
    · split at h
      · obtain ⟨h1, h2⟩ := ih h
        exact ⟨List.mem_cons_of_mem _ h1, h2⟩
      · split at h
        · obtain ⟨h1, h2⟩ := ih h
          exact ⟨List.mem_cons_of_mem _ h1, h2⟩
        · rename_i hl hf _ r0 hr
          simp only [Option.some.injEq, Prod.mk.injEq] at h
          obtain ⟨rfl, rfl⟩ := h
          obtain ⟨hr1, hr2⟩ := pickRoom_some hr
          exact ⟨List.mem_cons_self _ _, hl, hf, hr1, hr2⟩

theorem scanFaculty_some {fas ras : List String} {rooms : List Room} {day : String}
    {pool : List Faculty} {f : Faculty} {t : String} {r : Room}
    (h : scanFaculty fas ras rooms day pool = .ok (some (f, t, r))) :
    Feasible fas ras rooms pool [day] day f t r := by
  induction pool with
  | nil => simp [scanFaculty] at h
  | cons g rest ih =>
    unfold scanFaculty at h
    split at h
    · simp at h
    · rename_i avail hav
      split at h
      · rename_i t0 r0 hs
        simp only [Except.ok.injEq, Option.some.injEq, Prod.mk.injEq] at h
        obtain ⟨rfl, rfl, rfl⟩ := h
        obtain ⟨h1, h2, h3, h4, h5⟩ := scanSlots_some hs
        exact ⟨List.mem_singleton_self _, List.mem_cons_self _ _, ⟨avail, hav, h1⟩, h2, h3, h4, h5⟩
      · have := ih h
        exact ⟨this.day_mem, List.mem_cons_of_mem _ this.faculty_mem, this.avail,
          this.not_lunch, this.faculty_free, this.room_mem, this.room_free⟩

theorem scanDays_some {fas ras : List String} {rooms : List Room} {pool : List Faculty}
    {dayList : List String} {day : String} {f : Faculty} {t : String} {r : Room}
    (h : scanDays fas ras rooms pool dayList = .ok (some (day, f, t, r))) :
    Feasible fas ras rooms pool dayList day f t r := by
  induction dayList with
  | nil => simp [scanDays] at h
  | cons d rest ih =>
    unfold scanDays at h
    split at h
    · simp at h
    · rename_i f0 t0 r0 hs
      simp only [Except.ok.injEq, Option.some.injEq, Prod.mk.injEq] at h
      obtain ⟨rfl, rfl, rfl, rfl⟩ := h
      have := scanFaculty_some hs
      exact ⟨List.mem_cons_self _ _, this.faculty_mem, this.avail,
        this.not_lunch, this.faculty_free, this.room_mem, this.room_free⟩
    · have := ih h
      exact ⟨List.mem_cons_of_mem _ this.day_mem, this.faculty_mem, this.avail,
        this.not_lunch, this.faculty_free, this.room_mem, this.room_free⟩

/-! ## The run invariant -/

theorem runInv_nil (fas ras : List String) : RunInv fas ras [] :=
  ⟨fun _ h => by simp at h, List.Pairwise.nil, fun _ h => by simp at h⟩

theorem runInv_push_structured {fas ras : List String} {l : List Placed} {s : Session}
    (h : RunInv fas ras l) (hl : s.time ≠ LUNCH_BREAK)
    (hf : toKey [s.faculty, s.day, s.time] ∉ fas)
    (hr : toKey [s.room, s.day, s.time] ∉ ras) :
    RunInv (toKey [s.faculty, s.day, s.time] :: fas) (toKey [s.room, s.day, s.time] :: ras)
      (l ++ [⟨s, .structured⟩]) := by
  refine ⟨?_, ?_, ?_⟩
  · intro p hp hs
    rcases List.mem_append.1 hp with hp | hp
    · obtain ⟨h1, h2⟩ := h.tracked p hp hs
      exact ⟨List.mem_cons_of_mem _ h1, List.mem_cons_of_mem _ h2⟩
    · rw [List.mem_singleton] at hp
      subst hp
      exact ⟨List.mem_cons_self _ _, List.mem_cons_self _ _⟩
  · unfold NoStructuredClash
    rw [List.pairwise_append]
    refine ⟨h.noClash, List.pairwise_singleton _ _, ?_⟩
    intro p hp q hq hps _
    rw [List.mem_singleton] at hq
    subst hq
    obtain ⟨h1, h2⟩ := h.tracked p hp hps
    constructor
    · rintro ⟨e1, e2, e3⟩
      apply hf
      show toKey [s.faculty, s.day, s.time] ∈ fas
      have e1 : p.session.faculty = s.faculty := e1
      have e2 : p.session.day = s.day := e2
      have e3 : p.session.time = s.time := e3
      rw [← e1, ← e2, ← e3]
      exact h1
    · rintro ⟨e1, e2, e3⟩
      apply hr
      show toKey [s.room, s.day, s.time] ∈ ras
      have e1 : p.session.room = s.room := e1
      have e2 : p.session.day = s.day := e2
      have e3 : p.session.time = s.time := e3
      rw [← e1, ← e2, ← e3]
      exact h2
  · intro q hq
    rcases List.mem_append.1 hq with hq | hq
    · exact h.noLunch q hq
    · rw [List.mem_singleton] at hq
      subst hq
      exact hl

theorem runInv_push_other {fas ras : List String} {l : List Placed} {p : Placed}
    (h : RunInv fas ras l) (hl : p.session.time ≠ LUNCH_BREAK)
    (ho : p.origin ≠ .structured) : RunInv fas ras (l ++ [p]) := by
  refine ⟨?_, ?_, ?_⟩
  · intro q hq hs
    rcases List.mem_append.1 hq with hq | hq
    · exact h.tracked q hq hs
    · rw [List.mem_singleton] at hq
      subst hq
      exact absurd hs ho
  · unfold NoStructuredClash
    rw [List.pairwise_append]
    refine ⟨h.noClash, List.pairwise_singleton _ _, ?_⟩
    intro a _ b hb _ hbs
    rw [List.mem_singleton] at hb
    subst hb
    exact absurd hbs ho
  · intro q hq
    rcases List.mem_append.1 hq with hq | hq
    · exact h.noLunch q hq
    · rw [List.mem_singleton] at hq
      subst hq
      exact hl

theorem mem_timeSlots_ne_lunch {t : String} (h : t ∈ timeSlots) : t ≠ LUNCH_BREAK := by
  rintro rfl
  exact lunch_not_mem_timeSlots h

theorem getElem?_timeSlots_ne_lunch {i : Nat} {t : String} (h : timeSlots[i]? = some t) :
    t ≠ LUNCH_BREAK :=
  mem_timeSlots_ne_lunch (List.getElem?_mem h)

/-! ## generateStudentTimetable keeps the invariant -/

theorem studentStep_inv {rand : Nat → Draw} {faculty : List Faculty} {rooms : List Room}
    {st st1 : GenState} {course : Course}
    (h : studentStep rand faculty rooms st course = .ok st1)
    (hi : RunInv st.facultyAtSlot st.roomAtSlot st.timetable) :
    RunInv st1.facultyAtSlot st1.roomAtSlot st1.timetable := by
  unfold studentStep at h
  simp only at h
  split at h
  · simp at h
  · rename_i day f t r hs
    have hf := scanDays_some hs
    simp only [Except.ok.injEq] at h
    subst h
    exact runInv_push_structured
      (s := (semesterEntry rand st.k course.semester course.title course.code
        (facultyNameOf f) f._id r.name r._id day t).1)
      hi hf.not_lunch hf.faculty_free hf.room_free
  · split at h
    · rename_i d t f r hd ht hf hr
      simp only [Except.ok.injEq] at h
      subst h
      exact runInv_push_other hi (getElem?_timeSlots_ne_lunch ht) (by simp)
    · simp at h

theorem studentLoop_inv {rand : Nat → Draw} {faculty : List Faculty} {rooms : List Room}
    {courses : List Course} {st st1 : GenState}
    (h : studentLoop rand faculty rooms courses st = .ok st1)
    (hi : RunInv st.facultyAtSlot st.roomAtSlot st.timetable) :
    RunInv st1.facultyAtSlot st1.roomAtSlot st1.timetable := by
  induction courses generalizing st with
  | nil =>
    simp only [studentLoop, Except.ok.injEq] at h
    subst h
    exact hi
  | cons c rest ih =>
    unfold studentLoop at h
    split at h
    · simp at h
    · rename_i st2 hs
      exact ih h (studentStep_inv hs hi)

theorem generateStudentTimetable_inv {rand : Nat → Draw} {courses : List Course}
    {faculty : List Faculty} {rooms : List Room} {sched : List Placed}
    (h : generateStudentTimetable rand courses faculty rooms = .ok sched) :
    NoStructuredClash sched ∧ NoLunch sched := by
  unfold generateStudentTimetable at h
  split at h
  · simp at h
  · split at h
    · simp at h
    · rename_i st hs
      simp only [Except.ok.injEq] at h
      subst h
      have := studentLoop_inv hs (runInv_nil _ _)
      exact ⟨this.noClash, this.noLunch⟩

/-! ## generateAndSaveStudentTimetable: the passes -/

theorem dailyOk_push {st : SaveState} {day : String} {e : Placed}
    (h : DailyOk st) (he : e.session.day = day) : DailyOk (st.push day e) := by
  intro d
  simp only [SaveState.push, List.filter_append]
  by_cases hd : d = day
  · subst hd
    simp [h d, he]
  · have : ¬ e.session.day = d := by
      rw [he]
      exact fun h => hd h.symm
    simp [h d, hd, this]

theorem sortedDays_perm (ds : String → List Placed) : (sortedDays ds).Perm WORKING_DAYS :=
  List.perm_insertionSort _ _

theorem mem_sortedDays {ds : String → List Placed} {d : String} :
    d ∈ sortedDays ds ↔ d ∈ WORKING_DAYS :=
  (sortedDays_perm ds).mem_iff

theorem sortedDays_head (ds : String → List Placed) :
    ∃ d, (sortedDays ds)[0]? = some d ∧ d ∈ WORKING_DAYS := by
  have hlen : (sortedDays ds).length = 5 := (sortedDays_perm ds).length_eq
  have h0 : 0 < (sortedDays ds).length := by omega
  exact ⟨(sortedDays ds)[0], List.getElem?_eq_getElem h0,
    mem_sortedDays.1 (List.getElem_mem _)⟩

/-- A structured search that fails leaves the rest of the structured loop without effect:
the state is unchanged, so every later iteration fails as well. -/
theorem structuredPass_stuck {c : Course} {isLab : Bool} {n : Nat} {pool : List Faculty}
    {rooms : List Room} {st : SaveState}
    (hs : scanDays st.facultyAtSlot st.roomAtSlot rooms pool (sortedDays st.dailySchedule)
      = .ok none) :
    ∀ (fuel session assigned : Nat) (a : Nat) (st1 : SaveState),
      structuredPass c isLab n pool rooms fuel session assigned st = .ok (a, st1) →
      a = assigned ∧ st1 = st := by
  intro fuel
  induction fuel with
  | zero =>
    intro session assigned a st1 h
    unfold structuredPass at h
    split at h
    · simp at h
    · simp only [Except.ok.injEq, Prod.mk.injEq] at h
      exact ⟨h.1.symm, h.2.symm⟩
  | succ fuel ih =>
    intro session assigned a st1 h
    unfold structuredPass at h
    split at h
    · rw [hs] at h
      exact ih _ _ _ _ h
    · simp only [Except.ok.injEq, Prod.mk.injEq] at h
      exact ⟨h.1.symm, h.2.symm⟩

theorem structuredPass_spec {c : Course} {isLab : Bool} {n : Nat} {pool : List Faculty}
    {rooms : List Room} :
    ∀ (fuel i : Nat) (st : SaveState) (a : Nat) (st1 : SaveState),
      structuredPass c isLab n pool rooms fuel i i st = .ok (a, st1) → SaveInv st →
      SaveInv st1 ∧ st1.k = st.k ∧ a ≤ max i n ∧
        ∃ new, Appended c isLab .structured i st st1 new ∧ a = i + new.length := by
  intro fuel
  induction fuel with
  | zero =>
    intro i st a st1 h hi
    unfold structuredPass at h
    split at h
    · simp at h
    · simp only [Except.ok.injEq, Prod.mk.injEq] at h
      obtain ⟨rfl, rfl⟩ := h
      exact ⟨hi, rfl, le_max_left _ _, [], ⟨by simp, by simp, by simp⟩, by simp⟩
  | succ fuel ih =>
    intro i st a st1 h hi
    unfold structuredPass at h
    split at h
    · rename_i hc
      split at h
      · simp at h
      · rename_i hs
        obtain ⟨rfl, rfl⟩ := structuredPass_stuck hs _ _ _ _ _ h
        exact ⟨hi, rfl, le_max_left _ _, [], ⟨by simp, by simp, by simp⟩, by simp⟩
      · rename_i day f t r hs
        have hf := scanDays_some hs
        simp only at h
        obtain ⟨hinv, hk, hle, new, hap, ha⟩ := ih _ _ _ _ h (by
          constructor
          · exact runInv_push_structured
              (s := classEntry (courseField c.title isLab (sessionType isLab i)) c.code
                (facultyNameOf f) f._id r.name r._id day t)
              hi.run hf.not_lunch hf.faculty_free hf.room_free
          · exact dailyOk_push hi.daily rfl)
        refine ⟨hinv, hk, ?_,
          (⟨classEntry (courseField c.title isLab (sessionType isLab i)) c.code
            (facultyNameOf f) f._id r.name r._id day t, .structured⟩ : Placed) :: new,
          ⟨?_, ?_, ?_⟩, ?_⟩
        · have : i + 1 ≤ n := hc.1
          omega
        · rw [hap.timetable_eq]
          simp [SaveState.push]
        · intro p hp
          rcases List.mem_cons.1 hp with rfl | hp
          · exact ⟨rfl, rfl⟩
          · exact hap.origin p hp
        · simp only [List.map_cons, List.length_cons, List.range'_succ, hap.labels]
          rfl
        · simp only [List.length_cons]
          omega
    · simp only [Except.ok.injEq, Prod.mk.injEq] at h
      obtain ⟨rfl, rfl⟩ := h
      exact ⟨hi, rfl, le_max_left _ _, [], ⟨by simp, by simp, by simp⟩, by simp⟩

theorem fallbackPass_spec {rand : Nat → Draw} {c : Course} {isLab : Bool} {n : Nat}
    {faculty : List Faculty} {rooms : List Room} :
    ∀ (fuel assigned : Nat) (st st1 : SaveState),
      fallbackPass rand c isLab n faculty rooms fuel assigned st = .ok st1 → SaveInv st →
      SaveInv st1 ∧
        ∃ new, Appended c isLab .fallback assigned st st1 new ∧
          assigned + new.length = max assigned n := by
  intro fuel
  induction fuel with
  | zero =>
    intro assigned st st1 h hi
    unfold fallbackPass at h
    split at h
    · simp at h
    · rename_i hc
      simp only [Except.ok.injEq] at h
      subst h
      exact ⟨hi, [], ⟨by simp, by simp, by simp⟩, by simp; omega⟩
  | succ fuel ih =>
    intro assigned st st1 h hi
    unfold fallbackPass at h
    split at h
    · rename_i hc
      split at h
      · rename_i f d t r hf hd ht hr
        simp only at h
        obtain ⟨hinv, new, hap, hlen⟩ := ih _ _ _ h (by
          constructor
          · exact runInv_push_other hi.run (getElem?_timeSlots_ne_lunch ht) (by simp)
          · exact dailyOk_push hi.daily rfl)
        refine ⟨hinv,
          (⟨classEntry (courseField c.title isLab (sessionType isLab assigned)) c.code
            (facultyNameOf f) f._id r.name r._id d t, .fallback⟩ : Placed) :: new,
          ⟨?_, ?_, ?_⟩, ?_⟩
        · rw [hap.timetable_eq]
          simp [SaveState.push]
        · intro p hp
          rcases List.mem_cons.1 hp with rfl | hp
          · exact ⟨rfl, rfl⟩
          · exact hap.origin p hp
        · simp only [List.map_cons, List.length_cons, List.range'_succ, hap.labels]
          rfl
        · simp only [List.length_cons]
          omega
      · simp at h
    · rename_i hc
      simp only [Except.ok.injEq] at h
      subst h
      exact ⟨hi, [], ⟨by simp, by simp, by simp⟩, by simp; omega⟩

theorem label_theory (title : String) :
    courseField title true (sessionType true 0) = title ++ " (Theory)" := rfl

theorem label_lab (title : String) :
    courseField title true (sessionType true 1) = title ++ " (Lab)" := rfl

theorem label_plain (title : String) :
    courseField title false (sessionType false 0) = title := by
  simp [courseField]

theorem saveStep_spec {rand : Nat → Draw} {faculty : List Faculty} {rooms : List Room}
    {st st1 : SaveState} {c : Course}
    (h : saveStep rand faculty rooms st c = .ok st1) (hi : SaveInv st) :
    SaveInv st1 ∧ ∃ b, st1.timetable = st.timetable ++ b ∧ CourseBlock c b := by
  unfold saveStep at h
  simp only at h
  split at h
  · simp at h
  · rename_i a st2 hs
    obtain ⟨hi2, _, hle, new1, hap1, ha⟩ := structuredPass_spec _ _ _ _ _ hs hi
    obtain ⟨hi1, new2, hap2, hlen⟩ := fallbackPass_spec _ _ _ _ h hi2
    have hn : (if isLabLike c.title = true then 2 else 1) =
        new1.length + new2.length := by
      simp only [Nat.zero_add] at ha
      subst ha
      rw [Nat.zero_max] at hle
      omega
    refine ⟨hi1, new1 ++ new2, ?_, ?_, ?_, ?_, ?_⟩
    · rw [hap2.timetable_eq, hap1.timetable_eq, List.append_assoc]
    · rw [List.length_append]
      exact hn.symm
    · refine ⟨new1.length, by simp, ?_⟩
      rw [List.map_append, List.length_append, Nat.add_sub_cancel_left]
      congr 1
      · exact List.eq_replicate_iff.2 ⟨by simp, fun o ho => by
          obtain ⟨p, hp, rfl⟩ := List.mem_map.1 ho
          exact (hap1.origin p hp).1⟩
      · exact List.eq_replicate_iff.2 ⟨by simp, fun o ho => by
          obtain ⟨p, hp, rfl⟩ := List.mem_map.1 ho
          exact (hap2.origin p hp).1⟩
    · intro p hp
      rcases List.mem_append.1 hp with hp | hp
      · exact (hap1.origin p hp).2
      · exact (hap2.origin p hp).2
    · have hl1 := hap1.labels
      have hl2 := hap2.labels
      simp only [Nat.zero_add] at ha
      subst ha
      rw [List.map_append, hl1, hl2, ← List.map_append]
      have hr : List.range' 0 new1.length ++ List.range' new1.length new2.length =
          List.range' 0 (new1.length + new2.length) := by
        have := @List.range'_append_1 0 new1.length new2.length
        simpa [Nat.add_comm] using this
      rw [hr, ← hn]
      by_cases hlab : isLabLike c.title = true
      · simp only [hlab, if_true]
        rfl
      · have hlab2 : isLabLike c.title = false := by simpa using hlab
        simp only [hlab2, Bool.false_eq_true, if_false]
        simp [List.range', label_plain]

theorem saveLoop_spec {rand : Nat → Draw} {faculty : List Faculty} {rooms : List Room} :
    ∀ (courses : List Course) (st st1 : SaveState),
      saveLoop rand faculty rooms courses st = .ok st1 → SaveInv st →
      SaveInv st1 ∧ ∃ blocks, st1.timetable = st.timetable ++ blocks.flatten ∧
        List.Forall₂ CourseBlock courses blocks := by
  intro courses
  induction courses with
  | nil =>
    intro st st1 h hi
    simp only [saveLoop, Except.ok.injEq] at h
    subst h
    exact ⟨hi, [], by simp, List.Forall₂.nil⟩
  | cons c rest ih =>
    intro st st1 h hi
    unfold saveLoop at h
    split at h
    · simp at h
    · rename_i st2 hs
      obtain ⟨hi2, b, hb, hcb⟩ := saveStep_spec hs hi
      obtain ⟨hi1, blocks, hbl, hf⟩ := ih _ _ h hi2
      refine ⟨hi1, b :: blocks, ?_, List.Forall₂.cons hcb hf⟩
      rw [hbl, hb, List.flatten_cons, List.append_assoc]

theorem sessionsOn_append (d : String) (l m : List Placed) :
    sessionsOn d (l ++ m) = sessionsOn d l + sessionsOn d m := by
  simp [sessionsOn, List.filter_append]

theorem dailyOk_length {st : SaveState} (h : DailyOk st) (d : String) :
    (st.dailySchedule d).length = sessionsOn d st.timetable := by
  rw [h d]
  rfl

theorem padDay_spec {rand : Nat → Draw} {courses : List Course} {faculty : List Faculty}
    {rooms : List Room} {day : String} :
    ∀ (fuel : Nat) (st st1 : SaveState),
      padDay rand courses faculty rooms day fuel st = .ok st1 → SaveInv st →
      SaveInv st1 ∧ ∃ new, st1.timetable = st.timetable ++ new ∧
        (∀ p ∈ new, p.origin = .padding ∧ p.session.day = day ∧
          ∃ c ∈ courses, p.session.course = c.title ++ " (Extra)") ∧
        (courses.length > 0 →
          (st.dailySchedule day).length + new.length =
            max (st.dailySchedule day).length minClassesPerDay) := by
  intro fuel
  induction fuel with
  | zero =>
    intro st st1 h hi
    unfold padDay at h
    split at h
    · simp at h
    · rename_i hc
      simp only [Except.ok.injEq] at h
      subst h
      refine ⟨hi, [], by simp, by simp, fun hpos => ?_⟩
      have : ¬ (st.dailySchedule day).length < minClassesPerDay := fun hlt => hc ⟨hlt, hpos⟩
      simp only [List.length_nil, Nat.add_zero, minClassesPerDay] at this ⊢
      omega
  | succ fuel ih =>
    intro st st1 h hi
    unfold padDay at h
    split at h
    · rename_i hc
      split at h
      · rename_i c f t r hcs hf ht hr
        simp only at h
        obtain ⟨hinv, new, htt, hall, hlen⟩ := ih _ _ h (by
          constructor
          · exact runInv_push_other hi.run (getElem?_timeSlots_ne_lunch ht) (by simp)
          · exact dailyOk_push hi.daily rfl)
        refine ⟨hinv,
          (⟨classEntry (c.title ++ " (Extra)") c.code (facultyNameOf f) f._id r.name r._id
            day t, .padding⟩ : Placed) :: new, ?_, ?_, ?_⟩
        · rw [htt]
          simp [SaveState.push]
        · intro p hp
          rcases List.mem_cons.1 hp with rfl | hp
          · exact ⟨rfl, rfl, c, List.getElem?_mem hcs, rfl⟩
          · exact hall p hp
        · intro hpos
          have h1 := hlen hpos
          have h2 := hc.1
          simp only [SaveState.push, if_true, List.length_append, List.length_singleton,
            minClassesPerDay] at h1 h2
          simp only [List.length_cons, minClassesPerDay]
          omega
      · simp at h
    · rename_i hc
      simp only [Except.ok.injEq] at h
      subst h
      refine ⟨hi, [], by simp, by simp, fun hpos => ?_⟩
      have : ¬ (st.dailySchedule day).length < minClassesPerDay := fun hlt => hc ⟨hlt, hpos⟩
      simp only [List.length_nil, Nat.add_zero, minClassesPerDay] at this ⊢
      omega

theorem padLoop_spec {rand : Nat → Draw} {courses : List Course} {faculty : List Faculty}
    {rooms : List Room} :
    ∀ (dayList : List String) (st st1 : SaveState),
      padLoop rand courses faculty rooms dayList st = .ok st1 → SaveInv st →
      SaveInv st1 ∧ ∃ pad, st1.timetable = st.timetable ++ pad ∧
        (∀ p ∈ pad, p.origin = .padding ∧ p.session.day ∈ dayList ∧
          ∃ c ∈ courses, p.session.course = c.title ++ " (Extra)") ∧
        (courses.length > 0 → ∀ d ∈ dayList, minClassesPerDay ≤ sessionsOn d st1.timetable) := by
  intro dayList
  induction dayList with
  | nil =>
    intro st st1 h hi
    simp only [padLoop, Except.ok.injEq] at h
    subst h
    exact ⟨hi, [], by simp, by simp, by simp⟩
  | cons day rest ih =>
    intro st st1 h hi
    unfold padLoop at h
    split at h
    · simp at h
    · rename_i st2 hs
      obtain ⟨hi2, new, hnew, hall, hlen⟩ := padDay_spec _ _ _ hs hi
      obtain ⟨hi1, pad, hpad, hall2, hmin⟩ := ih _ _ h hi2
      refine ⟨hi1, new ++ pad, ?_, ?_, ?_⟩
      · rw [hpad, hnew, List.append_assoc]
      · intro p hp
        rcases List.mem_append.1 hp with hp | hp
        · obtain ⟨h1, h2, h3⟩ := hall p hp
          exact ⟨h1, h2 ▸ List.mem_cons_self _ _, h3⟩
        · obtain ⟨h1, h2, h3⟩ := hall2 p hp
          exact ⟨h1, List.mem_cons_of_mem _ h2, h3⟩
      · intro hpos d hd
        rcases List.mem_cons.1 hd with rfl | hd
        · have h4 := hlen hpos
          rw [dailyOk_length hi.daily] at h4
          simp only [minClassesPerDay] at h4 ⊢
          rw [hpad, hnew, sessionsOn_append, sessionsOn_append]
          have h5 : sessionsOn d new = new.length := by
            unfold sessionsOn
            rw [List.filter_eq_self.2]
            intro p hp
            simpa using (hall p hp).2.1
          omega
        · exact hmin hpos d hd

/-- Everything the run of `generateAndSaveStudentTimetable` guarantees about a returned
schedule: one block per course in course order followed by the padded sessions. -/
theorem generateAndSave_spec {rand : Nat → Draw} {courses : List Course}
    {faculty : List Faculty} {rooms : List Room} {existing : List TimetableDoc}
    {sched : List Placed}
    (h : generateAndSaveStudentTimetable rand courses faculty rooms existing = .ok sched) :
    NoStructuredClash sched ∧ NoLunch sched ∧
    (∀ d ∈ WORKING_DAYS, minClassesPerDay ≤ sessionsOn d sched) ∧
    ∃ blocks pad, sched = blocks.flatten ++ pad ∧ List.Forall₂ CourseBlock courses blocks ∧
      ∀ p ∈ pad, p.origin = .padding ∧ p.session.day ∈ WORKING_DAYS ∧
        ∃ c ∈ courses, p.session.course = c.title ++ " (Extra)" := by
  unfold generateAndSaveStudentTimetable at h
  split at h
  · simp at h
  · rename_i hc
    split at h
    · simp at h
    · split at h
      · simp at h
      · split at h
        · simp at h
        · rename_i st hs
          split at h
          · simp at h
          · rename_i st1 hp
            simp only [Except.ok.injEq] at h
            subst h
            have hi0 : SaveInv (SaveState.mk [] (fun _ => []) (seedFaculty existing)
                (seedRoom existing) 0) := ⟨runInv_nil _ _, fun d => by simp⟩
            obtain ⟨hi1, blocks, hbl, hf⟩ := saveLoop_spec _ _ _ hs hi0
            obtain ⟨hi2, pad, hpad, hall, hmin⟩ := padLoop_spec _ _ _ hp hi1
            refine ⟨hi2.run.noClash, hi2.run.noLunch, hmin (Nat.pos_of_ne_zero hc),
              blocks, pad, ?_, hf, hall⟩
            rw [hpad, hbl]
            simp

/-! ## The candidate pool -/

theorem candidatePool_subset (title : String) (faculty : List Faculty) :
    ∀ f ∈ candidatePool title faculty, f ∈ faculty := by
  intro f hf
  unfold candidatePool at hf
  simp only at hf
  split at hf
  · exact List.mem_of_mem_filter hf
  · exact hf

theorem candidatePool_ne_nil (title : String) {faculty : List Faculty} (h : faculty ≠ []) :
    candidatePool title faculty ≠ [] := by
  unfold candidatePool
  simp only
  split
  · rename_i hl
    exact fun h0 => hl (by rw [h0]; rfl)
  · exact h

/-! ## generateAndSaveStudentTimetable returns a schedule -/

theorem scanFaculty_ok (fas ras : List String) (rooms : List Room) (day : String) :
    ∀ (pool : List Faculty), (∀ f ∈ pool, ∃ l, availOf f day = .list l) →
      ∃ r, scanFaculty fas ras rooms day pool = .ok r := by
  intro pool
  induction pool with
  | nil => intro _; exact ⟨none, rfl⟩
  | cons f rest ih =>
    intro h
    obtain ⟨l, hl⟩ := h f (List.mem_cons_self _ _)
    unfold scanFaculty
    rw [hl]
    simp only
    split
    · exact ⟨_, rfl⟩
    · exact ih (fun g hg => h g (List.mem_cons_of_mem _ hg))

theorem scanDays_ok (fas ras : List String) (rooms : List Room) (pool : List Faculty) :
    ∀ (dayList : List String), (∀ f ∈ pool, ∀ d ∈ dayList, ∃ l, availOf f d = .list l) →
      ∃ r, scanDays fas ras rooms pool dayList = .ok r := by
  intro dayList
  induction dayList with
  | nil => intro _; exact ⟨none, rfl⟩
  | cons d rest ih =>
    intro h
    obtain ⟨r, hr⟩ := scanFaculty_ok fas ras rooms d pool
      (fun f hf => h f hf d (List.mem_cons_self _ _))
    unfold scanDays
    rw [hr]
    cases r with
    | none => exact ih (fun f hf e he => h f hf e (List.mem_cons_of_mem _ he))
    | some x =>
      obtain ⟨f, t, r⟩ := x
      exact ⟨_, rfl⟩

theorem structuredPass_ok (c : Course) (isLab : Bool) (n : Nat) (pool : List Faculty)
    (rooms : List Room) (hav : ∀ f ∈ pool, ∀ d ∈ WORKING_DAYS, ∃ l, availOf f d = .list l) :
    ∀ (fuel session assigned : Nat) (st : SaveState), n ≤ session + fuel →
      ∃ r, structuredPass c isLab n pool rooms fuel session assigned st = .ok r := by
  intro fuel
  induction fuel with
  | zero =>
    intro session assigned st hn
    unfold structuredPass
    split
    · rename_i hc
      omega
    · exact ⟨_, rfl⟩
  | succ fuel ih =>
    intro session assigned st hn
    unfold structuredPass
    split
    · obtain ⟨r, hr⟩ := scanDays_ok st.facultyAtSlot st.roomAtSlot rooms pool
        (sortedDays st.dailySchedule)
        (fun f hf d hd => hav f hf d (mem_sortedDays.1 hd))
      rw [hr]
      cases r with
      | none => exact ih _ _ _ (by omega)
      | some x =>
        obtain ⟨d, f, t, r⟩ := x
        exact ih _ _ _ (by omega)
    · exact ⟨_, rfl⟩

theorem fallbackPass_ok {rand : Nat → Draw} {c : Course} {isLab : Bool} {n : Nat}
    {faculty : List Faculty} {rooms : List Room}
    (hf : faculty.length ≠ 0) (hr : rooms.length ≠ 0) :
    ∀ (fuel assigned : Nat) (st : SaveState), n ≤ assigned + fuel →
      ∃ st1, fallbackPass rand c isLab n faculty rooms fuel assigned st = .ok st1 := by
  intro fuel
  induction fuel with
  | zero =>
    intro assigned st hn
    unfold fallbackPass
    split
    · omega
    · exact ⟨_, rfl⟩
  | succ fuel ih =>
    intro assigned st hn
    unfold fallbackPass
    split
    · obtain ⟨f, hf1, _⟩ := getElem?_floorMul (rand st.k) faculty hf
      obtain ⟨d, hd1, _⟩ := sortedDays_head st.dailySchedule
      obtain ⟨t, ht1, _⟩ := getElem?_floorMul (rand (st.k + 1)) timeSlots (by decide)
      obtain ⟨r, hr1, _⟩ := getElem?_floorMul (rand (st.k + 2)) rooms hr
      rw [hf1, hd1, ht1, hr1]
      exact ih _ _ (by omega)
    · exact ⟨_, rfl⟩

theorem saveStep_ok (rand : Nat → Draw) {faculty : List Faculty} {rooms : List Room}
    (hf : faculty.length ≠ 0) (hr : rooms.length ≠ 0) (hav : ListAvail faculty)
    (st : SaveState) (c : Course) : ∃ st1, saveStep rand faculty rooms st c = .ok st1 := by
  unfold saveStep
  simp only
  obtain ⟨⟨a, st2⟩, h2⟩ := structuredPass_ok c (isLabLike c.title)
    (if isLabLike c.title = true then 2 else 1) (candidatePool c.title faculty) rooms
    (fun f hf d hd => hav f (candidatePool_subset _ _ f hf) d hd)
    (if isLabLike c.title = true then 2 else 1) 0 0 st (by omega)
  rw [h2]
  exact fallbackPass_ok hf hr _ _ _ (by omega)

theorem saveLoop_ok (rand : Nat → Draw) {faculty : List Faculty} {rooms : List Room}
    (hf : faculty.length ≠ 0) (hr : rooms.length ≠ 0) (hav : ListAvail faculty) :
    ∀ (courses : List Course) (st : SaveState),
      ∃ st1, saveLoop rand faculty rooms courses st = .ok st1 := by
  intro courses
  induction courses with
  | nil => intro st; exact ⟨st, rfl⟩
  | cons c rest ih =>
    intro st
    obtain ⟨st2, h2⟩ := saveStep_ok rand hf hr hav st c
    unfold saveLoop
    rw [h2]
    exact ih st2

theorem padDay_ok (rand : Nat → Draw) (courses : List Course) {faculty : List Faculty}
    {rooms : List Room} (day : String)
    (hf : faculty.length ≠ 0) (hr : rooms.length ≠ 0) :
    ∀ (fuel : Nat) (st : SaveState),
      minClassesPerDay ≤ (st.dailySchedule day).length + fuel →
      ∃ st1, padDay rand courses faculty rooms day fuel st = .ok st1 := by
  intro fuel
  induction fuel with
  | zero =>
    intro st hn
    unfold padDay
    split
    · rename_i hc
      have := hc.1
      omega
    · exact ⟨_, rfl⟩
  | succ fuel ih =>
    intro st hn
    unfold padDay
    split
    · rename_i hc
      obtain ⟨c, hc1, _⟩ := getElem?_floorMul (rand st.k) courses (Nat.pos_iff_ne_zero.1 hc.2)
      obtain ⟨f, hf1, _⟩ := getElem?_floorMul (rand (st.k + 1)) faculty hf
      obtain ⟨t, ht1, _⟩ := getElem?_floorMul (rand (st.k + 2)) timeSlots (by decide)
      obtain ⟨r, hr1, _⟩ := getElem?_floorMul (rand (st.k + 3)) rooms hr
      rw [hc1, hf1, ht1, hr1]
      apply ih
      simp only [SaveState.push, if_true, List.length_append, List.length_singleton]
      omega
    · exact ⟨_, rfl⟩

theorem padLoop_ok (rand : Nat → Draw) (courses : List Course) {faculty : List Faculty}
    {rooms : List Room} (hf : faculty.length ≠ 0) (hr : rooms.length ≠ 0) :
    ∀ (dayList : List String) (st : SaveState),
      ∃ st1, padLoop rand courses faculty rooms dayList st = .ok st1 := by
  intro dayList
  induction dayList with
  | nil => intro st; exact ⟨st, rfl⟩
  | cons d rest ih =>
    intro st
    obtain ⟨st2, h2⟩ := padDay_ok rand courses d hf hr
      minClassesPerDay st (Nat.le_add_left _ _)
    unfold padLoop
    rw [h2]
    exact ih st2

/-- With non-empty rosters and list-valued availability the run returns a schedule: no
loop bound is reached and no index leaves its array. -/
theorem generateAndSave_ok (rand : Nat → Draw) {courses : List Course}
    {faculty : List Faculty} {rooms : List Room} (existing : List TimetableDoc)
    (hc : courses.length ≠ 0) (hf : faculty.length ≠ 0) (hr : rooms.length ≠ 0)
    (hav : ListAvail faculty) :
    ∃ sched, generateAndSaveStudentTimetable rand courses faculty rooms existing = .ok sched := by
  unfold generateAndSaveStudentTimetable
  rw [if_neg hc, if_neg hf, if_neg hr]
  obtain ⟨st, hs⟩ := saveLoop_ok rand hf hr hav courses
    (SaveState.mk [] (fun _ => []) (seedFaculty existing) (seedRoom existing) 0)
  rw [hs]
  obtain ⟨st1, hp⟩ := padLoop_ok rand courses hf hr WORKING_DAYS st
  simp only
  rw [hp]
  exact ⟨_, rfl⟩

/-! ## shuffle -/

theorem cons_set_perm {α : Type} (h : α) :
    ∀ (t : List α) (j : Nat) (y : α), t[j]? = some y → (y :: t.set j h).Perm (h :: t) := by
  intro t
  induction t with
  | nil => intro j y hy; simp at hy
  | cons u t ih =>
    intro j y hy
    cases j with
    | zero =>
      simp only [List.getElem?_cons_zero, Option.some.injEq] at hy
      subst hy
      exact List.Perm.swap _ _ _
    | succ j =>
      simp only [List.getElem?_cons_succ] at hy
      simp only [List.set_cons_succ]
      exact (List.Perm.swap _ _ _).trans
        (((ih j y hy).cons u).trans (List.Perm.swap _ _ _))

theorem swapAt_perm {α : Type} : ∀ (a : List α) (i j : Nat), (swapAt a i j).Perm a := by
  intro a
  induction a with
  | nil => intro i j; simp [swapAt]
  | cons h t ih =>
    intro i j
    unfold swapAt
    split
    · rename_i x y hx hy
      cases i with
      | zero =>
        simp only [List.getElem?_cons_zero, Option.some.injEq] at hx
        subst hx
        cases j with
        | zero =>
          simp only [List.getElem?_cons_zero, Option.some.injEq] at hy
          subst hy
          simp
        | succ j =>
          simp only [List.getElem?_cons_succ] at hy
          simp only [List.set_cons_zero, List.set_cons_succ]
          exact cons_set_perm _ t j y hy
      | succ i =>
        simp only [List.getElem?_cons_succ] at hx
        cases j with
        | zero =>
          simp only [List.getElem?_cons_zero, Option.some.injEq] at hy
          subst hy
          simp only [List.set_cons_zero, List.set_cons_succ]
          exact cons_set_perm _ t i x hx
        | succ j =>
          simp only [List.getElem?_cons_succ] at hy
          simp only [List.set_cons_succ]
          have := ih i j
          unfold swapAt at this
          rw [hx, hy] at this
          exact this.cons h
    · exact List.Perm.refl _

theorem shuffleLoop_perm {α : Type} (rand : Nat → Draw) :
    ∀ (n k : Nat) (a : List α), (shuffleLoop rand n k a).1.Perm a := by
  intro n
  induction n with
  | zero => intro k a; exact List.Perm.refl _
  | succ n ih =>
    intro k a
    unfold shuffleLoop
    exact (ih _ _).trans (swapAt_perm _ _ _)

theorem shuffle_perm {α : Type} (rand : Nat → Draw) (k : Nat) (arr : List α) :
    (shuffle rand k arr).1.Perm arr :=
  shuffleLoop_perm rand _ _ _

theorem shuffle_length_ne_zero {α : Type} (rand : Nat → Draw) (k : Nat) {arr : List α}
    (h : arr.length ≠ 0) : (shuffle rand k arr).1.length ≠ 0 := by
  rw [(shuffle_perm rand k arr).length_eq]
  exact h

/-! ## generateNaiveTimetable -/

theorem workloadGet_cons (a : String) (v : Nat) (w : List (String × Nat)) (fId : String) :
    workloadGet ((a, v) :: w) fId = if fId = a then v else workloadGet w fId := by
  unfold workloadGet
  by_cases h : fId = a
  · subst h
    simp [List.lookup]
  · have : (fId == a) = false := by simpa using h
    simp [List.lookup, this, h]

theorem workloadGet_init (faculty : List Faculty) (fId : String) :
    workloadGet (faculty.map (fun f => (f._id, 0))) fId = 0 := by
  induction faculty with
  | nil => rfl
  | cons f rest ih =>
    rw [List.map_cons, workloadGet_cons, ih]
    simp

theorem chooseFaculty_some {fas : List String} {w : List (String × Nat)} {slot : Slot}
    {pool : List Faculty} {f : Faculty}
    (h : chooseFaculty fas w slot pool = .ok (some f)) :
    f ∈ pool ∧ (∃ l, availOf f slot.day = .list l ∧ slot.time ∈ l) ∧
      toKey [facultyNameOf f, slot.day, slot.time] ∉ fas ∧
      workloadGet w f._id < maxPerFacultyTotal := by
  induction pool with
  | nil => simp [chooseFaculty] at h
  | cons g rest ih =>
    unfold chooseFaculty at h
    split at h
    · simp at h
    · rename_i avail hav
      split at h
      · obtain ⟨h1, h2⟩ := ih h
        exact ⟨List.mem_cons_of_mem _ h1, h2⟩
      · rename_i hmem
        split at h
        · obtain ⟨h1, h2⟩ := ih h
          exact ⟨List.mem_cons_of_mem _ h1, h2⟩
        · rename_i hkey
          split at h
          · obtain ⟨h1, h2⟩ := ih h
            exact ⟨List.mem_cons_of_mem _ h1, h2⟩
          · rename_i hw
            simp only [Except.ok.injEq, Option.some.injEq] at h
            subst h
            exact ⟨List.mem_cons_self _ _, ⟨avail, hav, by simpa using hmem⟩, hkey,
              Nat.lt_of_not_le hw⟩

theorem assignedTo_append (fId : String) (l m : List Placed) :
    assignedTo fId (l ++ m) = assignedTo fId l + assignedTo fId m := by
  simp [assignedTo, List.filter_append]

theorem naiveLoop_inv {rand : Nat → Draw} {target : Nat} {cs : List Course}
    {fs : List Faculty} {rs : List Room} :
    ∀ (slots : List Slot) (st st1 : NaiveState),
      naiveLoop rand target cs fs rs slots st = .ok st1 → NaiveInv target st →
      NaiveInv target st1 := by
  intro slots
  induction slots with
  | nil =>
    intro st st1 h hi
    simp only [naiveLoop, Except.ok.injEq] at h
    subst h
    exact hi
  | cons slot rest ih =>
    intro st st1 h hi
    unfold naiveLoop at h
    split at h
    · simp only [Except.ok.injEq] at h
      subst h
      exact hi
    · rename_i hlen
      split at h
      · exact ih _ _ h hi
      · rename_i hlunch
        split at h
        · simp at h
        · rename_i c hc
          simp only at h
          split at h
          · simp at h
          · exact ih _ _ h ⟨hi.run, hi.load, hi.cap, hi.size, hi.origin⟩
          · rename_i f hf
            obtain ⟨_, _, hkey, hw⟩ := chooseFaculty_some hf
            split at h
            · exact ih _ _ h ⟨hi.run, hi.load, hi.cap, hi.size, hi.origin⟩
            · rename_i r hr
              obtain ⟨_, hrk⟩ := pickRoom_some hr
              refine ih _ _ h ⟨?_, ?_, ?_, ?_, ?_⟩
              · exact runInv_push_structured
                  (s := (semesterEntry rand (naiveCourseField rand (st.k + 1) c.title).2
                    c.semester (naiveCourseField rand (st.k + 1) c.title).1 c.code
                    (facultyNameOf f) f._id r.name r._id slot.day slot.time).1)
                  hi.run hlunch hkey hrk
              · intro fId
                simp only
                rw [assignedTo_append, hi.load, workloadGet_cons]
                by_cases hid : fId = f._id
                · subst hid
                  simp [assignedTo, semesterEntry]
                · have : ¬ f._id = fId := fun h => hid h.symm
                  simp [assignedTo, semesterEntry, hid, this]
              · intro fId
                simp only
                rw [workloadGet_cons]
                split
                · exact hw
                · exact hi.cap fId
              · simp only [List.length_append, List.length_singleton]
                omega
              · intro p hp
                rcases List.mem_append.1 hp with hp | hp
                · exact hi.origin p hp
                · rw [List.mem_singleton] at hp
                  subst hp
                  rfl

theorem noStructuredClash_perm {l m : List Placed} (h : l.Perm m)
    (hl : NoStructuredClash l) : NoStructuredClash m := by
  unfold NoStructuredClash at hl ⊢
  refine (h.pairwise_iff ?_).1 hl
  intro p q hpq hq hp
  obtain ⟨h1, h2⟩ := hpq hp hq
  exact ⟨fun ⟨a, b, c⟩ => h1 ⟨a.symm, b.symm, c.symm⟩,
    fun ⟨a, b, c⟩ => h2 ⟨a.symm, b.symm, c.symm⟩⟩

/-- Everything the run of `generateNaiveTimetable` guarantees about a persisted schedule. -/
theorem generateNaive_spec {rand : Nat → Draw} {courses : List Course}
    {faculty : List Faculty} {rooms : List Room} {sched : List Placed}
    (h : generateNaiveTimetable rand courses faculty rooms = .ok sched) :
    NoStructuredClash sched ∧ NoLunch sched ∧
      (∀ fId, assignedTo fId sched ≤ maxPerFacultyTotal) ∧
      sched.length ≤ min (courses.length * 2) (WORKING_DAYS.length * timeSlots.length) ∧
      ∀ p ∈ sched, p.origin = .structured := by
  unfold generateNaiveTimetable at h
  split at h
  · simp at h
  · split at h
    · simp at h
    · split at h
      · simp at h
      · simp only at h
        split at h
        · simp at h
        · rename_i st hs
          simp only [Except.ok.injEq] at h
          subst h
          have hi := naiveLoop_inv _ _ _ hs
            ⟨runInv_nil _ _, fun fId => by simp [assignedTo, workloadGet_init],
              fun fId => by simp [workloadGet_init], Nat.zero_le _, fun _ hp => by simp at hp⟩
          have hp := shuffle_perm rand st.k st.timetable
          refine ⟨noStructuredClash_perm hp.symm hi.run.noClash, ?_, ?_, ?_, ?_⟩
          · intro p hpm
            exact hi.run.noLunch p (hp.mem_iff.1 hpm)
          · intro fId
            have := hi.load fId
            unfold assignedTo at this ⊢
            rw [(hp.filter _).length_eq, this]
            exact hi.cap fId
          · rw [hp.length_eq]
            exact hi.size
          · intro p hpm
            exact hi.origin p (hp.mem_iff.1 hpm)

/-! ## Sessions carry roster members -/

theorem fromRoster_push {faculty : List Faculty} {rooms : List Room} {l : List Placed}
    {p : Placed} {f : Faculty} {r : Room} (h : FromRoster faculty rooms l)
    (hf : f ∈ faculty) (hr : r ∈ rooms)
    (h1 : p.session.faculty = facultyNameOf f) (h2 : p.session.faculty_id = f._id)
    (h3 : p.session.room = r.name) (h4 : p.session.room_id = r._id) :
    FromRoster faculty rooms (l ++ [p]) := by
  intro q hq
  rcases List.mem_append.1 hq with hq | hq
  · exact h q hq
  · rw [List.mem_singleton] at hq
    subst hq
    exact ⟨⟨f, hf, h1, h2⟩, ⟨r, hr, h3, h4⟩⟩

theorem studentLoop_roster {rand : Nat → Draw} {faculty : List Faculty} {rooms : List Room} :
    ∀ (courses : List Course) (st st1 : GenState),
      studentLoop rand faculty rooms courses st = .ok st1 →
      FromRoster faculty rooms st.timetable → FromRoster faculty rooms st1.timetable := by
  intro courses
  induction courses with
  | nil =>
    intro st st1 h hi
    simp only [studentLoop, Except.ok.injEq] at h
    subst h
    exact hi
  | cons c rest ih =>
    intro st st1 h hi
    unfold studentLoop at h
    split at h
    · simp at h
    · rename_i st2 hs
      refine ih _ _ h ?_
      unfold studentStep at hs
      simp only at hs
      split at hs
      · simp at hs
      · rename_i day f t r hsd
        have hf := scanDays_some hsd
        simp only [Except.ok.injEq] at hs
        subst hs
        exact fromRoster_push hi (candidatePool_subset _ _ f hf.faculty_mem) hf.room_mem
          rfl rfl rfl rfl
      · split at hs
        · rename_i d t f r hd ht hf hr
          simp only [Except.ok.injEq] at hs
          subst hs
          exact fromRoster_push hi (List.getElem?_mem hf) (List.getElem?_mem hr)
            rfl rfl rfl rfl
        · simp at hs

theorem structuredPass_roster {c : Course} {isLab : Bool} {n : Nat} {pool faculty : List Faculty}
    {rooms : List Room} (hpool : ∀ f ∈ pool, f ∈ faculty) :
    ∀ (fuel session assigned : Nat) (st : SaveState) (a : Nat) (st1 : SaveState),
      structuredPass c isLab n pool rooms fuel session assigned st = .ok (a, st1) →
      FromRoster faculty rooms st.timetable → FromRoster faculty rooms st1.timetable := by
  intro fuel
  induction fuel with
  | zero =>
    intro session assigned st a st1 h hi
    unfold structuredPass at h
    split at h
    · simp at h
    · simp only [Except.ok.injEq, Prod.mk.injEq] at h
      obtain ⟨_, rfl⟩ := h
      exact hi
  | succ fuel ih =>
    intro session assigned st a st1 h hi
    unfold structuredPass at h
    split at h
    · split at h
      · simp at h
      · exact ih _ _ _ _ _ h hi
      · rename_i day f t r hs
        have hf := scanDays_some hs
        exact ih _ _ _ _ _ h
          (fromRoster_push hi (hpool f hf.faculty_mem) hf.room_mem rfl rfl rfl rfl)
    · simp only [Except.ok.injEq, Prod.mk.injEq] at h
      obtain ⟨_, rfl⟩ := h
      exact hi

theorem fallbackPass_roster {rand : Nat → Draw} {c : Course} {isLab : Bool} {n : Nat}
    {faculty : List Faculty} {rooms : List Room} :
    ∀ (fuel assigned : Nat) (st st1 : SaveState),
      fallbackPass rand c isLab n faculty rooms fuel assigned st = .ok st1 →
      FromRoster faculty rooms st.timetable → FromRoster faculty rooms st1.timetable := by
  intro fuel
  induction fuel with
  | zero =>
    intro assigned st st1 h hi
    unfold fallbackPass at h
    split at h
    · simp at h
    · simp only [Except.ok.injEq] at h
      subst h
      exact hi
  | succ fuel ih =>
    intro assigned st st1 h hi
    unfold fallbackPass at h
    split at h
    · split at h
      · rename_i f d t r hf hd ht hr
        exact ih _ _ _ h
          (fromRoster_push hi (List.getElem?_mem hf) (List.getElem?_mem hr) rfl rfl rfl rfl)
      · simp at h
    · simp only [Except.ok.injEq] at h
      subst h
      exact hi

theorem saveLoop_roster {rand : Nat → Draw} {faculty : List Faculty} {rooms : List Room} :
    ∀ (courses : List Course) (st st1 : SaveState),
      saveLoop rand faculty rooms courses st = .ok st1 →
      FromRoster faculty rooms st.timetable → FromRoster faculty rooms st1.timetable := by
  intro courses
  induction courses with
  | nil =>
    intro st st1 h hi
    simp only [saveLoop, Except.ok.injEq] at h
    subst h
    exact hi
  | cons c rest ih =>
    intro st st1 h hi
    unfold saveLoop at h
    split at h
    · simp at h
    · rename_i st2 hs
      refine ih _ _ h ?_
      unfold saveStep at hs
      simp only at hs
      split at hs
      · simp at hs
      · rename_i a st3 hsp
        exact fallbackPass_roster _ _ _ _ hs
          (structuredPass_roster (candidatePool_subset _ _) _ _ _ _ _ _ hsp hi)

theorem padDay_roster {rand : Nat → Draw} {courses : List Course} {faculty : List Faculty}
    {rooms : List Room} {day : String} :
    ∀ (fuel : Nat) (st st1 : SaveState),
      padDay rand courses faculty rooms day fuel st = .ok st1 →
      FromRoster faculty rooms st.timetable → FromRoster faculty rooms st1.timetable := by
  intro fuel
  induction fuel with
  | zero =>
    intro st st1 h hi
    unfold padDay at h
    split at h
    · simp at h
    · simp only [Except.ok.injEq] at h
      subst h
      exact hi
  | succ fuel ih =>
    intro st st1 h hi
    unfold padDay at h
    split at h
    · split at h
      · rename_i c f t r hc hf ht hr
        exact ih _ _ h
          (fromRoster_push hi (List.getElem?_mem hf) (List.getElem?_mem hr) rfl rfl rfl rfl)
      · simp at h
    · simp only [Except.ok.injEq] at h
      subst h
      exact hi

theorem padLoop_roster {rand : Nat → Draw} {courses : List Course} {faculty : List Faculty}
    {rooms : List Room} :
    ∀ (dayList : List String) (st st1 : SaveState),
      padLoop rand courses faculty rooms dayList st = .ok st1 →
      FromRoster faculty rooms st.timetable → FromRoster faculty rooms st1.timetable := by
  intro dayList
  induction dayList with
  | nil =>
    intro st st1 h hi
    simp only [padLoop, Except.ok.injEq] at h
    subst h
    exact hi
  | cons d rest ih =>
    intro st st1 h hi
    unfold padLoop at h
    split at h
    · simp at h
    · rename_i st2 hs
      exact ih _ _ h (padDay_roster _ _ _ hs hi)

theorem naiveLoop_roster {rand : Nat → Draw} {target : Nat} {cs : List Course}
    {fs : List Faculty} {rs : List Room} :
    ∀ (slots : List Slot) (st st1 : NaiveState),
      naiveLoop rand target cs fs rs slots st = .ok st1 →
      FromRoster fs rs st.timetable → FromRoster fs rs st1.timetable := by
  intro slots
  induction slots with
  | nil =>
    intro st st1 h hi
    simp only [naiveLoop, Except.ok.injEq] at h
    subst h
    exact hi
  | cons slot rest ih =>
    intro st st1 h hi
    unfold naiveLoop at h
    split at h
    · simp only [Except.ok.injEq] at h
      subst h
      exact hi
    · split at h
      · exact ih _ _ h hi
      · split at h
        · simp at h
        · rename_i c hc
          simp only at h
          split at h
          · simp at h
          · exact ih _ _ h hi
          · rename_i f hf
            obtain ⟨hfm, _⟩ := chooseFaculty_some hf
            split at h
            · exact ih _ _ h hi
            · rename_i r hr
              obtain ⟨hrm, _⟩ := pickRoom_some hr
              exact ih _ _ h
                (fromRoster_push hi (candidatePool_subset _ _ f hfm) hrm rfl rfl rfl rfl)

/-- Every session of a schedule returned by a generator carries the name and id of one
roster member and of one room. -/
theorem generators_fromRoster {rand : Nat → Draw} {courses : List Course}
    {faculty : List Faculty} {rooms : List Room} {existing : List TimetableDoc}
    {sched : List Placed}
    (h : generateStudentTimetable rand courses faculty rooms = .ok sched ∨
      generateNaiveTimetable rand courses faculty rooms = .ok sched ∨
      generateAndSaveStudentTimetable rand courses faculty rooms existing = .ok sched) :
    FromRoster faculty rooms sched := by
  have h0 : FromRoster faculty rooms [] := fun _ hp => by simp at hp
  rcases h with h | h | h
  · unfold generateStudentTimetable at h
    split at h
    · simp at h
    · split at h
      · simp at h
      · rename_i st hs
        simp only [Except.ok.injEq] at h
        subst h
        exact studentLoop_roster _ _ _ hs h0
  · unfold generateNaiveTimetable at h
    split at h
    · simp at h
    · split at h
      · simp at h
      · split at h
        · simp at h
        · simp only at h
          split at h
          · simp at h
          · rename_i st hs
            simp only [Except.ok.injEq] at h
            subst h
            have := naiveLoop_roster _ _ _ hs (fun _ hp => by simp at hp)
            intro p hp
            obtain ⟨⟨f, hf, h1⟩, ⟨r, hr, h2⟩⟩ :=
              this p ((shuffle_perm rand st.k st.timetable).mem_iff.1 hp)
            exact ⟨⟨f, (shuffle_perm rand _ faculty).mem_iff.1 hf, h1⟩,
              ⟨r, (shuffle_perm rand _ rooms).mem_iff.1 hr, h2⟩⟩
  · unfold generateAndSaveStudentTimetable at h
    split at h
    · simp at h
    · split at h
      · simp at h
      · split at h
        · simp at h
        · split at h
          · simp at h
          · rename_i st hs
            split at h
            · simp at h
            · rename_i st1 hp
              simp only [Except.ok.injEq] at h
              subst h
              exact padLoop_roster _ _ _ hp (saveLoop_roster _ _ _ hs h0)

/-! ## Claims -/

/-- C1: in every run of `generateStudentTimetable`, `generateNaiveTimetable` and
`generateAndSaveStudentTimetable` that returns a schedule, two distinct sessions placed
by the structured search never share (faculty, day, time-slot) and never share
(room, day, time-slot); in particular a schedule all of whose sessions are structured
has no such pair. Faculty and room are the `faculty` and `room` fields of the records,
the identities of the occupancy keys; when the ids of the roster determine the names (as
unique ids do), the same holds for the `faculty_id` and `room_id` fields. -/
theorem structured_sessions_never_clash (rand : Nat → Draw) (courses : List Course)
    (faculty : List Faculty) (rooms : List Room) (existing : List TimetableDoc)
    (sched : List Placed)
    (h : generateStudentTimetable rand courses faculty rooms = .ok sched ∨
      generateNaiveTimetable rand courses faculty rooms = .ok sched ∨
      generateAndSaveStudentTimetable rand courses faculty rooms existing = .ok sched) :
    sched.Pairwise (fun p q => p.origin = .structured → q.origin = .structured →
        ¬ FacultyClash p.session q.session ∧ ¬ RoomClash p.session q.session) ∧
      ((∀ p ∈ sched, p.origin = .structured) →
        sched.Pairwise (fun p q =>
          ¬ FacultyClash p.session q.session ∧ ¬ RoomClash p.session q.session)) ∧
      ((∀ f ∈ faculty, ∀ g ∈ faculty, f._id = g._id → facultyNameOf f = facultyNameOf g) →
        sched.Pairwise (fun p q => p.origin = .structured → q.origin = .structured →
          ¬ (p.session.faculty_id = q.session.faculty_id ∧ p.session.day = q.session.day ∧
            p.session.time = q.session.time))) ∧
      ((∀ r ∈ rooms, ∀ s ∈ rooms, r._id = s._id → r.name = s.name) →
        sched.Pairwise (fun p q => p.origin = .structured → q.origin = .structured →
          ¬ (p.session.room_id = q.session.room_id ∧ p.session.day = q.session.day ∧
            p.session.time = q.session.time))) := by
  have key : NoStructuredClash sched := by
    rcases h with h | h | h
    · exact (generateStudentTimetable_inv h).1
    · exact (generateNaive_spec h).1
    · exact (generateAndSave_spec h).1
  have hros := generators_fromRoster h
  refine ⟨key, fun hall => ?_, fun hid => ?_, fun hid => ?_⟩
  · exact List.Pairwise.imp_of_mem (fun hp hq hpq => hpq (hall _ hp) (hall _ hq)) key
  · refine List.Pairwise.imp_of_mem (fun {p q} hp hq hpq => ?_) key
    intro hps hqs hclash
    obtain ⟨⟨f, hf, hf1, hf2⟩, _⟩ := hros p hp
    obtain ⟨⟨g, hg, hg1, hg2⟩, _⟩ := hros q hq
    apply (hpq hps hqs).1
    refine ⟨?_, hclash.2.1, hclash.2.2⟩
    rw [hf1, hg1]
    apply hid f hf g hg
    rw [← hf2, ← hg2]
    exact hclash.1
  · refine List.Pairwise.imp_of_mem (fun {p q} hp hq hpq => ?_) key
    intro hps hqs hclash
    obtain ⟨_, ⟨r, hr, hr1, hr2⟩⟩ := hros p hp
    obtain ⟨_, ⟨s, hs, hs1, hs2⟩⟩ := hros q hq
    apply (hpq hps hqs).2
    refine ⟨?_, hclash.2.1, hclash.2.2⟩
    rw [hr1, hs1]
    apply hid r hr s hs
    rw [← hr2, ← hs2]
    exact hclash.1

theorem structured_sessions_never_clash_witness :
    ∃ sched, generateAndSaveStudentTimetable sampleRand [sampleCourse]
        [sampleFacultyA, sampleFacultyB] [sampleRoom] [] = .ok sched ∧
      sched.Pairwise (fun p q => p.origin = .structured → q.origin = .structured →
        ¬ FacultyClash p.session q.session ∧ ¬ RoomClash p.session q.session) :=
  ⟨_, rfl, (structured_sessions_never_clash sampleRand [sampleCourse]
    [sampleFacultyA, sampleFacultyB] [sampleRoom] [] _ (Or.inr (Or.inr rfl))).1⟩

/-- C2: no session returned by `generateStudentTimetable`, `generateNaiveTimetable` or
`generateAndSaveStudentTimetable` has time-slot "12:00-13:00", whatever the availability
lists contain and whichever part of the generator placed it. -/
theorem lunch_slot_never_used (rand : Nat → Draw) (courses : List Course)
    (faculty : List Faculty) (rooms : List Room) (existing : List TimetableDoc)
    (sched : List Placed)
    (h : generateStudentTimetable rand courses faculty rooms = .ok sched ∨
      generateNaiveTimetable rand courses faculty rooms = .ok sched ∨
      generateAndSaveStudentTimetable rand courses faculty rooms existing = .ok sched) :
    ∀ p ∈ sched, p.session.time ≠ "12:00-13:00" := by
  rcases h with h | h | h
  · exact (generateStudentTimetable_inv h).2
  · exact (generateNaive_spec h).2.1
  · exact (generateAndSave_spec h).2.1

theorem lunch_slot_never_used_witness :
    ∃ sched, generateAndSaveStudentTimetable sampleRand [sampleCourse] [sampleFacultyLunch]
        [sampleRoom] [] = .ok sched ∧
      ∀ p ∈ sched, p.session.time ≠ "12:00-13:00" :=
  ⟨_, rfl, lunch_slot_never_used sampleRand [sampleCourse] [sampleFacultyLunch]
    [sampleRoom] [] _ (Or.inr (Or.inr rfl))⟩

theorem append_left_ne (a : String) {x y : String} (h : x ≠ y) : a ++ x ≠ a ++ y := by
  intro he
  apply h
  have h1 : (a ++ x).data = (a ++ y).data := by rw [he]
  rw [String.data_append, String.data_append] at h1
  exact String.ext (List.append_cancel_left h1)

theorem courseBlock_lab {c : Course} {b : List Placed} (h : CourseBlock c b)
    (hlab : isLabLike c.title = true) :
    ∃ s1 s2, b = [s1, s2] ∧ s1.session.course = c.title ++ " (Theory)" ∧
      s2.session.course = c.title ++ " (Lab)" ∧
      (s1.origin = .structured ∧ s2.origin = .structured ∨
        s1.origin = .structured ∧ s2.origin = .fallback ∨
        s1.origin = .fallback ∧ s2.origin = .fallback) := by
  have hlen := h.length_eq
  have hlbl := h.labels
  obtain ⟨k, hk, hor⟩ := h.origins
  simp only [hlab, if_true] at hlen hlbl
  match b, hlen with
  | [s1, s2], _ =>
    simp only [List.map_cons, List.map_nil, List.cons.injEq, and_true] at hlbl
    refine ⟨s1, s2, rfl, hlbl.1, hlbl.2, ?_⟩
    simp only [List.length_cons, List.length_nil, List.map_cons, List.map_nil] at hk hor
    have hk3 : k = 0 ∨ k = 1 ∨ k = 2 := by omega
    rcases hk3 with rfl | rfl | rfl
    · simp [List.replicate] at hor
      exact Or.inr (Or.inr hor)
    · simp [List.replicate] at hor
      exact Or.inr (Or.inl hor)
    · simp [List.replicate] at hor
      exact Or.inl hor

theorem courseBlock_not_padding {c : Course} {b : List Placed} (h : CourseBlock c b) :
    ∀ p ∈ b, p.origin ≠ .padding := by
  obtain ⟨k, _, hor⟩ := h.origins
  intro p hp hpad
  have : p.origin ∈ b.map (fun p => p.origin) := List.mem_map_of_mem _ hp
  rw [hor, List.mem_append] at this
  rcases this with h1 | h1
  · rw [List.eq_of_mem_replicate h1] at hpad
    cases hpad
  · rw [List.eq_of_mem_replicate h1] at hpad
    cases hpad

/-- C3: every schedule returned by `generateAndSaveStudentTimetable` is one block of
non-padding sessions per input course, in course order, followed by the padded sessions;
the block of a lab-like course is exactly two sessions, the first with course field
"<title> (Theory)" and the second with "<title> (Lab)", two different labels, and the two
are both structured, or structured then fallback, or both fallback. With list-valued
availability such a schedule is returned. -/
theorem lab_course_sessions_labelled (rand : Nat → Draw) (courses : List Course)
    (faculty : List Faculty) (rooms : List Room) (existing : List TimetableDoc)
    (hc : courses.length ≠ 0) (hf : faculty.length ≠ 0) (hr : rooms.length ≠ 0) :
    (∀ sched, generateAndSaveStudentTimetable rand courses faculty rooms existing = .ok sched →
      ∃ blocks pad, sched = blocks.flatten ++ pad ∧ (∀ p ∈ pad, p.origin = .padding) ∧
        List.Forall₂ (fun c b => (∀ p ∈ b, p.origin ≠ .padding) ∧
          (isLabLike c.title = true →
            ∃ s1 s2, b = [s1, s2] ∧ s1.session.course = c.title ++ " (Theory)" ∧
              s2.session.course = c.title ++ " (Lab)" ∧
              s1.session.course ≠ s2.session.course ∧
              (s1.origin = .structured ∧ s2.origin = .structured ∨
                s1.origin = .structured ∧ s2.origin = .fallback ∨
                s1.origin = .fallback ∧ s2.origin = .fallback))) courses blocks) ∧
    (ListAvail faculty →
      ∃ sched, generateAndSaveStudentTimetable rand courses faculty rooms existing =
        .ok sched) := by
  refine ⟨fun sched h => ?_, fun hav => generateAndSave_ok rand existing hc hf hr hav⟩
  obtain ⟨_, _, _, blocks, pad, hs, hfa, hpad⟩ := generateAndSave_spec h
  refine ⟨blocks, pad, hs, fun p hp => (hpad p hp).1, ?_⟩
  refine hfa.imp (fun c b hcb => ⟨courseBlock_not_padding hcb, fun hlab => ?_⟩)
  obtain ⟨s1, s2, hb, h1, h2, ho⟩ := courseBlock_lab hcb hlab
  refine ⟨s1, s2, hb, h1, h2, ?_, ho⟩
  rw [h1, h2]
  exact append_left_ne _ (by decide)

theorem lab_course_sessions_labelled_witness :
    ([sampleCourse].length ≠ 0 ∧ [sampleFacultyA, sampleFacultyB].length ≠ 0 ∧
      [sampleRoom].length ≠ 0) ∧
    ∃ sched, generateAndSaveStudentTimetable sampleRand [sampleCourse]
      [sampleFacultyA, sampleFacultyB] [sampleRoom] [] = .ok sched :=
  ⟨⟨by decide, by decide, by decide⟩,
    (lab_course_sessions_labelled sampleRand [sampleCourse] [sampleFacultyA, sampleFacultyB]
      [sampleRoom] [] (by decide) (by decide) (by decide)).2 (by
        intro f hf d hd
        simp only [List.mem_cons, List.mem_singleton, List.not_mem_nil, or_false] at hf
        rcases hf with rfl | rfl <;> exact ⟨timeSlots, rfl⟩)⟩

theorem forall₂_block_length {courses : List Course} {blocks : List (List Placed)}
    (h : List.Forall₂ CourseBlock courses blocks) :
    blocks.flatten.length = (courses.map sessionsNeeded).sum := by
  induction h with
  | nil => rfl
  | cons hcb _ ih =>
    rw [List.flatten_cons, List.length_append, ih, List.map_cons, List.sum_cons,
      hcb.length_eq]
    rfl

/-- C4: every schedule returned by `generateAndSaveStudentTimetable` is one block of
non-padding sessions per input course, in course order, followed by the padded sessions;
the block of a course holds exactly `sessionsNeeded` sessions (2 when the title is
lab-like, 1 otherwise), all with the course's code; hence the schedule has the sum of
`sessionsNeeded` over the courses plus the number of padded sessions. With list-valued
availability such a schedule is returned. -/
theorem sessions_per_course (rand : Nat → Draw) (courses : List Course)
    (faculty : List Faculty) (rooms : List Room) (existing : List TimetableDoc)
    (hc : courses.length ≠ 0) (hf : faculty.length ≠ 0) (hr : rooms.length ≠ 0) :
    (∀ sched, generateAndSaveStudentTimetable rand courses faculty rooms existing = .ok sched →
      ∃ blocks pad, sched = blocks.flatten ++ pad ∧ (∀ p ∈ pad, p.origin = .padding) ∧
        List.Forall₂ (fun c b =>
          b.length = (if isLabLike c.title = true then 2 else 1) ∧
          ∀ p ∈ b, p.origin ≠ .padding ∧ p.session.course_code = c.code) courses blocks ∧
        sched.length =
          (courses.map (fun c => if isLabLike c.title = true then 2 else 1)).sum +
            pad.length) ∧
    (ListAvail faculty →
      ∃ sched, generateAndSaveStudentTimetable rand courses faculty rooms existing =
        .ok sched) := by
  refine ⟨fun sched h => ?_, fun hav => generateAndSave_ok rand existing hc hf hr hav⟩
  obtain ⟨_, _, _, blocks, pad, hs, hfa, hpad⟩ := generateAndSave_spec h
  refine ⟨blocks, pad, hs, fun p hp => (hpad p hp).1, ?_, ?_⟩
  · exact hfa.imp (fun c b hcb =>
      ⟨hcb.length_eq, fun p hp => ⟨courseBlock_not_padding hcb p hp, hcb.code p hp⟩⟩)
  · rw [hs, List.length_append, forall₂_block_length hfa]
    rfl

theorem sessions_per_course_witness :
    ([sampleCourse].length ≠ 0 ∧ [sampleFacultyA, sampleFacultyB].length ≠ 0 ∧
      [sampleRoom].length ≠ 0) ∧
    ∃ sched, generateAndSaveStudentTimetable sampleRand [sampleCourse]
        [sampleFacultyA, sampleFacultyB] [sampleRoom] [] = .ok sched ∧
      ∃ blocks pad, sched = blocks.flatten ++ pad ∧ (∀ p ∈ pad, p.origin = .padding) ∧
        List.Forall₂ (fun c b =>
          b.length = (if isLabLike c.title = true then 2 else 1) ∧
          ∀ p ∈ b, p.origin ≠ .padding ∧ p.session.course_code = c.code)
          [sampleCourse] blocks ∧
        sched.length =
          ([sampleCourse].map (fun c => if isLabLike c.title = true then 2 else 1)).sum +
            pad.length :=
  ⟨⟨by decide, by decide, by decide⟩, _, rfl,
    (sessions_per_course sampleRand [sampleCourse] [sampleFacultyA, sampleFacultyB]
      [sampleRoom] [] (by decide) (by decide) (by decide)).1 _ rfl⟩

/-- C5: for non-empty course, faculty and room rosters, every stored timetable set and
every sequence of draws, a schedule returned by `generateAndSaveStudentTimetable` has at
least 4 sessions on each of Mon, Tue, Wed, Thu and Fri; with list-valued availability
such a schedule is returned. -/
theorem every_working_day_padded (rand : Nat → Draw) (courses : List Course)
    (faculty : List Faculty) (rooms : List Room) (existing : List TimetableDoc)
    (hc : courses.length ≠ 0) (hf : faculty.length ≠ 0) (hr : rooms.length ≠ 0) :
    (∀ sched, generateAndSaveStudentTimetable rand courses faculty rooms existing = .ok sched →
      ∀ d ∈ ["Mon", "Tue", "Wed", "Thu", "Fri"],
        4 ≤ (sched.filter (fun p => decide (p.session.day = d))).length) ∧
    (ListAvail faculty →
      ∃ sched, generateAndSaveStudentTimetable rand courses faculty rooms existing =
        .ok sched) :=
  ⟨fun _ h => (generateAndSave_spec h).2.2.1,
    fun hav => generateAndSave_ok rand existing hc hf hr hav⟩

theorem every_working_day_padded_witness :
    ([sampleCourse].length ≠ 0 ∧ [sampleFacultyA, sampleFacultyB].length ≠ 0 ∧
      [sampleRoom].length ≠ 0) ∧
    ∃ sched, generateAndSaveStudentTimetable sampleRand [sampleCourse]
        [sampleFacultyA, sampleFacultyB] [sampleRoom] [] = .ok sched ∧
      ∀ d ∈ ["Mon", "Tue", "Wed", "Thu", "Fri"],
        4 ≤ (sched.filter (fun p => decide (p.session.day = d))).length :=
  ⟨⟨by decide, by decide, by decide⟩, _, rfl,
    (every_working_day_padded sampleRand [sampleCourse] [sampleFacultyA, sampleFacultyB]
      [sampleRoom] [] (by decide) (by decide) (by decide)).1 _ rfl⟩

/-- C8: in a schedule produced by `generateNaiveTimetable` every faculty id is assigned
at most 6 sessions, for every course list, roster and sequence of draws; in particular
with 3 courses, 1 faculty member and 1 room that faculty member receives at most 6. -/
theorem naive_workload_cap (rand : Nat → Draw) (courses : List Course)
    (faculty : List Faculty) (rooms : List Room) (sched : List Placed)
    (h : generateNaiveTimetable rand courses faculty rooms = .ok sched) :
    (∀ fId, (sched.filter (fun p => decide (p.session.faculty_id = fId))).length ≤ 6) ∧
    (∀ f, courses.length = 3 → faculty = [f] → rooms.length = 1 →
      (sched.filter (fun p => decide (p.session.faculty_id = f._id))).length ≤ 6) := by
  have := (generateNaive_spec h).2.2.1
  exact ⟨this, fun f _ _ _ => this f._id⟩

set_option maxRecDepth 100000 in
theorem naive_workload_cap_witness :
    ∃ sched, generateNaiveTimetable sampleRand sampleCatalog [sampleFacultyA] [sampleRoom] =
        .ok sched ∧
      ∀ fId, (sched.filter (fun p => decide (p.session.faculty_id = fId))).length ≤ 6 :=
  ⟨_, rfl,
    (naive_workload_cap sampleRand sampleCatalog [sampleFacultyA] [sampleRoom] _ rfl).1⟩

theorem includes_iff_infix (s t : String) : includes s t = true ↔ t.data <:+: s.data := by
  unfold includes
  rw [List.any_eq_true]
  constructor
  · rintro ⟨u, hu, hp⟩
    rw [List.mem_tails] at hu
    rw [List.isPrefixOf_iff_prefix] at hp
    exact List.infix_iff_prefix_suffix.2 ⟨u, hp, hu⟩
  · intro h
    obtain ⟨u, hp, hu⟩ := List.infix_iff_prefix_suffix.1 h
    exact ⟨u, (List.mem_tails _ _).2 hu, List.isPrefixOf_iff_prefix.2 hp⟩

theorem hasExpertise_iff (title : String) (f : Faculty) :
    hasExpertise title f = true ↔ ExpertiseMatch title f := by
  unfold hasExpertise ExpertiseMatch
  simp only [List.any_eq_true, Bool.or_eq_true]

theorem filter_hasExpertise (title : String) (roster : List Faculty) :
    roster.filter (hasExpertise title) =
      roster.filter (fun f => decide (ExpertiseMatch title f)) := by
  apply List.filter_congr
  intro f _
  by_cases h : ExpertiseMatch title f
  · simp [h, (hasExpertise_iff title f).2 h]
  · have : hasExpertise title f = false := by
      cases hh : hasExpertise title f
      · rfl
      · exact absurd ((hasExpertise_iff title f).1 hh) h
    simp [h, this]

theorem candidatePool_eq_specPool (title : String) (roster : List Faculty) :
    candidatePool title roster = specPool title roster := by
  unfold candidatePool specPool
  simp only [filter_hasExpertise]
  by_cases h : roster.filter (fun f => decide (ExpertiseMatch title f)) = []
  · simp [h]
  · have : (roster.filter (fun f => decide (ExpertiseMatch title f))).length ≠ 0 :=
      fun h0 => h (List.length_eq_zero.1 h0)
    simp [h, this]

theorem naiveLoop_eq_on {rand : Nat → Draw} {target : Nat} {cs : List Course}
    {fs : List Faculty} {rs : List Room} :
    ∀ (slots : List Slot) (st : NaiveState),
      naiveLoop rand target cs fs rs slots st =
        naiveLoopOn (fun c => specPool c.title fs) rand target cs rs slots st := by
  intro slots
  induction slots with
  | nil => intro st; rfl
  | cons slot rest ih =>
    intro st
    rw [naiveLoop, naiveLoopOn]
    simp only [ih, candidatePool_eq_specPool]

set_option maxRecDepth 100000 in
/-- C9, the claim as stated fails for `generateNaiveTimetable`: with the roster [A, A2],
both tagged "Database", the faculty list that the generator filters is its shuffled copy
[A2, A], so the pool for "Database Systems" is [A2, A] and not the sub-list [A, A2] in
roster order; the run assigns every session to A2, the first member of that pool. -/
theorem naive_pool_not_in_roster_order :
    naiveShuffledFaculty sampleRand [sampleCourse] [sampleFacultyA, sampleFacultyA2] =
      [sampleFacultyA2, sampleFacultyA] ∧
    candidatePool "Database Systems"
      (naiveShuffledFaculty sampleRand [sampleCourse] [sampleFacultyA, sampleFacultyA2]) =
      [sampleFacultyA2, sampleFacultyA] ∧
    [sampleFacultyA, sampleFacultyA2].filter
      (fun f => decide (ExpertiseMatch "Database Systems" f)) =
      [sampleFacultyA, sampleFacultyA2] ∧
    ∃ sched, generateNaiveTimetable sampleRand [sampleCourse]
        [sampleFacultyA, sampleFacultyA2] [sampleRoom] = .ok sched ∧ sched.length = 2 ∧
      ∀ p ∈ sched, p.session.faculty_id = "fa2" :=
  ⟨by decide, by decide, by decide, _, rfl, rfl, by decide⟩

/-- C9 as amended: for every course title and roster, the pool built from a list of faculty
(`candidatePool`) is the sub-list of that list, in its order, of the faculty having an
expertise tag `t` with lower(title) containing lower(t) or lower(t) containing
lower(title), when some member matches, and otherwise the entire list; for a non-empty
list the pool is non-empty; containment is occurrence as a contiguous substring.
`generateStudentTimetable` and `generateAndSaveStudentTimetable` run the body of their
course loop on the pool built from the fetched roster; `generateNaiveTimetable` runs its
slot loop on the pool built from its shuffled copy of the roster, a permutation of the
roster. -/
theorem candidate_pool_is_matching_sublist (title : String) (roster : List Faculty) :
    candidatePool title roster = specPool title roster ∧
    ((∃ f ∈ roster, ExpertiseMatch title f) →
      candidatePool title roster = roster.filter (fun f => decide (ExpertiseMatch title f)) ∧
      (candidatePool title roster).Sublist roster ∧
      ∀ f, f ∈ candidatePool title roster ↔ f ∈ roster ∧ ExpertiseMatch title f) ∧
    ((¬ ∃ f ∈ roster, ExpertiseMatch title f) → candidatePool title roster = roster) ∧
    (roster ≠ [] → candidatePool title roster ≠ []) ∧
    (∀ s t, includes s t = true ↔ t.data <:+: s.data) ∧
    (∀ (rand : Nat → Draw) (rooms : List Room) (st : GenState) (c : Course),
      studentStep rand roster rooms st c =
        studentStepOn (specPool c.title roster) rand roster rooms st c) ∧
    (∀ (rand : Nat → Draw) (rooms : List Room) (st : SaveState) (c : Course),
      saveStep rand roster rooms st c =
        saveStepOn (specPool c.title roster) rand roster rooms st c) ∧
    (∀ (rand : Nat → Draw) (courses : List Course) (rooms : List Room),
      generateNaiveTimetable rand courses roster rooms =
        generateNaiveOn (fun shuffledFaculty c => specPool c.title shuffledFaculty) rand
          courses roster rooms ∧
      (naiveShuffledFaculty rand courses roster).Perm roster) := by
  have hpool := candidatePool_eq_specPool title roster
  refine ⟨hpool, ?_, ?_, candidatePool_ne_nil title, includes_iff_infix, ?_, ?_, ?_⟩
  · rintro ⟨f, hf, hm⟩
    have hne : roster.filter (fun f => decide (ExpertiseMatch title f)) ≠ [] := by
      intro h0
      have : f ∈ roster.filter (fun f => decide (ExpertiseMatch title f)) :=
        List.mem_filter.2 ⟨hf, by simpa using hm⟩
      rw [h0] at this
      simp at this
    have heq : candidatePool title roster =
        roster.filter (fun f => decide (ExpertiseMatch title f)) := by
      rw [hpool]
      unfold specPool
      rw [if_neg hne]
    refine ⟨heq, ?_, ?_⟩
    · rw [heq]
      exact List.filter_sublist _
    · intro g
      rw [heq, List.mem_filter]
      simp
  · intro hno
    rw [hpool]
    unfold specPool
    rw [if_pos]
    rw [List.filter_eq_nil_iff]
    intro g hg
    simpa using fun hm => hno ⟨g, hg, hm⟩
  · intro rand rooms st c
    unfold studentStep studentStepOn
    simp only [candidatePool_eq_specPool]
  · intro rand rooms st c
    unfold saveStep saveStepOn
    simp only [candidatePool_eq_specPool]
  · intro rand courses rooms
    refine ⟨?_, shuffle_perm rand _ roster⟩
    unfold generateNaiveTimetable generateNaiveOn
    generalize shuffle rand 0 ALL_SLOTS = sp
    simp only [naiveLoop_eq_on]

theorem candidate_pool_is_matching_sublist_witness :
    (∃ f ∈ [sampleFacultyA, sampleFacultyB], ExpertiseMatch "Database Systems" f) ∧
    candidatePool "Database Systems" [sampleFacultyA, sampleFacultyB] = [sampleFacultyA] ∧
    ([sampleFacultyA, sampleFacultyB] ≠ [] ∧
      candidatePool "Calculus I" [sampleFacultyA, sampleFacultyB] ≠ []) ∧
    ((∃ f ∈ [sampleFacultyA, sampleFacultyElec], ExpertiseMatch "ÉLECTRONIQUE" f) ∧
      candidatePool "ÉLECTRONIQUE" [sampleFacultyA, sampleFacultyElec] =
        [sampleFacultyElec]) :=
  ⟨by decide,
    ((candidate_pool_is_matching_sublist "Database Systems"
      [sampleFacultyA, sampleFacultyB]).2.1 (by decide)).1.trans (by decide),
    ⟨by decide,
      (candidate_pool_is_matching_sublist "Calculus I"
        [sampleFacultyA, sampleFacultyB]).2.2.2.1 (by decide)⟩,
    by decide,
    ((candidate_pool_is_matching_sublist "ÉLECTRONIQUE"
      [sampleFacultyA, sampleFacultyElec]).2.1 (by decide)).1.trans (by decide)⟩

/-! ## The "Database Systems" scenario -/

theorem availOf_no_entries {f : Faculty} (h : f.availability = none ∨ f.availability = some [])
    (d : String) : availOf f d = .list timeSlots := by
  unfold availOf
  rcases h with h | h
  · rw [h]
  · rw [h]
    rfl

theorem toKey_day_ne (a t : String) {d d1 : String} (h : d ≠ d1) :
    toKey [a, d, t] ≠ toKey [a, d1, t] := by
  intro he
  have e1 : toKey [a, d, t] = a ++ ("||" ++ d ++ "||" ++ t) := by
    show a ++ "||" ++ d ++ "||" ++ t = _
    simp [String.append_assoc]
  have e2 : toKey [a, d1, t] = a ++ ("||" ++ d1 ++ "||" ++ t) := by
    show a ++ "||" ++ d1 ++ "||" ++ t = _
    simp [String.append_assoc]
  rw [e1, e2] at he
  have h1 : (a ++ ("||" ++ d ++ "||" ++ t)).data = (a ++ ("||" ++ d1 ++ "||" ++ t)).data := by
    rw [he]
  simp only [String.data_append] at h1
  have h2 := List.append_cancel_left h1
  have h3 := List.append_cancel_right h2
  have h4 := List.append_cancel_right h3
  exact h (String.ext (List.append_cancel_left h4))

theorem scanDays_first_slot {fas ras : List String} {room : Room} {f : Faculty}
    (hav : ∀ d, availOf f d = .list timeSlots) (d : String) (rest : List String)
    (hf : toKey [facultyNameOf f, d, "09:00-10:00"] ∉ fas)
    (hr : toKey [room.name, d, "09:00-10:00"] ∉ ras) :
    scanDays fas ras [room] [f] (d :: rest) = .ok (some (d, f, "09:00-10:00", room)) := by
  have hs : scanSlots fas ras [room] (facultyNameOf f) d timeSlots =
      some ("09:00-10:00", room) := by
    unfold timeSlots
    unfold scanSlots
    rw [if_neg (by decide), if_neg hf]
    have : pickRoom ras [room] d "09:00-10:00" = some room := by
      unfold pickRoom
      simp [List.find?, hr]
    rw [this]
  unfold scanDays scanFaculty
  rw [hav d]
  simp only [hs]

theorem scenario_step (rand : Nat → Draw) (fdb : Faculty) (room : Room) (course : Course)
    (roster : List Faculty)
    (htitle : course.title = "Database Systems")
    (hpool : candidatePool "Database Systems" roster = [fdb])
    (hav : ∀ d, availOf fdb d = .list timeSlots) :
    ∃ st, saveStep rand roster [room] (SaveState.mk [] (fun _ => []) [] [] 0) course = .ok st ∧
      st.timetable =
        [⟨classEntry "Database Systems (Theory)" course.code (facultyNameOf fdb) fdb._id
            room.name room._id "Mon" "09:00-10:00", .structured⟩,
          ⟨classEntry "Database Systems (Lab)" course.code (facultyNameOf fdb) fdb._id
            room.name room._id "Tue" "09:00-10:00", .structured⟩] := by
  have hlab : isLabLike "Database Systems" = true := by decide
  unfold saveStep
  simp only [htitle, hlab, if_true, hpool]
  have h1 : sortedDays (fun _ => ([] : List Placed)) = "Mon" :: ["Tue", "Wed", "Thu", "Fri"] := rfl
  rw [structuredPass]
  simp only [Nat.zero_lt_succ, and_self, if_true, h1]
  rw [scanDays_first_slot hav "Mon" _ (by simp) (by simp)]
  simp only
  rw [structuredPass]
  have h2 : ∀ e : Placed, sortedDays (fun d => if d = "Mon" then [] ++ [e] else []) =
      "Tue" :: ["Wed", "Thu", "Fri", "Mon"] := fun e => rfl
  simp only [SaveState.push, h2]
  rw [scanDays_first_slot hav "Tue" _
    (by rw [List.mem_singleton]; exact toKey_day_ne _ _ (by decide))
    (by rw [List.mem_singleton]; exact toKey_day_ne _ _ (by decide))]
  simp only [Nat.zero_add, Nat.one_lt_ofNat, and_self, if_true]
  rw [structuredPass]
  simp only [Nat.reduceAdd, Nat.lt_irrefl, and_self, if_false]
  rw [fallbackPass]
  simp only [Nat.lt_irrefl, if_false]
  refine ⟨_, rfl, ?_⟩
  simp only [htitle, List.nil_append, List.singleton_append]
  rfl

/-- C6: per-student generation for the single course "Database Systems", a roster of two
faculty without availability entries in either order (one with the expertise tag
"Database", one with a tag unrelated to the title), one room and no stored timetables
returns a schedule whose non-padding sessions are exactly two, both placed by the
structured search, both assigned to the faculty member with the "Database" tag, both in
the one room: the theory session on Mon and the lab session on Tue, each at
"09:00-10:00", so on two different days and in two different calendar cells. All other
sessions of the schedule are padded ones. -/
theorem database_systems_scenario (rand : Nat → Draw) (fdb fother : Faculty) (room : Room)
    (course : Course) (roster : List Faculty) (tag : String)
    (htitle : course.title = "Database Systems")
    (hdb : fdb.expertise = some ["Database"])
    (htag : fother.expertise = some [tag])
    (hunrelated : includes (toLowerCase "Database Systems") (toLowerCase tag) = false ∧
      includes (toLowerCase tag) (toLowerCase "Database Systems") = false)
    (havdb : fdb.availability = none ∨ fdb.availability = some [])
    (_havother : fother.availability = none ∨ fother.availability = some [])
    (hroster : roster = [fdb, fother] ∨ roster = [fother, fdb]) :
    ∃ pad, generateAndSaveStudentTimetable rand [course] roster [room] [] = .ok
        ([⟨classEntry "Database Systems (Theory)" course.code (facultyNameOf fdb) fdb._id
            room.name room._id "Mon" "09:00-10:00", .structured⟩,
          ⟨classEntry "Database Systems (Lab)" course.code (facultyNameOf fdb) fdb._id
            room.name room._id "Tue" "09:00-10:00", .structured⟩] ++ pad) ∧
      (∀ p ∈ pad, p.origin = .padding) ∧
      ("Mon", "09:00-10:00") ∈ ALL_SLOTS.map (fun s => (s.day, s.time)) ∧
      ("Tue", "09:00-10:00") ∈ ALL_SLOTS.map (fun s => (s.day, s.time)) := by
  have h1 : hasExpertise "Database Systems" fdb = true := by
    unfold hasExpertise
    rw [hdb]
    rfl
  have h2 : hasExpertise "Database Systems" fother = false := by
    unfold hasExpertise
    rw [htag]
    simp [hunrelated]
  have hpool : candidatePool "Database Systems" roster = [fdb] := by
    unfold candidatePool
    rcases hroster with rfl | rfl <;> simp [List.filter, h1, h2]
  have hlen : roster.length ≠ 0 := by
    rcases hroster with rfl | rfl <;> simp
  obtain ⟨st, hs, htt⟩ := scenario_step rand fdb room course roster htitle hpool
    (availOf_no_entries havdb)
  have hi0 : SaveInv (SaveState.mk [] (fun _ => []) [] [] 0) :=
    ⟨runInv_nil _ _, fun d => by simp⟩
  obtain ⟨hi1, _⟩ := saveStep_spec hs hi0
  obtain ⟨st1, hp⟩ := padLoop_ok rand [course] hlen
    (by simp : [room].length ≠ 0) WORKING_DAYS st
  obtain ⟨_, pad, hpad, hall, _⟩ := padLoop_spec _ _ _ hp hi1
  refine ⟨pad, ?_, fun p hp => (hall p hp).1, by decide, by decide⟩
  unfold generateAndSaveStudentTimetable
  rw [if_neg (by simp), if_neg hlen, if_neg (by simp)]
  have hseed1 : seedFaculty [] = [] := rfl
  have hseed2 : seedRoom [] = [] := rfl
  rw [hseed1, hseed2]
  unfold saveLoop
  rw [hs]
  simp only [saveLoop]
  rw [hp]
  simp only
  rw [hpad, htt]

theorem database_systems_scenario_witness :
    ∃ pad, generateAndSaveStudentTimetable sampleRand [sampleCourse]
        [sampleFacultyB, sampleFacultyA] [sampleRoom] [] = .ok
        ([⟨classEntry "Database Systems (Theory)" "CS301" "A" "fa" "R1" "r1" "Mon"
            "09:00-10:00", .structured⟩,
          ⟨classEntry "Database Systems (Lab)" "CS301" "A" "fa" "R1" "r1" "Tue"
            "09:00-10:00", .structured⟩] ++ pad) ∧
      (∀ p ∈ pad, p.origin = .padding) :=
  (database_systems_scenario sampleRand sampleFacultyA sampleFacultyB sampleRoom sampleCourse
    [sampleFacultyB, sampleFacultyA] "Physics" rfl rfl rfl (by decide) (Or.inl rfl)
    (Or.inl rfl) (Or.inr rfl)).imp (fun _ h => ⟨h.1, h.2.1⟩)

/-! ## Slots tried by the per-student generators -/

theorem scanSlots_eq_findSome (fas ras : List String) (rooms : List Room)
    (fName day : String) (avail : List String) :
    scanSlots fas ras rooms fName day avail =
      (avail.filter (fun t => decide (t ≠ LUNCH_BREAK))).findSome?
        (trySlot fas ras rooms fName day) := by
  induction avail with
  | nil => rfl
  | cons t rest ih =>
    unfold scanSlots
    by_cases hl : t = LUNCH_BREAK
    · rw [if_pos hl, ih]
      simp [List.filter, hl]
    · rw [if_neg hl]
      have hf : (t :: rest).filter (fun t => decide (t ≠ LUNCH_BREAK)) =
          t :: rest.filter (fun t => decide (t ≠ LUNCH_BREAK)) := by
        simp [List.filter, hl]
      rw [hf, List.findSome?_cons]
      unfold trySlot
      by_cases hk : toKey [fName, day, t] ∈ fas
      · rw [if_pos hk, if_pos hk]
        exact ih
      · rw [if_neg hk, if_neg hk]
        cases hp : pickRoom ras rooms day t with
        | none => simpa using ih
        | some r => simp

theorem scanFaculty_cons_eq (fas ras : List String) (rooms : List Room) (day : String)
    (f : Faculty) (rest : List Faculty) :
    scanFaculty fas ras rooms day (f :: rest) =
      match slotsTried f day with
      | .error e => .error e
      | .ok slots =>
        match slots.findSome? (trySlot fas ras rooms (facultyNameOf f) day) with
        | some (t, r) => .ok (some (f, t, r))
        | none => scanFaculty fas ras rooms day rest := by
  unfold slotsTried
  rw [scanFaculty]
  cases h : availOf f day with
  | slotMap m => rfl
  | list avail =>
    simp only [scanSlots_eq_findSome]

/-- C10, the code at the failing input and in general. A faculty member whose
availability map lists ["10:00-11:00"] for Monday under the key "Monday", as the seed
script stores it, is not tried at that list: the slots tried on "Mon" are the six canonical
slots, and with nothing occupied the faculty loop places the session at "09:00-10:00",
outside the stored list. In general the generators read the map under the lower-cased day
code: when a list is stored there, the slots tried are that list in stored order without
its "12:00-13:00" entries (the explicit lunch guard; an empty list yields no slot), and
when the faculty member has no map or no entry there, the six canonical slots in canonical
order; the faculty loop places the session at the first tried slot whose faculty key is
free and for which some room is free. -/
theorem availability_list_under_day_name_not_tried :
    (sampleFacultySeed.availability = some [("Monday", .list ["10:00-11:00"])] ∧
      slotsTried sampleFacultySeed "Mon" = .ok
        ["09:00-10:00", "10:00-11:00", "11:00-12:00", "13:00-14:00", "14:00-15:00",
          "15:00-16:00"] ∧
      slotsTried sampleFacultySeed "Mon" ≠ .ok ["10:00-11:00"] ∧
      scanFaculty [] [] [sampleRoom] "Mon" [sampleFacultySeed] =
        .ok (some (sampleFacultySeed, "09:00-10:00", sampleRoom))) ∧
    (availOf sampleFacultyLunch "Mon" = .list ["12:00-13:00", "10:00-11:00"] ∧
      slotsTried sampleFacultyLunch "Mon" = .ok ["10:00-11:00"] ∧
      scanFaculty [] [] [sampleRoom] "Mon" [sampleFacultyLunch] =
        .ok (some (sampleFacultyLunch, "10:00-11:00", sampleRoom))) ∧
    (∀ (f : Faculty) (d : String),
      (∀ m l, f.availability = some m → m.lookup (toLowerCase d) = some (.list l) →
        slotsTried f d = .ok (l.filter (fun t => decide (t ≠ "12:00-13:00"))) ∧
        (l = [] → slotsTried f d = .ok [])) ∧
      (f.availability = none ∨
          (∃ m, f.availability = some m ∧ m.lookup (toLowerCase d) = none) →
        slotsTried f d = .ok
          ["09:00-10:00", "10:00-11:00", "11:00-12:00", "13:00-14:00", "14:00-15:00",
            "15:00-16:00"]) ∧
      (∀ fas ras rooms rest, scanFaculty fas ras rooms d (f :: rest) =
        match slotsTried f d with
        | .error e => .error e
        | .ok slots =>
          match slots.findSome? (trySlot fas ras rooms (facultyNameOf f) d) with
          | some (t, r) => .ok (some (f, t, r))
          | none => scanFaculty fas ras rooms d rest)) := by
  refine ⟨⟨rfl, rfl, fun h => ?_, rfl⟩, ⟨rfl, rfl, rfl⟩, fun f d =>
    ⟨?_, ?_, fun fas ras rooms rest => scanFaculty_cons_eq fas ras rooms d f rest⟩⟩
  · rw [show slotsTried sampleFacultySeed "Mon" = Except.ok
      ["09:00-10:00", "10:00-11:00", "11:00-12:00", "13:00-14:00", "14:00-15:00",
        "15:00-16:00"] from rfl] at h
    exact absurd (Except.ok.inj h) (by decide)
  · intro m l hm hl
    have : slotsTried f d = .ok (l.filter (fun t => decide (t ≠ "12:00-13:00"))) := by
      unfold slotsTried availOf
      rw [hm]
      simp only [hl]
      rfl
    refine ⟨this, fun hnil => ?_⟩
    rw [this, hnil]
    rfl
  · intro h
    have hav : availOf f d = .list timeSlots := by
      unfold availOf
      rcases h with h | ⟨m, hm, hl⟩
      · rw [h]
      · rw [hm]
        simp only [hl]
    unfold slotsTried
    rw [hav]
    rfl

/-! ## syncAvailabilityWithSchedule on generator records -/

/-- C7, the code at the failing input: the schedule holds the one session that
`generateStudentTimetable` places for faculty "fa" on "Mon" at "09:00-10:00", and the new
availability map sets Monday 09:00-10:00 to `false`; the reconciler reports 0 conflicts
and an empty list. The record has its time-slot under `time` and no `time_slot` field,
and its `faculty_id` is an `ObjectId`; the report stays empty when the `faculty_id` is
stored as the string "fa", and holds the session only once the time-slot is also stored
under `time_slot`. -/
theorem sync_reports_nothing_for_generator_session :
    ∃ p, generateStudentTimetable sampleRand [sampleCourse] [sampleFacultyA] [sampleRoom] =
        .ok [p] ∧
      p.session.faculty_id = "fa" ∧ p.session.day = "Mon" ∧
      p.session.time = "09:00-10:00" ∧
      syncAvailabilityWithSchedule "fa" [("Monday", .slotMap [("09:00-10:00", false)])]
        (some [p.session.toStored]) = { conflicts := 0, conflictingClasses := [] } ∧
      syncAvailabilityWithSchedule "fa" [("Monday", .slotMap [("09:00-10:00", false)])]
        (some [{ p.session.toStored with faculty_id := some (.str "fa") }]) =
        { conflicts := 0, conflictingClasses := [] } ∧
      (syncAvailabilityWithSchedule "fa" [("Monday", .slotMap [("09:00-10:00", false)])]
        (some [{ p.session.toStored with
          faculty_id := some (.str "fa"), time_slot := some "09:00-10:00" }])).conflicts = 1 :=
  ⟨_, rfl, rfl, rfl, rfl, by decide, by decide, by decide⟩

/-! ## Availability representations and keys -/

theorem lookup_none_of_not_mem {β : Type} (k : String) :
    ∀ (m : List (String × β)), k ∉ m.map Prod.fst → m.lookup k = none := by
  intro m
  induction m with
  | nil => intro _; rfl
  | cons p rest ih =>
    intro h
    obtain ⟨a, b⟩ := p
    simp only [List.map_cons, List.mem_cons, not_or] at h
    have hne : (k == a) = false := by simpa using h.1
    simp only [List.lookup, hne]
    exact ih h.2

theorem availOf_full_day_keys {f : Faculty} {m : AvailMap} (hm : f.availability = some m)
    (hkeys : ∀ k ∈ m.map Prod.fst, k ∈ fullDayNames) {d : String} (hd : d ∈ WORKING_DAYS) :
    availOf f d = .list timeSlots := by
  have hnot : toLowerCase d ∉ m.map Prod.fst := by
    intro hk
    have h1 := hkeys _ hk
    have h2 : toLowerCase d ∈ WORKING_DAYS.map toLowerCase := List.mem_map_of_mem _ hd
    have h3 : ∀ x ∈ WORKING_DAYS.map toLowerCase, x ∉ fullDayNames := by decide
    exact h3 _ h2 h1
  unfold availOf
  rw [hm]
  simp only [lookup_none_of_not_mem _ m hnot]

set_option maxRecDepth 100000 in
/-- C11, the code at the failing inputs: with a per-slot boolean object under the key the
generators consult ("mon"), each of the three generators throws a `TypeError` instead of
returning a schedule; with the same object under the key the availability form writes
("Monday"), `generateStudentTimetable` returns a session for that faculty member on Mon
at "09:00-10:00", the slot the object marks `false`. -/
theorem boolean_map_availability_not_supported :
    generateStudentTimetable sampleRand [sampleCourse] [sampleFacultyMap] [sampleRoom] =
      .error "TypeError: avail is not iterable" ∧
    generateAndSaveStudentTimetable sampleRand [sampleCourse] [sampleFacultyMap]
      [sampleRoom] [] = .error "TypeError: avail is not iterable" ∧
    generateNaiveTimetable sampleRand [sampleCourse] [sampleFacultyMap] [sampleRoom] =
      .error "TypeError: avail.includes is not a function" ∧
    ∃ p, generateStudentTimetable sampleRand [sampleCourse] [sampleFacultyMonday]
        [sampleRoom] = .ok [p] ∧
      p.origin = .structured ∧ p.session.faculty_id = sampleFacultyMonday._id ∧
      p.session.day = "Mon" ∧ p.session.time = "09:00-10:00" :=
  ⟨rfl, rfl, rfl, _, rfl, rfl, rfl, rfl, rfl⟩

set_option maxRecDepth 100000 in
/-- C12, the code at the failing input and in general: a faculty member whose availability
map lists "10:00-11:00" as the only permitted slot of Monday is given, by the structured
search of each generator, a session on Mon outside that list. For every availability map
whose keys are full day names the value the generators use on a working day is the
default list of all six slots: such a map is never consulted. -/
theorem full_day_name_availability_ignored :
    (∃ p ps, generateStudentTimetable sampleRand [sampleCourse] [sampleFacultySeed]
        [sampleRoom] = .ok (p :: ps) ∧
      p.origin = .structured ∧ p.session.faculty_id = sampleFacultySeed._id ∧
      p.session.day = "Mon" ∧ p.session.time ∉ ["10:00-11:00"]) ∧
    (∃ p ps, generateAndSaveStudentTimetable sampleRand [sampleCourse] [sampleFacultySeed]
        [sampleRoom] [] = .ok (p :: ps) ∧
      p.origin = .structured ∧ p.session.faculty_id = sampleFacultySeed._id ∧
      p.session.day = "Mon" ∧ p.session.time ∉ ["10:00-11:00"]) ∧
    (∃ p ps, generateNaiveTimetable sampleRand [sampleCourse] [sampleFacultySeed]
        [sampleRoom] = .ok (p :: ps) ∧
      p.origin = .structured ∧ p.session.faculty_id = sampleFacultySeed._id ∧
      p.session.day = "Mon" ∧ p.session.time ∉ ["10:00-11:00"]) ∧
    (∀ (f : Faculty) (m : AvailMap), f.availability = some m →
      (∀ k ∈ m.map Prod.fst, k ∈ fullDayNames) →
      ∀ d ∈ WORKING_DAYS, availOf f d = .list timeSlots) :=
  ⟨⟨_, _, rfl, rfl, rfl, rfl, by decide⟩, ⟨_, _, rfl, rfl, rfl, rfl, by decide⟩,
    ⟨_, _, rfl, rfl, rfl, rfl, by decide⟩,
    fun _ _ hm hk _ hd => availOf_full_day_keys hm hk hd⟩

/-- C17: a schedule produced by `generateNaiveTimetable` has at most
min(2 * number of courses, 30) sessions, and 30 is the number of calendar cells, 5 working
days times 6 teaching slots. -/
theorem naive_session_count_bound (rand : Nat → Draw) (courses : List Course)
    (faculty : List Faculty) (rooms : List Room) (sched : List Placed)
    (h : generateNaiveTimetable rand courses faculty rooms = .ok sched) :
    sched.length ≤ min (2 * courses.length) 30 ∧ ALL_SLOTS.length = 30 ∧
      WORKING_DAYS.length * timeSlots.length = 30 := by
  have := (generateNaive_spec h).2.2.2.1
  refine ⟨?_, by decide, by decide⟩
  have h30 : WORKING_DAYS.length * timeSlots.length = 30 := by decide
  rw [h30, Nat.mul_comm] at this
  exact this

set_option maxRecDepth 100000 in
theorem naive_session_count_bound_witness :
    ∃ sched, generateNaiveTimetable sampleRand sampleCatalog [sampleFacultyA, sampleFacultyB]
        [sampleRoom] = .ok sched ∧
      sched.length ≤ min (2 * sampleCatalog.length) 30 :=
  ⟨_, rfl, (naive_session_count_bound sampleRand sampleCatalog
    [sampleFacultyA, sampleFacultyB] [sampleRoom] _ rfl).1⟩

/-! ## The reconciler on a database state -/

theorem updateFirst_some {u : String} {a : AvailMap} :
    ∀ (l : List FacultyRecord) (r1 : FacultyRecord) (l1 : List FacultyRecord),
      updateFirst u a l = some (r1, l1) →
      ∃ pre r post, l = pre ++ r :: post ∧ (∀ x ∈ pre, x.user_id ≠ some u) ∧
        r.user_id = some u ∧
        r1 = { r with doc := { r.doc with availability := some a } } ∧
        l1 = pre ++ r1 :: post := by
  intro l
  induction l with
  | nil => intro r1 l1 h; simp [updateFirst] at h
  | cons x rest ih =>
    intro r1 l1 h
    unfold updateFirst at h
    split at h
    · rename_i hx
      simp only [Option.some.injEq, Prod.mk.injEq] at h
      obtain ⟨rfl, rfl⟩ := h
      exact ⟨[], x, rest, rfl, by simp, hx, rfl, rfl⟩
    · rename_i hx
      split at h
      · rename_i u1 l2 hu
        simp only [Option.some.injEq, Prod.mk.injEq] at h
        obtain ⟨rfl, rfl⟩ := h
        obtain ⟨pre, r, post, h1, h2, h3, h4, h5⟩ := ih _ _ hu
        refine ⟨x :: pre, r, post, by rw [h1]; rfl, ?_, h3, h4, by rw [h5]; rfl⟩
        intro y hy
        rcases List.mem_cons.1 hy with rfl | hy
        · exact hx
        · exact h2 y hy
      · simp at h

theorem updateFirst_none {u : String} {a : AvailMap} :
    ∀ (l : List FacultyRecord), updateFirst u a l = none → ∀ x ∈ l, x.user_id ≠ some u := by
  intro l
  induction l with
  | nil => intro _ x hx; simp at hx
  | cons y rest ih =>
    intro h x hx
    unfold updateFirst at h
    split at h
    · simp at h
    · rename_i hy
      split at h
      · simp at h
      · rename_i hr
        rcases List.mem_cons.1 hx with rfl | hx
        · exact hy
        · exact ih hr x hx

theorem updateFirst_idem {u : String} {a : AvailMap} :
    ∀ (l : List FacultyRecord) (r1 : FacultyRecord) (l1 : List FacultyRecord),
      updateFirst u a l = some (r1, l1) → updateFirst u a l1 = some (r1, l1) := by
  intro l
  induction l with
  | nil => intro r1 l1 h; simp [updateFirst] at h
  | cons x rest ih =>
    intro r1 l1 h
    unfold updateFirst at h
    split at h
    · rename_i hx
      simp only [Option.some.injEq, Prod.mk.injEq] at h
      obtain ⟨rfl, rfl⟩ := h
      unfold updateFirst
      rw [if_pos hx]
    · rename_i hx
      split at h
      · rename_i u1 l2 hu
        simp only [Option.some.injEq, Prod.mk.injEq] at h
        obtain ⟨rfl, rfl⟩ := h
        unfold updateFirst
        rw [if_neg hx, ih _ _ hu]
      · simp at h

theorem updateFirst_inserted {u : String} {a : AvailMap} (freshId : String) :
    ∀ (l : List FacultyRecord), updateFirst u a l = none →
      updateFirst u a (l ++ [insertedFaculty u a freshId]) =
        some (insertedFaculty u a freshId, l ++ [insertedFaculty u a freshId]) := by
  intro l
  induction l with
  | nil =>
    intro _
    simp [updateFirst, insertedFaculty]
  | cons x rest ih =>
    intro h
    unfold updateFirst at h
    split at h
    · simp at h
    · rename_i hx
      split at h
      · simp at h
      · rename_i hr
        rw [List.cons_append]
        unfold updateFirst
        rw [if_neg hx, ih hr]

theorem upsertAvailability_idem (l : List FacultyRecord) (u : String) (a : AvailMap)
    (id1 id2 : String) :
    upsertAvailability (upsertAvailability l u a id1).2 u a id2 =
      upsertAvailability l u a id1 := by
  unfold upsertAvailability
  cases h : updateFirst u a l with
  | some res =>
    obtain ⟨r1, l1⟩ := res
    simp only [updateFirst_idem _ _ _ h]
  | none =>
    simp only [updateFirst_inserted id1 l h]

/-- C18: when the query for the latest timetable finds no document, or finds one without
a session list, `syncAvailabilityWithSchedule` answers with status 200, the message
"Availability updated successfully" and a conflict count of 0. -/
theorem sync_without_schedule_reports_zero
    (findLatest : List TimetableDoc → Option TimetableDoc) (freshId : String) (db : Db)
    (userId : String) (availability : AvailMap)
    (h : findLatest db.timetables = none ∨
      ∃ tt, findLatest db.timetables = some tt ∧ tt.data = none) :
    (syncAvailabilityHandler findLatest freshId db userId availability).1.status = 200 ∧
    (syncAvailabilityHandler findLatest freshId db userId availability).1.conflicts = 0 ∧
    (syncAvailabilityHandler findLatest freshId db userId availability).1.message =
      "Availability updated successfully" ∧
    (syncAvailabilityHandler findLatest freshId db userId availability).1.conflictingClasses
      = none := by
  have hb : (findLatest db.timetables).bind (fun tt => tt.data) = none := by
    rcases h with h | ⟨tt, h1, h2⟩
    · rw [h]
      rfl
    · rw [h1]
      exact h2
  unfold syncAvailabilityHandler
  simp [hb]

theorem sync_without_schedule_reports_zero_witness :
    sampleFindLatest sampleDb.timetables = none ∧
    (syncAvailabilityHandler sampleFindLatest "new" sampleDb "ua"
      [("Monday", .slotMap [("09:00-10:00", false)])]).1.conflicts = 0 :=
  ⟨rfl, (sync_without_schedule_reports_zero sampleFindLatest "new" sampleDb "ua"
    [("Monday", .slotMap [("09:00-10:00", false)])] (Or.inl rfl)).2.1⟩

/-- C19: `syncAvailabilityWithSchedule` leaves every stored timetable (and the course and
room collections) as it was, whatever it reports; its only write sets the availability of
the first faculty document of the requesting user, or inserts a document for that user
when there is none. -/
theorem sync_leaves_schedule_unchanged
    (findLatest : List TimetableDoc → Option TimetableDoc) (freshId : String) (db : Db)
    (userId : String) (availability : AvailMap) :
    (syncAvailabilityHandler findLatest freshId db userId availability).2.timetables =
      db.timetables ∧
    (syncAvailabilityHandler findLatest freshId db userId availability).2.courses =
      db.courses ∧
    (syncAvailabilityHandler findLatest freshId db userId availability).2.rooms = db.rooms ∧
    ((∃ pre r post, db.faculty = pre ++ r :: post ∧ (∀ x ∈ pre, x.user_id ≠ some userId) ∧
        r.user_id = some userId ∧
        (syncAvailabilityHandler findLatest freshId db userId availability).2.faculty =
          pre ++ { r with doc := { r.doc with availability := some availability } } :: post) ∨
      ((∀ x ∈ db.faculty, x.user_id ≠ some userId) ∧
        (syncAvailabilityHandler findLatest freshId db userId availability).2.faculty =
          db.faculty ++ [insertedFaculty userId availability freshId])) := by
  have hdb : (syncAvailabilityHandler findLatest freshId db userId availability).2 =
      { db with faculty := (upsertAvailability db.faculty userId availability freshId).2 } := by
    unfold syncAvailabilityHandler
    simp only
    split <;> rfl
  rw [hdb]
  refine ⟨rfl, rfl, rfl, ?_⟩
  simp only
  unfold upsertAvailability
  cases h : updateFirst userId availability db.faculty with
  | some res =>
    obtain ⟨r1, l1⟩ := res
    obtain ⟨pre, r, post, h1, h2, h3, h4, h5⟩ := updateFirst_some _ _ _ h
    left
    refine ⟨pre, r, post, h1, h2, h3, ?_⟩
    simp only
    rw [h5, h4]
  | none =>
    right
    exact ⟨updateFirst_none _ h, rfl⟩

/-- C20: the conflict report is a function of the session list of the timetable read, the
id of the faculty document and the availability map alone. Two calls of the handler, on
any two database states, with any user, any fresh id and any query for the latest
timetable, return the same count and the same conflicting classes in the same order as
soon as they agree on these three inputs; and a call repeated on the state the first call
left returns the report of the first call. -/
theorem sync_report_is_deterministic
    (findLatest1 findLatest2 : List TimetableDoc → Option TimetableDoc)
    (fresh1 fresh2 : String) (db1 db2 : Db) (user1 user2 : String) (availability : AvailMap)
    (hdata : (findLatest1 db1.timetables).bind (fun tt => tt.data) =
      (findLatest2 db2.timetables).bind (fun tt => tt.data))
    (hid : (upsertAvailability db1.faculty user1 availability fresh1).1.doc._id =
      (upsertAvailability db2.faculty user2 availability fresh2).1.doc._id) :
    ((syncAvailabilityHandler findLatest1 fresh1 db1 user1 availability).1.conflicts =
        (syncAvailabilityHandler findLatest2 fresh2 db2 user2 availability).1.conflicts ∧
      (syncAvailabilityHandler findLatest1 fresh1 db1 user1 availability).1.conflictingClasses =
        (syncAvailabilityHandler findLatest2 fresh2 db2 user2 availability).1.conflictingClasses) ∧
    ((syncAvailabilityHandler findLatest1 fresh2
        (syncAvailabilityHandler findLatest1 fresh1 db1 user1 availability).2 user1
        availability).1 =
      (syncAvailabilityHandler findLatest1 fresh1 db1 user1 availability).1) ∧
    (∀ facultyId data,
      (syncAvailabilityWithSchedule facultyId availability (some data)).conflictingClasses =
        data.filter (isConflict facultyId availability) ∧
      (syncAvailabilityWithSchedule facultyId availability (some data)).conflicts =
        (data.filter (isConflict facultyId availability)).length) := by
  refine ⟨?_, ?_, fun _ _ => ⟨rfl, rfl⟩⟩
  · unfold syncAvailabilityHandler
    simp only [hdata, hid]
    split <;> exact ⟨rfl, rfl⟩
  · have hdb : (syncAvailabilityHandler findLatest1 fresh1 db1 user1 availability).2 =
        { db1 with
          faculty := (upsertAvailability db1.faculty user1 availability fresh1).2 } := by
      unfold syncAvailabilityHandler
      simp only
      split <;> rfl
    rw [hdb]
    unfold syncAvailabilityHandler
    simp only [upsertAvailability_idem]

theorem sync_report_is_deterministic_witness :
    (syncAvailabilityHandler sampleFindLatest "x" sampleDb "ua"
        [("Monday", .slotMap [("09:00-10:00", false)])]).1.conflicts =
      (syncAvailabilityHandler sampleFindLatest "y"
        { sampleDb with courses := [] } "ua"
        [("Monday", .slotMap [("09:00-10:00", false)])]).1.conflicts :=
  (sync_report_is_deterministic sampleFindLatest sampleFindLatest "x" "y" sampleDb
    { sampleDb with courses := [] } "ua" "ua"
    [("Monday", .slotMap [("09:00-10:00", false)])] rfl rfl).1.1

/-! ## Failures of generateAndSaveStudentTimetable -/

theorem generateAndSaveOn_error_keeps_db (rand : Nat → Draw) (now : Nat) (db : Db)
    (studentId : String) (courseIds : List String) (e : String)
    (h : (generateAndSaveOn rand now db studentId courseIds).1 = .error e) :
    generateAndSaveOn rand now db studentId courseIds = (.error e, db) := by
  unfold generateAndSaveOn at h ⊢
  simp only at h ⊢
  split
  · rename_i e1 he
    rw [he] at h
    simp only [Except.error.injEq] at h
    rw [h]
  · rename_i t ht
    rw [ht] at h
    simp at h

/-- C14, the code in general and at the failing input: `generateAndSaveStudentTimetable`
fails with the error naming the first empty roster in the order courses, faculty, rooms;
every failure returns no session and leaves the stored timetables as they were; with
three non-empty rosters and list-valued availability it returns a schedule. It also fails
on three non-empty rosters: when the only faculty document has a per-slot boolean object
under the key "mon", it throws "TypeError: avail is not iterable". -/
theorem generate_and_save_failure_cases :
    (∀ rand now db studentId courseIds,
      (db.courses.filter (fun c => decide (c._id ∈ courseIds))).length = 0 →
      generateAndSaveOn rand now db studentId courseIds =
        (.error "No courses found for the provided course IDs", db)) ∧
    (∀ rand now db studentId courseIds,
      (db.courses.filter (fun c => decide (c._id ∈ courseIds))).length ≠ 0 →
      db.faculty.length = 0 →
      generateAndSaveOn rand now db studentId courseIds =
        (.error "No faculty available for assignment", db)) ∧
    (∀ rand now db studentId courseIds,
      (db.courses.filter (fun c => decide (c._id ∈ courseIds))).length ≠ 0 →
      db.faculty.length ≠ 0 → db.rooms.length = 0 →
      generateAndSaveOn rand now db studentId courseIds =
        (.error "No rooms available for assignment", db)) ∧
    (∀ rand now db studentId courseIds e,
      (generateAndSaveOn rand now db studentId courseIds).1 = .error e →
      generateAndSaveOn rand now db studentId courseIds = (.error e, db)) ∧
    (∀ rand now db studentId courseIds,
      (db.courses.filter (fun c => decide (c._id ∈ courseIds))).length ≠ 0 →
      db.faculty.length ≠ 0 → db.rooms.length ≠ 0 →
      ListAvail (db.faculty.map (fun r => r.doc)) →
      ∃ sched, (generateAndSaveOn rand now db studentId courseIds).1 = .ok sched) ∧
    ((sampleDbMap.courses.filter (fun c => decide (c._id ∈ ["c1"]))).length = 1 ∧
      sampleDbMap.faculty.length = 1 ∧ sampleDbMap.rooms.length = 1 ∧
      generateAndSaveOn sampleRand 0 sampleDbMap "s1" ["c1"] =
        (.error "TypeError: avail is not iterable", sampleDbMap)) := by
  refine ⟨?_, ?_, ?_, generateAndSaveOn_error_keeps_db, ?_, ⟨by decide, rfl, rfl, rfl⟩⟩
  · intro rand now db studentId courseIds hc
    unfold generateAndSaveOn generateAndSaveStudentTimetable
    simp only [hc, if_true]
  · intro rand now db studentId courseIds hc hf
    unfold generateAndSaveOn generateAndSaveStudentTimetable
    simp only [if_neg hc, List.length_map, hf, if_true]
  · intro rand now db studentId courseIds hc hf hr
    unfold generateAndSaveOn generateAndSaveStudentTimetable
    simp only [if_neg hc, List.length_map, if_neg hf, hr, if_true]
  · intro rand now db studentId courseIds hc hf hr hav
    obtain ⟨sched, hs⟩ := generateAndSave_ok rand db.timetables hc
      (by rw [List.length_map]; exact hf) hr hav
    refine ⟨sched, ?_⟩
    unfold generateAndSaveOn
    simp only [hs]

/-! ## generateStudentTimetable returns a schedule -/

theorem studentStep_ok (rand : Nat → Draw) {faculty : List Faculty} {rooms : List Room}
    (hf : faculty.length ≠ 0) (hr : rooms.length ≠ 0) (hav : ListAvail faculty)
    (st : GenState) (course : Course) :
    ∃ st1 p, studentStep rand faculty rooms st course = .ok st1 ∧
      st1.timetable = st.timetable ++ [p] ∧ p.session.course = course.title ∧
      p.session.course_code = course.code ∧
      (p.origin = .structured ∨ p.origin = .fallback) := by
  obtain ⟨res, hres⟩ := scanDays_ok st.facultyAtSlot st.roomAtSlot rooms
    (candidatePool course.title faculty) WORKING_DAYS
    (fun f hf d hd => hav f (candidatePool_subset _ _ f hf) d hd)
  unfold studentStep
  simp only [hres]
  cases res with
  | some x =>
    obtain ⟨d, f, t, r⟩ := x
    exact ⟨_, _, rfl, rfl, rfl, rfl, Or.inl rfl⟩
  | none =>
    obtain ⟨d, hd1, _⟩ := getElem?_floorMul (rand st.k) WORKING_DAYS (by decide)
    obtain ⟨t, ht1, _⟩ := getElem?_floorMul (rand (st.k + 1)) timeSlots (by decide)
    obtain ⟨f, hf1, _⟩ := getElem?_floorMul (rand (st.k + 2)) faculty hf
    obtain ⟨r, hr1, _⟩ := getElem?_floorMul (rand (st.k + 3)) rooms hr
    simp only [hd1, ht1, hf1, hr1]
    exact ⟨_, _, rfl, rfl, rfl, rfl, Or.inr rfl⟩

theorem studentLoop_ok (rand : Nat → Draw) {faculty : List Faculty} {rooms : List Room}
    (hf : faculty.length ≠ 0) (hr : rooms.length ≠ 0) (hav : ListAvail faculty) :
    ∀ (courses : List Course) (st : GenState),
      ∃ st1 ps, studentLoop rand faculty rooms courses st = .ok st1 ∧
        st1.timetable = st.timetable ++ ps ∧
        ps.map (fun p => (p.session.course, p.session.course_code)) =
          courses.map (fun c => (c.title, c.code)) ∧
        ∀ p ∈ ps, p.origin = .structured ∨ p.origin = .fallback := by
  intro courses
  induction courses with
  | nil => intro st; exact ⟨st, [], rfl, by simp, rfl, by simp⟩
  | cons c rest ih =>
    intro st
    obtain ⟨st2, p, h2, htt, h3, h4, h5⟩ := studentStep_ok rand hf hr hav st c
    obtain ⟨st1, ps, h1, htt1, hmap, hor⟩ := ih st2
    refine ⟨st1, p :: ps, ?_, ?_, ?_, ?_⟩
    · unfold studentLoop
      simp only [h2]
      exact h1
    · rw [htt1, htt]
      simp
    · simp only [List.map_cons, hmap, h3, h4]
    · intro q hq
      rcases List.mem_cons.1 hq with rfl | hq
      · exact h5
      · exact hor q hq

theorem generateStudentTimetable_ok (rand : Nat → Draw) {courses : List Course}
    {faculty : List Faculty} {rooms : List Room}
    (hc : courses.length ≠ 0) (hf : faculty.length ≠ 0) (hr : rooms.length ≠ 0)
    (hav : ListAvail faculty) :
    ∃ sched, generateStudentTimetable rand courses faculty rooms = .ok sched ∧
      sched.map (fun p => (p.session.course, p.session.course_code)) =
        courses.map (fun c => (c.title, c.code)) ∧
      ∀ p ∈ sched, p.origin = .structured ∨ p.origin = .fallback := by
  obtain ⟨st1, ps, h1, htt, hmap, hor⟩ := studentLoop_ok rand hf hr hav courses
    (GenState.mk [] [] [] 0)
  refine ⟨ps, ?_, hmap, hor⟩
  unfold generateStudentTimetable
  rw [if_neg (by simp [hc, hf, hr])]
  simp only [List.nil_append] at htt
  have h1a : studentLoop rand faculty rooms courses
      { timetable := [], facultyAtSlot := [], roomAtSlot := [], k := 0 } = .ok st1 := h1
  simp only [h1a, htt]

/-- C15: for non-empty course, faculty and room rosters whose availability values are
lists or absent, all stored timetables and all draws in [0,1): `generateStudentTimetable`
returns a schedule holding exactly one session per course, in course order, each placed
by the structured search or by the fallback; `generateAndSaveStudentTimetable` returns a
schedule made of one block of `sessionsNeeded` non-padding sessions per course followed
by the padded sessions; and every pick `floor(r * n)` into a non-empty array of length
`n` lies below `n`. -/
theorem placement_never_fails (rand : Nat → Draw) (courses : List Course)
    (faculty : List Faculty) (rooms : List Room) (existing : List TimetableDoc)
    (hc : courses.length ≠ 0) (hf : faculty.length ≠ 0) (hr : rooms.length ≠ 0)
    (hav : ListAvail faculty) :
    (∃ sched, generateStudentTimetable rand courses faculty rooms = .ok sched ∧
      sched.map (fun p => (p.session.course, p.session.course_code)) =
        courses.map (fun c => (c.title, c.code)) ∧
      ∀ p ∈ sched, p.origin = .structured ∨ p.origin = .fallback) ∧
    (∃ sched blocks pad,
      generateAndSaveStudentTimetable rand courses faculty rooms existing = .ok sched ∧
      sched = blocks.flatten ++ pad ∧ (∀ p ∈ pad, p.origin = .padding) ∧
      List.Forall₂ (fun c b =>
        b.length = (if isLabLike c.title = true then 2 else 1) ∧
        ∀ p ∈ b, (p.origin = .structured ∨ p.origin = .fallback) ∧
          p.session.course_code = c.code) courses blocks) ∧
    (∀ (d : Draw) (n : Nat), 0 < n → floorMul d n < n) ∧
    (∀ (d : Draw), floorMul d faculty.length < faculty.length ∧
      floorMul d rooms.length < rooms.length ∧ floorMul d courses.length < courses.length ∧
      floorMul d timeSlots.length < timeSlots.length ∧
      floorMul d WORKING_DAYS.length < WORKING_DAYS.length) := by
  refine ⟨generateStudentTimetable_ok rand hc hf hr hav, ?_, fun d n hn => floorMul_lt d hn,
    fun d => ⟨floorMul_lt d (Nat.pos_of_ne_zero hf), floorMul_lt d (Nat.pos_of_ne_zero hr),
      floorMul_lt d (Nat.pos_of_ne_zero hc), floorMul_lt d (by decide),
      floorMul_lt d (by decide)⟩⟩
  obtain ⟨sched, hs⟩ := generateAndSave_ok rand existing hc hf hr hav
  obtain ⟨_, _, _, blocks, pad, hsplit, hfa, hpad⟩ := generateAndSave_spec hs
  refine ⟨sched, blocks, pad, hs, hsplit, fun p hp => (hpad p hp).1, ?_⟩
  refine hfa.imp (fun c b hcb => ⟨hcb.length_eq, fun p hp => ⟨?_, hcb.code p hp⟩⟩)
  have hnp := courseBlock_not_padding hcb p hp
  cases ho : p.origin with
  | structured => exact Or.inl rfl
  | fallback => exact Or.inr rfl
  | padding => exact absurd ho hnp

theorem placement_never_fails_witness :
    ([sampleCourse].length ≠ 0 ∧ [sampleFacultyLunch].length ≠ 0 ∧ [sampleRoom].length ≠ 0 ∧
      ListAvail [sampleFacultyLunch]) ∧
    ∃ sched, generateStudentTimetable sampleRand [sampleCourse] [sampleFacultyLunch]
      [sampleRoom] = .ok sched :=
  have hav : ListAvail [sampleFacultyLunch] := by
    intro f hf d hd
    rw [List.mem_singleton] at hf
    subst hf
    have : ∀ d ∈ WORKING_DAYS, ∃ l, availOf sampleFacultyLunch d = .list l := by
      intro d hd
      simp only [WORKING_DAYS, List.mem_cons, List.mem_singleton, List.not_mem_nil,
        or_false] at hd
      rcases hd with rfl | rfl | rfl | rfl | rfl <;> exact ⟨_, rfl⟩
    exact this d hd
  ⟨⟨by decide, by decide, by decide, hav⟩,
    (placement_never_fails sampleRand [sampleCourse] [sampleFacultyLunch] [sampleRoom] []
      (by decide) (by decide) (by decide) hav).1.imp (fun _ h => h.1)⟩

/-! ## The fallback and the occupancy sets -/

theorem fallbackPass_sets {rand : Nat → Draw} {c : Course} {isLab : Bool} {n : Nat}
    {faculty : List Faculty} {rooms : List Room} :
    ∀ (fuel assigned : Nat) (st st1 : SaveState),
      fallbackPass rand c isLab n faculty rooms fuel assigned st = .ok st1 →
      st1.facultyAtSlot = st.facultyAtSlot ∧ st1.roomAtSlot = st.roomAtSlot := by
  intro fuel
  induction fuel with
  | zero =>
    intro assigned st st1 h
    unfold fallbackPass at h
    split at h
    · simp at h
    · simp only [Except.ok.injEq] at h
      subst h
      exact ⟨rfl, rfl⟩
  | succ fuel ih =>
    intro assigned st st1 h
    unfold fallbackPass at h
    split at h
    · split at h
      · have := ih _ _ _ h
        exact this
      · simp at h
    · simp only [Except.ok.injEq] at h
      subst h
      exact ⟨rfl, rfl⟩

theorem fallbackPass_ignores_sets {rand : Nat → Draw} {c : Course} {isLab : Bool} {n : Nat}
    {faculty : List Faculty} {rooms : List Room} (fas ras : List String) :
    ∀ (fuel assigned : Nat) (st : SaveState),
      fallbackPass rand c isLab n faculty rooms fuel assigned
          { st with facultyAtSlot := fas, roomAtSlot := ras } =
        (fallbackPass rand c isLab n faculty rooms fuel assigned st).map
          (fun s => { s with facultyAtSlot := fas, roomAtSlot := ras }) := by
  intro fuel
  induction fuel with
  | zero =>
    intro assigned st
    unfold fallbackPass
    split <;> rfl
  | succ fuel ih =>
    intro assigned st
    unfold fallbackPass
    by_cases hc : assigned < n
    · simp only [hc, if_true]
      cases hf : faculty[floorMul (rand st.k) faculty.length]? with
      | none => rfl
      | some f =>
        cases hd : (sortedDays st.dailySchedule)[0]? with
        | none => rfl
        | some d =>
          cases ht : timeSlots[floorMul (rand (st.k + 1)) timeSlots.length]? with
          | none => rfl
          | some t =>
            cases hr : rooms[floorMul (rand (st.k + 2)) rooms.length]? with
            | none => rfl
            | some r =>
              have := ih (assigned + 1)
                ({ st.push d ⟨classEntry (courseField c.title isLab
                    (sessionType isLab assigned)) c.code (facultyNameOf f) f._id r.name r._id
                    d t, .fallback⟩ with k := st.k + 3 })
              exact this
    · simp only [hc, if_false]
      rfl

theorem studentStep_fallback {rand : Nat → Draw} {faculty : List Faculty} {rooms : List Room}
    {st st1 : GenState} {course : Course}
    (hs : scanDays st.facultyAtSlot st.roomAtSlot rooms (candidatePool course.title faculty)
      WORKING_DAYS = .ok none)
    (h : studentStep rand faculty rooms st course = .ok st1) :
    st1.facultyAtSlot = st.facultyAtSlot ∧ st1.roomAtSlot = st.roomAtSlot ∧
      ∃ d t f r, WORKING_DAYS[floorMul (rand st.k) WORKING_DAYS.length]? = some d ∧
        timeSlots[floorMul (rand (st.k + 1)) timeSlots.length]? = some t ∧
        faculty[floorMul (rand (st.k + 2)) faculty.length]? = some f ∧
        rooms[floorMul (rand (st.k + 3)) rooms.length]? = some r ∧
        st1.timetable = st.timetable ++
          [⟨(semesterEntry rand (st.k + 4) course.semester course.title course.code
            (facultyNameOf f) f._id r.name r._id d t).1, .fallback⟩] := by
  unfold studentStep at h
  simp only [hs] at h
  split at h
  · rename_i d t f r hd ht hf hr
    simp only [Except.ok.injEq] at h
    subst h
    exact ⟨rfl, rfl, d, t, f, r, hd, ht, hf, hr, rfl⟩
  · simp at h

/-- C16: a fallback placement leaves both occupancy sets as they were and does not read
them. In `generateStudentTimetable`, when the structured search of a course finds nothing,
the step pushes one fallback session built from the draws alone and returns the same
`facultyAtSlot` and `roomAtSlot`. In `generateAndSaveStudentTimetable` the fallback loop
returns the same two sets, and run from a state with any other two sets it pushes the
same sessions. In both generators there are runs in which a later structured session has
the faculty, room, day and time-slot of an earlier fallback session. -/
theorem fallback_leaves_occupancy_untouched :
    (∀ (rand : Nat → Draw) (faculty : List Faculty) (rooms : List Room) (st st1 : GenState)
      (course : Course),
      scanDays st.facultyAtSlot st.roomAtSlot rooms (candidatePool course.title faculty)
        WORKING_DAYS = .ok none →
      studentStep rand faculty rooms st course = .ok st1 →
      st1.facultyAtSlot = st.facultyAtSlot ∧ st1.roomAtSlot = st.roomAtSlot ∧
      ∃ d t f r, WORKING_DAYS[floorMul (rand st.k) WORKING_DAYS.length]? = some d ∧
        timeSlots[floorMul (rand (st.k + 1)) timeSlots.length]? = some t ∧
        faculty[floorMul (rand (st.k + 2)) faculty.length]? = some f ∧
        rooms[floorMul (rand (st.k + 3)) rooms.length]? = some r ∧
        st1.timetable = st.timetable ++
          [⟨(semesterEntry rand (st.k + 4) course.semester course.title course.code
            (facultyNameOf f) f._id r.name r._id d t).1, .fallback⟩]) ∧
    (∀ (rand : Nat → Draw) (c : Course) (isLab : Bool) (n : Nat) (faculty : List Faculty)
      (rooms : List Room) (fuel assigned : Nat) (st st1 : SaveState),
      fallbackPass rand c isLab n faculty rooms fuel assigned st = .ok st1 →
      st1.facultyAtSlot = st.facultyAtSlot ∧ st1.roomAtSlot = st.roomAtSlot) ∧
    (∀ (rand : Nat → Draw) (c : Course) (isLab : Bool) (n : Nat) (faculty : List Faculty)
      (rooms : List Room) (fuel assigned : Nat) (st : SaveState) (fas ras : List String),
      fallbackPass rand c isLab n faculty rooms fuel assigned
          { st with facultyAtSlot := fas, roomAtSlot := ras } =
        (fallbackPass rand c isLab n faculty rooms fuel assigned st).map
          (fun s => { s with facultyAtSlot := fas, roomAtSlot := ras })) ∧
    (∃ p q rest, generateStudentTimetable sampleRand [sampleCalculus, samplePhysics]
        [sampleFacultyMondayOnly, sampleFacultyBusy] [sampleRoom] = .ok (p :: q :: rest) ∧
      p.origin = .fallback ∧ q.origin = .structured ∧
      FacultyClash p.session q.session ∧ RoomClash p.session q.session) ∧
    (∃ p q rest, generateAndSaveStudentTimetable sampleRand [sampleCalculus, samplePhysics]
        [sampleFacultyMondayOnly, sampleFacultyBusy] [sampleRoom] [] = .ok (p :: q :: rest) ∧
      p.origin = .fallback ∧ q.origin = .structured ∧
      FacultyClash p.session q.session ∧ RoomClash p.session q.session) :=
  ⟨fun _ _ _ _ _ _ hs h => studentStep_fallback hs h,
    fun _ _ _ _ _ _ fuel assigned st st1 h => fallbackPass_sets fuel assigned st st1 h,
    fun _ _ _ _ _ _ fuel assigned st fas ras => fallbackPass_ignores_sets fas ras fuel assigned st,
    ⟨_, _, _, rfl, rfl, rfl, ⟨rfl, rfl, rfl⟩, ⟨rfl, rfl, rfl⟩⟩,
    ⟨_, _, _, rfl, rfl, rfl, ⟨rfl, rfl, rfl⟩, ⟨rfl, rfl, rfl⟩⟩⟩

theorem fallback_leaves_occupancy_untouched_witness :
    scanDays [] [] [sampleRoom] (candidatePool sampleCalculus.title
        [sampleFacultyMondayOnly, sampleFacultyBusy]) WORKING_DAYS = .ok none ∧
    ∃ st1, studentStep sampleRand [sampleFacultyMondayOnly, sampleFacultyBusy] [sampleRoom]
        (GenState.mk [] [] [] 0) sampleCalculus = .ok st1 ∧
      st1.facultyAtSlot = [] ∧ st1.roomAtSlot = [] :=
  ⟨rfl, _, rfl,
    (fallback_leaves_occupancy_untouched.1 sampleRand
      [sampleFacultyMondayOnly, sampleFacultyBusy] [sampleRoom] (GenState.mk [] [] [] 0) _
      sampleCalculus rfl rfl).1,
    (fallback_leaves_occupancy_untouched.1 sampleRand
      [sampleFacultyMondayOnly, sampleFacultyBusy] [sampleRoom] (GenState.mk [] [] [] 0) _
      sampleCalculus rfl rfl).2.1⟩

/-! ## First fit -/

theorem orderedInsert_ranked {α : Type} (key : α → Nat) (S : α → α → Prop) (a : α) :
    ∀ (s : List α),
      s.Pairwise (fun x y => key x < key y ∨ (key x = key y ∧ S x y)) →
      (∀ c ∈ s, S a c) →
      (s.orderedInsert (fun x y => key x ≤ key y) a).Pairwise
        (fun x y => key x < key y ∨ (key x = key y ∧ S x y)) := by
  intro s
  induction s with
  | nil => intro _ _; simp
  | cons b s ih =>
    intro hp hs
    rw [List.pairwise_cons] at hp
    simp only [List.orderedInsert]
    split
    · rename_i hab
      rw [List.pairwise_cons]
      refine ⟨?_, List.pairwise_cons.2 hp⟩
      intro c hc
      have hbc : key b ≤ key c := by
        rcases List.mem_cons.1 hc with rfl | hc
        · exact Nat.le_refl _
        · rcases hp.1 c hc with h | h
          · exact Nat.le_of_lt h
          · exact Nat.le_of_eq h.1
      rcases Nat.lt_or_eq_of_le (Nat.le_trans hab hbc) with h | h
      · exact Or.inl h
      · exact Or.inr ⟨h, hs c hc⟩
    · rename_i hab
      rw [List.pairwise_cons]
      refine ⟨?_, ih hp.2 (fun c hc => hs c (List.mem_cons_of_mem _ hc))⟩
      intro c hc
      rw [List.mem_orderedInsert] at hc
      rcases hc with rfl | hc
      · exact Or.inl (Nat.lt_of_not_le hab)
      · exact hp.1 c hc

theorem insertionSort_ranked {α : Type} (key : α → Nat) (S : α → α → Prop) :
    ∀ (l : List α), l.Pairwise S →
      (l.insertionSort (fun x y => key x ≤ key y)).Pairwise
        (fun x y => key x < key y ∨ (key x = key y ∧ S x y)) := by
  intro l
  induction l with
  | nil => intro _; simp
  | cons a l ih =>
    intro hp
    rw [List.pairwise_cons] at hp
    simp only [List.insertionSort]
    refine orderedInsert_ranked key S a _ (ih hp.2) ?_
    intro c hc
    exact hp.1 c ((List.perm_insertionSort _ l).mem_iff.1 hc)

theorem sortedDays_ranked {st : SaveState} (hd : DailyOk st) :
    (sortedDays st.dailySchedule).Pairwise (DayBefore st.timetable) := by
  have h := insertionSort_ranked (fun d => (st.dailySchedule d).length)
    (fun a b => WORKING_DAYS.indexOf a < WORKING_DAYS.indexOf b) WORKING_DAYS (by decide)
  unfold sortedDays
  refine h.imp ?_
  intro a b hab
  unfold DayBefore
  rw [← dailyOk_length hd a, ← dailyOk_length hd b]
  exact hab

theorem trySlot_none_iff (fas ras : List String) (rooms : List Room) (d : String)
    (f : Faculty) (t : String) :
    trySlot fas ras rooms (facultyNameOf f) d t = none ↔ ¬ ComboFree fas ras rooms (d, f, t) := by
  unfold trySlot ComboFree
  by_cases hk : toKey [facultyNameOf f, d, t] ∈ fas
  · simp [hk]
  · unfold pickRoom
    simp [hk]

theorem trySlot_some {fas ras : List String} {rooms : List Room} {d : String}
    {f : Faculty} {t t1 : String} {r : Room}
    (h : trySlot fas ras rooms (facultyNameOf f) d t = some (t1, r)) :
    t1 = t ∧ toKey [facultyNameOf f, d, t] ∉ fas ∧ pickRoom ras rooms d t = some r := by
  unfold trySlot at h
  split at h
  · simp at h
  · rename_i hk
    cases hp : pickRoom ras rooms d t with
    | none => simp [hp] at h
    | some r1 =>
      simp only [hp, Option.map_some', Option.some.injEq, Prod.mk.injEq] at h
      exact ⟨h.1.symm, hk, by rw [h.2]⟩

theorem slotList_of_ok {f : Faculty} {d : String} {l : List String}
    (h : slotsTried f d = .ok l) : slotList f d = l := by
  unfold slotList
  rw [h]

theorem scanFaculty_first (fas ras : List String) (rooms : List Room) (d : String) :
    ∀ (pool : List Faculty) (res : Option (Faculty × String × Room)),
      scanFaculty fas ras rooms d pool = .ok res →
      match res with
      | none => ∀ c ∈ pool.flatMap (fun f => (slotList f d).map (fun t => (d, f, t))),
          ¬ ComboFree fas ras rooms c
      | some (f, t, r) =>
        ∃ pre post, pool.flatMap (fun f => (slotList f d).map (fun t => (d, f, t))) =
            pre ++ (d, f, t) :: post ∧
          (∀ c ∈ pre, ¬ ComboFree fas ras rooms c) ∧
          toKey [facultyNameOf f, d, t] ∉ fas ∧ pickRoom ras rooms d t = some r := by
  intro pool
  induction pool with
  | nil =>
    intro res h
    simp only [scanFaculty, Except.ok.injEq] at h
    subst h
    simp
  | cons g rest ih =>
    intro res h
    rw [scanFaculty_cons_eq] at h
    cases hs : slotsTried g d with
    | error e => simp [hs] at h
    | ok slots =>
      have hsl := slotList_of_ok hs
      simp only [hs] at h
      cases hfs : slots.findSome? (trySlot fas ras rooms (facultyNameOf g) d) with
      | some x =>
        obtain ⟨t1, r⟩ := x
        simp only [hfs, Except.ok.injEq] at h
        subst h
        obtain ⟨l1, a, l2, hl, ha, hnone⟩ := List.findSome?_eq_some_iff.1 hfs
        obtain ⟨rfl, hk, hp⟩ := trySlot_some ha
        refine ⟨l1.map (fun t => (d, g, t)),
          l2.map (fun t => (d, g, t)) ++
            rest.flatMap (fun f => (slotList f d).map (fun t => (d, f, t))), ?_, ?_, hk, hp⟩
        · rw [List.flatMap_cons, hsl, hl]
          simp
        · intro c hc
          obtain ⟨t, ht, rfl⟩ := List.mem_map.1 hc
          exact (trySlot_none_iff fas ras rooms d g t).1 (hnone t ht)
      | none =>
        simp only [hfs] at h
        have hall : ∀ c ∈ (slotList g d).map (fun t => (d, g, t)),
            ¬ ComboFree fas ras rooms c := by
          intro c hc
          rw [hsl] at hc
          obtain ⟨t, ht, rfl⟩ := List.mem_map.1 hc
          exact (trySlot_none_iff fas ras rooms d g t).1
            (List.findSome?_eq_none_iff.1 hfs t ht)
        have hrest := ih res h
        cases res with
        | none =>
          simp only at hrest ⊢
          intro c hc
          rw [List.flatMap_cons, List.mem_append] at hc
          rcases hc with hc | hc
          · exact hall c hc
          · exact hrest c hc
        | some x =>
          obtain ⟨f, t, r⟩ := x
          simp only at hrest ⊢
          obtain ⟨pre, post, h1, h2, h3, h4⟩ := hrest
          refine ⟨(slotList g d).map (fun t => (d, g, t)) ++ pre, post, ?_, ?_, h3, h4⟩
          · rw [List.flatMap_cons, h1, List.append_assoc]
          · intro c hc
            rcases List.mem_append.1 hc with hc | hc
            · exact hall c hc
            · exact h2 c hc

theorem scanDays_first (fas ras : List String) (rooms : List Room) (pool : List Faculty) :
    ∀ (dayList : List String) (d : String) (f : Faculty) (t : String) (r : Room),
      scanDays fas ras rooms pool dayList = .ok (some (d, f, t, r)) →
      ∃ pre post, searchOrder slotList pool dayList = pre ++ (d, f, t) :: post ∧
        (∀ c ∈ pre, ¬ ComboFree fas ras rooms c) ∧
        toKey [facultyNameOf f, d, t] ∉ fas ∧ pickRoom ras rooms d t = some r := by
  intro dayList
  induction dayList with
  | nil => intro d f t r h; simp [scanDays] at h
  | cons d0 rest ih =>
    intro d f t r h
    unfold scanDays at h
    split at h
    · simp at h
    · rename_i f0 t0 r0 hs
      simp only [Except.ok.injEq, Option.some.injEq, Prod.mk.injEq] at h
      obtain ⟨rfl, rfl, rfl, rfl⟩ := h
      have := scanFaculty_first fas ras rooms d0 pool _ hs
      simp only at this
      obtain ⟨pre, post, h1, h2, h3, h4⟩ := this
      refine ⟨pre, post ++ searchOrder slotList pool rest, ?_, h2, h3, h4⟩
      unfold searchOrder
      rw [List.flatMap_cons, h1]
      simp
    · rename_i hs
      have hnone := scanFaculty_first fas ras rooms d0 pool _ hs
      simp only at hnone
      obtain ⟨pre, post, h1, h2, h3, h4⟩ := ih d f t r h
      refine ⟨pool.flatMap (fun f => (slotList f d0).map (fun t => (d0, f, t))) ++ pre,
        post, ?_, ?_, h3, h4⟩
      · unfold searchOrder at h1 ⊢
        rw [List.flatMap_cons, h1, List.append_assoc]
      · intro c hc
        rcases List.mem_append.1 hc with hc | hc
        · exact hnone c hc
        · exact h2 c hc

theorem pickRoom_first {ras : List String} {rooms : List Room} {d t : String} {r : Room}
    (h : pickRoom ras rooms d t = some r) :
    toKey [r.name, d, t] ∉ ras ∧
      ∃ r1 r2, rooms = r1 ++ r :: r2 ∧ ∀ x ∈ r1, toKey [x.name, d, t] ∈ ras := by
  unfold pickRoom at h
  obtain ⟨h1, r1, r2, h2, h3⟩ := List.find?_eq_some.1 h
  refine ⟨by simpa using h1, r1, r2, h2, ?_⟩
  intro x hx
  simpa using h3 x hx

theorem slotList_eq_filter (f : Faculty) (d : String) :
    slotList f d = (rawSlotList f d).filter (fun t => decide (t ≠ "12:00-13:00")) := by
  unfold slotList slotsTried rawSlotList
  cases availOf f d with
  | list l => rfl
  | slotMap m => rfl

/-- C13, the claim as stated fails: for a faculty member whose Monday list is
["12:00-13:00", "10:00-11:00"], with nothing occupied and one room, the structured search
of `generateAndSaveStudentTimetable` commits (Mon, "10:00-11:00"), although the combination
(Mon, "12:00-13:00") comes earlier in availability order and has both the faculty member
and the room free. -/
theorem first_fit_passes_over_free_lunch_combination :
    (∃ p rest, generateAndSaveStudentTimetable sampleRand [sampleCalculus]
        [sampleFacultyLunch] [sampleRoom] [] = .ok (p :: rest) ∧
      p.origin = .structured ∧ p.session.day = "Mon" ∧ p.session.time = "10:00-11:00") ∧
    scanDays [] [] [sampleRoom] [sampleFacultyLunch] (sortedDays (fun _ => [])) =
      .ok (some ("Mon", sampleFacultyLunch, "10:00-11:00", sampleRoom)) ∧
    (∃ post, searchOrder rawSlotList [sampleFacultyLunch] (sortedDays (fun _ => [])) =
      ("Mon", sampleFacultyLunch, "12:00-13:00") ::
        ("Mon", sampleFacultyLunch, "10:00-11:00") :: post) ∧
    ComboFree [] [] [sampleRoom] ("Mon", sampleFacultyLunch, "12:00-13:00") :=
  ⟨⟨_, _, rfl, rfl, rfl, rfl⟩, rfl, ⟨_, rfl⟩,
    ⟨by simp, sampleRoom, List.mem_singleton_self _, by simp⟩⟩

/-- C13 as amended: in `generateAndSaveStudentTimetable` every session committed by the
structured search is the first feasible combination in this order: working days ranked
ascending by the number of sessions this run has already placed on the day, ties kept in
the canonical order Mon, Tue, Wed, Thu, Fri; then candidate faculty in pool order; then
the faculty member's slots in availability order with the "12:00-13:00" entries left out;
and it uses the first room in roster order that is free at that (day, slot). No
combination earlier in that order has both the faculty member and some room free. -/
theorem structured_commit_is_first_fit (c : Course) (isLab : Bool) (n : Nat)
    (pool : List Faculty) (rooms : List Room) (fuel session assigned : Nat) (st : SaveState)
    (d : String) (f : Faculty) (t : String) (r : Room)
    (hd : DailyOk st) (hc : session < n ∧ assigned < n)
    (hs : scanDays st.facultyAtSlot st.roomAtSlot rooms pool (sortedDays st.dailySchedule) =
      .ok (some (d, f, t, r))) :
    structuredPass c isLab n pool rooms (fuel + 1) session assigned st =
      structuredPass c isLab n pool rooms fuel (session + 1) (assigned + 1)
        { st.push d ⟨classEntry (courseField c.title isLab (sessionType isLab session))
            c.code (facultyNameOf f) f._id r.name r._id d t, .structured⟩ with
          facultyAtSlot := toKey [facultyNameOf f, d, t] :: st.facultyAtSlot
          roomAtSlot := toKey [r.name, d, t] :: st.roomAtSlot } ∧
    (sortedDays st.dailySchedule).Perm WORKING_DAYS ∧
    (sortedDays st.dailySchedule).Pairwise (DayBefore st.timetable) ∧
    (∃ pre post, searchOrder slotList pool (sortedDays st.dailySchedule) =
        pre ++ (d, f, t) :: post ∧
      (∀ x ∈ pre, ¬ ComboFree st.facultyAtSlot st.roomAtSlot rooms x) ∧
      ComboFree st.facultyAtSlot st.roomAtSlot rooms (d, f, t)) ∧
    (toKey [r.name, d, t] ∉ st.roomAtSlot ∧
      ∃ r1 r2, rooms = r1 ++ r :: r2 ∧ ∀ x ∈ r1, toKey [x.name, d, t] ∈ st.roomAtSlot) ∧
    (∀ g e, slotList g e = (rawSlotList g e).filter (fun s => decide (s ≠ "12:00-13:00"))) := by
  obtain ⟨pre, post, h1, h2, h3, h4⟩ := scanDays_first _ _ _ _ _ _ _ _ _ hs
  obtain ⟨h5, r1, r2, h6, h7⟩ := pickRoom_first h4
  refine ⟨?_, sortedDays_perm _, sortedDays_ranked hd, ⟨pre, post, h1, h2, h3, r, ?_, h5⟩,
    ⟨h5, r1, r2, h6, h7⟩, slotList_eq_filter⟩
  · rw [structuredPass]
    simp only [hc, and_self, if_true, hs]
  · rw [h6]
    simp

theorem structured_commit_is_first_fit_witness :
    (DailyOk (SaveState.mk [] (fun _ => []) [] [] 0) ∧ (0 < 1 ∧ 0 < 1)) ∧
    ∃ pre post, searchOrder slotList [sampleFacultyLunch] (sortedDays (fun _ => [])) =
        pre ++ ("Mon", sampleFacultyLunch, "10:00-11:00") :: post ∧
      (∀ x ∈ pre, ¬ ComboFree [] [] [sampleRoom] x) ∧
      ComboFree [] [] [sampleRoom] ("Mon", sampleFacultyLunch, "10:00-11:00") :=
  ⟨⟨fun _ => rfl, by decide⟩,
    (structured_commit_is_first_fit sampleCalculus false 1 [sampleFacultyLunch] [sampleRoom]
      0 0 0 (SaveState.mk [] (fun _ => []) [] [] 0) "Mon" sampleFacultyLunch "10:00-11:00"
      sampleRoom (fun _ => rfl) (by decide) rfl).2.2.2.1⟩

/-! ## isLabLike -/

/-- C22: `isLabLike(title)` is true exactly when the title, with its letters A-Z folded to
a-z as the flag `i` of the regular expression does, contains one of lab, practical,
programming, database, web development, software engineering as a contiguous substring; a
title that contains one of them inside a longer word, such as "Syllabus Design" or
"Collaboration Skills", is lab-like by the same rule, upper-case letters do not matter,
and an absent title is not lab-like. -/
theorem isLabLike_iff_contains_word (title : String) :
    (isLabLike title = true ↔
      ∃ w ∈ ["lab", "practical", "programming", "database", "web development",
        "software engineering"], w.data <:+: (foldAscii title).data) ∧
    isLabLike "Syllabus Design" = true ∧ isLabLike "Collaboration Skills" = true ∧
    isLabLike "DATABASE Systems" = true ∧ isLabLike "Calculus I" = false ∧
    isLabLikeArg none = false ∧ isLabLikeArg (some title) = isLabLike title := by
  refine ⟨?_, by decide, by decide, by decide, by decide, by decide, rfl⟩
  unfold isLabLike labWords
  rw [List.any_eq_true]
  constructor
  · rintro ⟨w, hw, h⟩
    exact ⟨w, hw, ( includes_iff_infix _ _).1 h⟩
  · rintro ⟨w, hw, h⟩
    exact ⟨w, hw, ( includes_iff_infix _ _).2 h⟩

/-! ## shuffle: indices and permutation -/

theorem shuffleLoop_eq_foldl {α : Type} (rand : Nat → Draw) :
    ∀ (n k : Nat) (a : List α),
      shuffleLoop rand n k a =
        ((shuffleIndices rand n k).foldl (fun b p => swapAt b p.1 p.2) a, k + n) := by
  intro n
  induction n with
  | zero => intro k a; rfl
  | succ n ih =>
    intro k a
    unfold shuffleLoop shuffleIndices
    rw [ih, List.foldl_cons]
    congr 1
    omega

theorem shuffleIndices_bounds (rand : Nat → Draw) :
    ∀ (n k : Nat) (p : Nat × Nat), p ∈ shuffleIndices rand n k → 0 < p.1 ∧ p.1 ≤ n ∧ p.2 ≤ p.1 := by
  intro n
  induction n with
  | zero => intro k p hp; simp [shuffleIndices] at hp
  | succ n ih =>
    intro k p hp
    unfold shuffleIndices at hp
    rcases List.mem_cons.1 hp with rfl | hp
    · refine ⟨Nat.succ_pos _, Nat.le_refl _, ?_⟩
      have h : floorMul (rand k) (n + 2) < n + 2 := floorMul_lt (rand k) (by omega)
      show floorMul (rand k) (n + 2) ≤ n + 1
      omega
    · obtain ⟨h1, h2, h3⟩ := ih _ _ hp
      exact ⟨h1, Nat.le_succ_of_le h2, h3⟩

theorem swapAt_length {α : Type} (a : List α) (i j : Nat) : (swapAt a i j).length = a.length :=
  (swapAt_perm a i j).length_eq

theorem swapAt_inbounds {α : Type} (a : List α) {i j : Nat} (hi : i < a.length)
    (hj : j < a.length) :
    swapAt a i j = (a.set i a[j]).set j a[i] := by
  unfold swapAt
  rw [List.getElem?_eq_getElem hi, List.getElem?_eq_getElem hj]

/-- C24: for every array and every sequence of draws in [0,1), `shuffle` returns a
permutation of its input (same length, every element with the same multiplicity); each
swap of the loop uses indices `i` and `j` with `0 < i`, `j <= i` and `i` below the array
length, so no access leaves the array; the result is computed on the copy `[...arr]`, the
input list is a value that the function cannot change; and the schedule persisted by
`generateNaiveTimetable` is a permutation of the sessions its slot loop placed. -/
theorem shuffle_is_permutation {α : Type} [DecidableEq α] (rand : Nat → Draw) (k : Nat)
    (arr : List α) :
    (shuffle rand k arr).1.Perm arr ∧ (shuffle rand k arr).1.length = arr.length ∧
    (∀ x, (shuffle rand k arr).1.count x = arr.count x) ∧
    (shuffle rand k arr =
      ((shuffleIndices rand (arr.length - 1) k).foldl (fun b p => swapAt b p.1 p.2) arr,
        k + (arr.length - 1))) ∧
    (∀ p ∈ shuffleIndices rand (arr.length - 1) k,
      0 < p.1 ∧ p.1 < arr.length ∧ p.2 ≤ p.1 ∧ p.2 < arr.length) ∧
    (∀ (b : List α) (i j : Nat) (hi : i < b.length) (hj : j < b.length),
      swapAt b i j = (b.set i b[j]).set j b[i] ∧ (swapAt b i j).length = b.length) ∧
    (∀ courses faculty rooms sched,
      generateNaiveTimetable rand courses faculty rooms = .ok sched →
      ∃ st, naiveLoop rand (min (courses.length * 2) (WORKING_DAYS.length * timeSlots.length))
          (shuffle rand (shuffle rand 0 ALL_SLOTS).2 courses).1
          (shuffle rand (shuffle rand (shuffle rand 0 ALL_SLOTS).2 courses).2 faculty).1
          (shuffle rand (shuffle rand (shuffle rand (shuffle rand 0 ALL_SLOTS).2 courses).2
            faculty).2 rooms).1
          (shuffle rand 0 ALL_SLOTS).1
          { timetable := [], facultyAtSlot := [], roomAtSlot := [],
            workload := faculty.map (fun f => (f._id, 0)),
            k := (shuffle rand (shuffle rand (shuffle rand (shuffle rand 0 ALL_SLOTS).2
              courses).2 faculty).2 rooms).2 } = .ok st ∧
        sched.Perm st.timetable) := by
  have hp := shuffle_perm rand k arr
  refine ⟨hp, hp.length_eq, fun x => hp.count_eq x, shuffleLoop_eq_foldl rand _ _ _, ?_, ?_, ?_⟩
  · intro p hpm
    obtain ⟨h1, h2, h3⟩ := shuffleIndices_bounds rand _ _ p hpm
    omega
  · intro b i j hi hj
    exact ⟨swapAt_inbounds b hi hj, swapAt_length b i j⟩
  · intro courses faculty rooms sched h
    unfold generateNaiveTimetable at h
    split at h
    · simp at h
    · split at h
      · simp at h
      · split at h
        · simp at h
        · simp only at h
          split at h
          · simp at h
          · rename_i st hs
            simp only [Except.ok.injEq] at h
            subst h
            exact ⟨st, hs, shuffle_perm rand st.k st.timetable⟩

/-! ## Semester and batch labels -/

theorem semesterOr_cases (semester : Option Nat) (rand : Nat → Draw) (k : Nat) :
    (∀ n, semester = some (n + 1) → (semesterOr semester rand k).1 = n + 1) ∧
    ((semester = none ∨ semester = some 0) →
      1 ≤ (semesterOr semester rand k).1 ∧ (semesterOr semester rand k).1 ≤ 8) := by
  have hlt : floorMul (rand k) 8 < 8 := floorMul_lt (rand k) (by decide)
  constructor
  · intro n hn
    subst hn
    rfl
  · intro h
    rcases h with h | h
    · subst h
      show 1 ≤ floorMul (rand k) 8 + 1 ∧ floorMul (rand k) 8 + 1 ≤ 8
      omega
    · subst h
      show 1 ≤ floorMul (rand k) 8 + 1 ∧ floorMul (rand k) 8 + 1 ≤ 8
      omega

theorem semesterEntry_labelled (rand : Nat → Draw) (k : Nat) (semester : Option Nat)
    (course code fName fId rName rId day time : String) :
    Labelled semester
      (semesterEntry rand k semester course code fName fId rName rId day time).1 := by
  refine ⟨(semesterOr semester rand k).1,
    (semesterOr semester rand (semesterOr semester rand k).2).1, rfl, rfl, ?_, ?_⟩
  · intro n hn
    exact ⟨(semesterOr_cases semester rand k).1 n hn, (semesterOr_cases semester rand _).1 n hn⟩
  · intro h
    exact ⟨(semesterOr_cases semester rand k).2 h, (semesterOr_cases semester rand _).2 h⟩

theorem labelledBy_push {courses : List Course} {l : List Placed} {p : Placed} {c : Course}
    (h : LabelledBy courses l) (hc : c ∈ courses) (h1 : p.session.course_code = c.code)
    (h2 : Labelled c.semester p.session) : LabelledBy courses (l ++ [p]) := by
  intro q hq
  rcases List.mem_append.1 hq with hq | hq
  · exact h q hq
  · rw [List.mem_singleton] at hq
    subst hq
    exact ⟨c, hc, h1, h2⟩

theorem studentLoop_labelled {rand : Nat → Draw} {faculty : List Faculty} {rooms : List Room}
    {all : List Course} :
    ∀ (courses : List Course) (st st1 : GenState), (∀ c ∈ courses, c ∈ all) →
      studentLoop rand faculty rooms courses st = .ok st1 →
      LabelledBy all st.timetable → LabelledBy all st1.timetable := by
  intro courses
  induction courses with
  | nil =>
    intro st st1 _ h hi
    simp only [studentLoop, Except.ok.injEq] at h
    subst h
    exact hi
  | cons c rest ih =>
    intro st st1 hsub h hi
    unfold studentLoop at h
    split at h
    · simp at h
    · rename_i st2 hs
      refine ih _ _ (fun x hx => hsub x (List.mem_cons_of_mem _ hx)) h ?_
      have hc : c ∈ all := hsub c (List.mem_cons_self _ _)
      unfold studentStep at hs
      simp only at hs
      split at hs
      · simp at hs
      · simp only [Except.ok.injEq] at hs
        subst hs
        exact labelledBy_push hi hc rfl (semesterEntry_labelled _ _ _ _ _ _ _ _ _ _ _)
      · split at hs
        · simp only [Except.ok.injEq] at hs
          subst hs
          exact labelledBy_push hi hc rfl (semesterEntry_labelled _ _ _ _ _ _ _ _ _ _ _)
        · simp at hs

theorem naiveLoop_labelled {rand : Nat → Draw} {target : Nat} {cs : List Course}
    {fs : List Faculty} {rs : List Room} :
    ∀ (slots : List Slot) (st st1 : NaiveState),
      naiveLoop rand target cs fs rs slots st = .ok st1 →
      LabelledBy cs st.timetable → LabelledBy cs st1.timetable := by
  intro slots
  induction slots with
  | nil =>
    intro st st1 h hi
    simp only [naiveLoop, Except.ok.injEq] at h
    subst h
    exact hi
  | cons slot rest ih =>
    intro st st1 h hi
    unfold naiveLoop at h
    split at h
    · simp only [Except.ok.injEq] at h
      subst h
      exact hi
    · split at h
      · exact ih _ _ h hi
      · split at h
        · simp at h
        · rename_i c hc
          simp only at h
          split at h
          · simp at h
          · exact ih _ _ h hi
          · split at h
            · exact ih _ _ h hi
            · exact ih _ _ h
                (labelledBy_push hi (List.getElem?_mem hc) rfl
                  (semesterEntry_labelled _ _ _ _ _ _ _ _ _ _ _))

/-- Every session returned by `generateStudentTimetable` or `generateNaiveTimetable`
carries the code and the semester/batch label of one of the courses. -/
theorem generators_labelled {rand : Nat → Draw} {courses : List Course}
    {faculty : List Faculty} {rooms : List Room} {sched : List Placed}
    (h : generateStudentTimetable rand courses faculty rooms = .ok sched ∨
      generateNaiveTimetable rand courses faculty rooms = .ok sched) :
    LabelledBy courses sched := by
  have h0 : ∀ cs : List Course, LabelledBy cs [] := fun _ _ hp => by simp at hp
  rcases h with h | h
  · unfold generateStudentTimetable at h
    split at h
    · simp at h
    · split at h
      · simp at h
      · rename_i st hs
        simp only [Except.ok.injEq] at h
        subst h
        exact studentLoop_labelled _ _ _ (fun _ hc => hc) hs (h0 _)
  · unfold generateNaiveTimetable at h
    split at h
    · simp at h
    · split at h
      · simp at h
      · split at h
        · simp at h
        · simp only at h
          split at h
          · simp at h
          · rename_i st hs
            simp only [Except.ok.injEq] at h
            subst h
            have := naiveLoop_labelled _ _ _ hs (h0 _)
            intro p hp
            obtain ⟨c, hc, h1, h2⟩ :=
              this p ((shuffle_perm rand st.k st.timetable).mem_iff.1 hp)
            exact ⟨c, (shuffle_perm rand _ courses).mem_iff.1 hc, h1, h2⟩

/-! ## Records of generateAndSaveStudentTimetable -/

theorem structuredPass_forall {P : Session → Prop}
    (hP : ∀ a b c d e f g h, P (classEntry a b c d e f g h))
    {c : Course} {isLab : Bool} {n : Nat} {pool : List Faculty} {rooms : List Room} :
    ∀ (fuel session assigned : Nat) (st : SaveState) (a : Nat) (st1 : SaveState),
      structuredPass c isLab n pool rooms fuel session assigned st = .ok (a, st1) →
      (∀ p ∈ st.timetable, P p.session) → ∀ p ∈ st1.timetable, P p.session := by
  intro fuel
  induction fuel with
  | zero =>
    intro session assigned st a st1 h hi
    unfold structuredPass at h
    split at h
    · simp at h
    · simp only [Except.ok.injEq, Prod.mk.injEq] at h
      obtain ⟨_, rfl⟩ := h
      exact hi
  | succ fuel ih =>
    intro session assigned st a st1 h hi
    unfold structuredPass at h
    split at h
    · split at h
      · simp at h
      · exact ih _ _ _ _ _ h hi
      · refine ih _ _ _ _ _ h ?_
        intro p hp
        simp only [SaveState.push] at hp
        rcases List.mem_append.1 hp with hp | hp
        · exact hi p hp
        · rw [List.mem_singleton] at hp
          subst hp
          exact hP _ _ _ _ _ _ _ _
    · simp only [Except.ok.injEq, Prod.mk.injEq] at h
      obtain ⟨_, rfl⟩ := h
      exact hi

theorem fallbackPass_forall {P : Session → Prop}
    (hP : ∀ a b c d e f g h, P (classEntry a b c d e f g h))
    {rand : Nat → Draw} {c : Course} {isLab : Bool} {n : Nat}
    {faculty : List Faculty} {rooms : List Room} :
    ∀ (fuel assigned : Nat) (st st1 : SaveState),
      fallbackPass rand c isLab n faculty rooms fuel assigned st = .ok st1 →
      (∀ p ∈ st.timetable, P p.session) → ∀ p ∈ st1.timetable, P p.session := by
  intro fuel
  induction fuel with
  | zero =>
    intro assigned st st1 h hi
    unfold fallbackPass at h
    split at h
    · simp at h
    · simp only [Except.ok.injEq] at h
      subst h
      exact hi
  | succ fuel ih =>
    intro assigned st st1 h hi
    unfold fallbackPass at h
    split at h
    · split at h
      · refine ih _ _ _ h ?_
        intro p hp
        simp only [SaveState.push] at hp
        rcases List.mem_append.1 hp with hp | hp
        · exact hi p hp
        · rw [List.mem_singleton] at hp
          subst hp
          exact hP _ _ _ _ _ _ _ _
      · simp at h
    · simp only [Except.ok.injEq] at h
      subst h
      exact hi

theorem padDay_forall {P : Session → Prop}
    (hP : ∀ a b c d e f g h, P (classEntry a b c d e f g h))
    {rand : Nat → Draw} {courses : List Course} {faculty : List Faculty}
    {rooms : List Room} {day : String} :
    ∀ (fuel : Nat) (st st1 : SaveState),
      padDay rand courses faculty rooms day fuel st = .ok st1 →
      (∀ p ∈ st.timetable, P p.session) → ∀ p ∈ st1.timetable, P p.session := by
  intro fuel
  induction fuel with
  | zero =>
    intro st st1 h hi
    unfold padDay at h
    split at h
    · simp at h
    · simp only [Except.ok.injEq] at h
      subst h
      exact hi
  | succ fuel ih =>
    intro st st1 h hi
    unfold padDay at h
    split at h
    · split at h
      · refine ih _ _ h ?_
        intro p hp
        simp only [SaveState.push] at hp
        rcases List.mem_append.1 hp with hp | hp
        · exact hi p hp
        · rw [List.mem_singleton] at hp
          subst hp
          exact hP _ _ _ _ _ _ _ _
      · simp at h
    · simp only [Except.ok.injEq] at h
      subst h
      exact hi

/-- Every session returned by `generateAndSaveStudentTimetable` is a `classEntry` record. -/
theorem generateAndSave_forall {P : Session → Prop}
    (hP : ∀ a b c d e f g h, P (classEntry a b c d e f g h))
    {rand : Nat → Draw} {courses : List Course} {faculty : List Faculty}
    {rooms : List Room} {existing : List TimetableDoc} {sched : List Placed}
    (h : generateAndSaveStudentTimetable rand courses faculty rooms existing = .ok sched) :
    ∀ p ∈ sched, P p.session := by
  have hloop : ∀ (cs : List Course) (st st1 : SaveState),
      saveLoop rand faculty rooms cs st = .ok st1 →
      (∀ p ∈ st.timetable, P p.session) → ∀ p ∈ st1.timetable, P p.session := by
    intro cs
    induction cs with
    | nil =>
      intro st st1 h hi
      simp only [saveLoop, Except.ok.injEq] at h
      subst h
      exact hi
    | cons c rest ih =>
      intro st st1 h hi
      unfold saveLoop at h
      split at h
      · simp at h
      · rename_i st2 hs
        refine ih _ _ h ?_
        unfold saveStep at hs
        simp only at hs
        split at hs
        · simp at hs
        · rename_i a st3 hsp
          exact fallbackPass_forall hP _ _ _ _ hs (structuredPass_forall hP _ _ _ _ _ _ hsp hi)
  have hpad : ∀ (ds : List String) (st st1 : SaveState),
      padLoop rand courses faculty rooms ds st = .ok st1 →
      (∀ p ∈ st.timetable, P p.session) → ∀ p ∈ st1.timetable, P p.session := by
    intro ds
    induction ds with
    | nil =>
      intro st st1 h hi
      simp only [padLoop, Except.ok.injEq] at h
      subst h
      exact hi
    | cons d rest ih =>
      intro st st1 h hi
      unfold padLoop at h
      split at h
      · simp at h
      · rename_i st2 hs
        exact ih _ _ h (padDay_forall hP _ _ _ hs hi)
  unfold generateAndSaveStudentTimetable at h
  split at h
  · simp at h
  · split at h
    · simp at h
    · split at h
      · simp at h
      · split at h
        · simp at h
        · rename_i st hs
          split at h
          · simp at h
          · rename_i st1 hp
            simp only [Except.ok.injEq] at h
            subst h
            exact hpad _ _ _ hp (hloop _ _ _ hs (fun _ hq => by simp at hq))

/-- C21, the claim as stated fails: the first session that
`generateAndSaveStudentTimetable` returns for the sample course (semester 3) has neither a
`batch_id` nor a `semester`; and for a course whose semester is 0,
`generateStudentTimetable` returns a session whose semester is 1, not 0. -/
theorem per_student_sessions_carry_no_label :
    (∃ p rest, generateAndSaveStudentTimetable sampleRand [sampleCourse] [sampleFacultyA]
        [sampleRoom] [] = .ok (p :: rest) ∧ sampleCourse.semester = some 3 ∧
      p.session.batch_id = none ∧ p.session.semester = none) ∧
    (∃ p, generateStudentTimetable sampleRand [sampleCourseSemesterZero] [sampleFacultyA]
        [sampleRoom] = .ok [p] ∧ sampleCourseSemesterZero.semester = some 0 ∧
      p.session.semester = some 1) :=
  ⟨⟨_, _, rfl, rfl, rfl, rfl⟩, ⟨_, rfl, rfl, rfl⟩⟩

/-- C21 as amended: every session produced by `generateStudentTimetable` and by
`generateNaiveTimetable` carries a semester/batch label of one of the courses, with that
course's code: its semester is the course's semester when the course has a non-zero one
and otherwise an integer between 1 and 8 inclusive, and its batch label is "Sem" followed
by such a number; the sessions of `generateAndSaveStudentTimetable` carry neither a
semester nor a batch label. -/
theorem sessions_semester_label (rand : Nat → Draw) (courses : List Course)
    (faculty : List Faculty) (rooms : List Room) (existing : List TimetableDoc)
    (sched : List Placed) :
    ((generateStudentTimetable rand courses faculty rooms = .ok sched ∨
        generateNaiveTimetable rand courses faculty rooms = .ok sched) →
      ∀ p ∈ sched, ∃ c ∈ courses, p.session.course_code = c.code ∧
        ∃ b v, p.session.batch_id = some ("Sem" ++ toString b) ∧
          p.session.semester = some v ∧
          (∀ n, c.semester = some (n + 1) → b = n + 1 ∧ v = n + 1) ∧
          ((c.semester = none ∨ c.semester = some 0) →
            (1 ≤ b ∧ b ≤ 8) ∧ (1 ≤ v ∧ v ≤ 8))) ∧
    (generateAndSaveStudentTimetable rand courses faculty rooms existing = .ok sched →
      ∀ p ∈ sched, p.session.batch_id = none ∧ p.session.semester = none) :=
  ⟨fun h => generators_labelled h,
    fun h => generateAndSave_forall (P := fun s => s.batch_id = none ∧ s.semester = none)
      (fun _ _ _ _ _ _ _ _ => ⟨rfl, rfl⟩) h⟩

theorem sessions_semester_label_witness :
    ∃ sched, generateStudentTimetable sampleRandSpread
        [sampleCourseNoSemester, sampleCourse] [sampleFacultyA] [sampleRoom] = .ok sched ∧
      ∀ p ∈ sched, ∃ c ∈ [sampleCourseNoSemester, sampleCourse],
        p.session.course_code = c.code ∧
        ∃ b v, p.session.batch_id = some ("Sem" ++ toString b) ∧
          p.session.semester = some v ∧
          (∀ n, c.semester = some (n + 1) → b = n + 1 ∧ v = n + 1) ∧
          ((c.semester = none ∨ c.semester = some 0) →
            (1 ≤ b ∧ b ≤ 8) ∧ (1 ≤ v ∧ v ≤ 8)) :=
  ⟨_, rfl, (sessions_semester_label sampleRandSpread [sampleCourseNoSemester, sampleCourse]
    [sampleFacultyA] [sampleRoom] [] _).1 (Or.inl rfl)⟩

set_option maxRecDepth 100000 in
/-- C23, the claim as stated fails: a faculty member whose own cap `max_weekly_hours` is 2
is assigned 6 sessions by `generateNaiveTimetable` for a catalog of four courses and one
room. -/
theorem naive_exceeds_own_weekly_cap :
    ∃ sched, generateNaiveTimetable sampleRand sampleCatalog [sampleFacultyCapTwo]
        [sampleRoom] = .ok sched ∧
      sampleFacultyCapTwo.max_weekly_hours = 2 ∧
      (sched.filter (fun p => decide (p.session.faculty_id = sampleFacultyCapTwo._id))).length
        = 6 :=
  ⟨_, rfl, rfl, rfl⟩

/-- C23 as amended: in the schedule produced by `generateNaiveTimetable` no faculty member
is assigned more than 6 sessions, the constant `maxPerFacultyTotal`, for every value of
the `max_weekly_hours` field of the faculty record; so the faculty member's own cap is
respected when it is at least 6. -/
theorem naive_cap_is_the_constant_six (rand : Nat → Draw) (courses : List Course)
    (faculty : List Faculty) (rooms : List Room) (sched : List Placed)
    (h : generateNaiveTimetable rand courses faculty rooms = .ok sched) :
    maxPerFacultyTotal = 6 ∧
    ∀ f ∈ faculty,
      (sched.filter (fun p => decide (p.session.faculty_id = f._id))).length ≤
        maxPerFacultyTotal ∧
      (maxPerFacultyTotal ≤ f.max_weekly_hours →
        (sched.filter (fun p => decide (p.session.faculty_id = f._id))).length ≤
          f.max_weekly_hours) := by
  have hcap := (generateNaive_spec h).2.2.1
  refine ⟨rfl, fun f _ => ⟨hcap f._id, fun hle => Nat.le_trans (hcap f._id) hle⟩⟩

set_option maxRecDepth 100000 in
theorem naive_cap_is_the_constant_six_witness :
    ∃ sched, generateNaiveTimetable sampleRand sampleCatalog [sampleFacultyCapTwo]
        [sampleRoom] = .ok sched ∧
      ∀ f ∈ [sampleFacultyCapTwo],
        (sched.filter (fun p => decide (p.session.faculty_id = f._id))).length ≤ 6 :=
  ⟨_, rfl, fun f hf =>
    ((naive_cap_is_the_constant_six sampleRand sampleCatalog [sampleFacultyCapTwo]
      [sampleRoom] _ rfl).2 f hf).1⟩

set_option maxRecDepth 100000 in
/-- C29, the code at the failing inputs and in general: for a course without a semester
and for a course with semester 0, `generateStudentTimetable` returns sessions whose batch
label and semester differ ("Sem1" with semester 2, "Sem3" with semester 4), and
`generateNaiveTimetable` returns a session with "Sem2" and semester 3: the two fields are
drawn by two separate calls of `Math.random()`. For a course with a non-zero semester the
two fields agree in every session of both generators. -/
theorem batch_label_and_semester_drawn_separately :
    (∃ p q, generateStudentTimetable sampleRandSpread
        [sampleCourseNoSemester, sampleCourseSemesterZero] [sampleFacultyA] [sampleRoom] =
        .ok [p, q] ∧
      p.session.batch_id = some "Sem1" ∧ p.session.semester = some 2 ∧
      q.session.batch_id = some "Sem3" ∧ q.session.semester = some 4) ∧
    (∃ p rest, generateNaiveTimetable sampleRandSpread [sampleCourseNoSemester]
        [sampleFacultyA] [sampleRoom] = .ok (p :: rest) ∧
      p.session.batch_id = some "Sem2" ∧ p.session.semester = some 3) ∧
    (∀ rand courses faculty rooms sched,
      (generateStudentTimetable rand courses faculty rooms = .ok sched ∨
        generateNaiveTimetable rand courses faculty rooms = .ok sched) →
      ∀ p ∈ sched, ∃ c ∈ courses, p.session.course_code = c.code ∧
        ∀ n, c.semester = some (n + 1) →
          p.session.semester = some (n + 1) ∧
          p.session.batch_id = some ("Sem" ++ toString (n + 1))) := by
  refine ⟨⟨_, _, rfl, rfl, rfl, rfl, rfl⟩, ⟨_, _, rfl, rfl, rfl⟩, ?_⟩
  intro rand courses faculty rooms sched h p hp
  obtain ⟨c, hc, h1, b, v, hb, hv, h2, _⟩ := generators_labelled h p hp
  refine ⟨c, hc, h1, fun n hn => ?_⟩
  obtain ⟨rfl, rfl⟩ := h2 n hn
  exact ⟨hv, hb⟩

/-! ## Exact counts of the padding pass -/

theorem sessionsOn_eq_zero {d : String} {l : List Placed}
    (h : ∀ p ∈ l, p.session.day ≠ d) : sessionsOn d l = 0 := by
  unfold sessionsOn
  rw [List.length_eq_zero, List.filter_eq_nil_iff]
  intro p hp
  simpa using h p hp

theorem sessionsOn_eq_length {d : String} {l : List Placed}
    (h : ∀ p ∈ l, p.session.day = d) : sessionsOn d l = l.length := by
  unfold sessionsOn
  rw [List.filter_eq_self.2]
  intro p hp
  simpa using h p hp

theorem padLoop_count {rand : Nat → Draw} {courses : List Course} {faculty : List Faculty}
    {rooms : List Room} (hpos : courses.length > 0) :
    ∀ (dayList : List String) (st st1 : SaveState),
      padLoop rand courses faculty rooms dayList st = .ok st1 → SaveInv st →
      dayList.Nodup →
      ∃ pad, st1.timetable = st.timetable ++ pad ∧
        (∀ p ∈ pad, p.origin = .padding ∧ p.session.day ∈ dayList ∧
          ∃ c ∈ courses, p.session.course = c.title ++ " (Extra)") ∧
        (∀ d ∈ dayList, sessionsOn d pad = minClassesPerDay - sessionsOn d st.timetable) ∧
        pad.length ≤ minClassesPerDay * dayList.length := by
  intro dayList
  induction dayList with
  | nil =>
    intro st st1 h hi _
    simp only [padLoop, Except.ok.injEq] at h
    subst h
    exact ⟨[], by simp, by simp, by simp, by simp⟩
  | cons day rest ih =>
    intro st st1 h hi hnd
    unfold padLoop at h
    split at h
    · simp at h
    · rename_i st2 hs
      obtain ⟨hi2, new, hnew, hall, hlen⟩ := padDay_spec _ _ _ hs hi
      obtain ⟨pad, hpad, hall2, hcnt, htot⟩ := ih _ _ h hi2 (List.nodup_cons.1 hnd).2
      have hday : day ∉ rest := (List.nodup_cons.1 hnd).1
      have h4 := hlen hpos
      rw [dailyOk_length hi.daily] at h4
      have h5 : sessionsOn day new = new.length :=
        sessionsOn_eq_length (fun p hp => (hall p hp).2.1)
      refine ⟨new ++ pad, ?_, ?_, ?_, ?_⟩
      · rw [hpad, hnew, List.append_assoc]
      · intro p hp
        rcases List.mem_append.1 hp with hp | hp
        · obtain ⟨h1, h2, h3⟩ := hall p hp
          exact ⟨h1, h2 ▸ List.mem_cons_self _ _, h3⟩
        · obtain ⟨h1, h2, h3⟩ := hall2 p hp
          exact ⟨h1, List.mem_cons_of_mem _ h2, h3⟩
      · intro d hd
        rw [sessionsOn_append]
        rcases List.mem_cons.1 hd with rfl | hd
        · have h6 : sessionsOn d pad = 0 :=
            sessionsOn_eq_zero (fun p hp he => hday (he ▸ (hall2 p hp).2.1))
          simp only [minClassesPerDay] at h4 ⊢
          omega
        · have hne : d ≠ day := fun he => hday (he ▸ hd)
          have h6 : sessionsOn d new = 0 :=
            sessionsOn_eq_zero (fun p hp he => hne ((hall p hp).2.1 ▸ he.symm))
          have h7 := hcnt d hd
          rw [hnew, sessionsOn_append, h6] at h7
          omega
      · simp only [minClassesPerDay, List.length_append, List.length_cons] at h4 htot ⊢
        omega

theorem forall₂_block_not_padding {courses : List Course} {blocks : List (List Placed)}
    (h : List.Forall₂ CourseBlock courses blocks) :
    ∀ b ∈ blocks, ∀ p ∈ b, p.origin ≠ .padding := by
  induction h with
  | nil => intro b hb; cases hb
  | cons hcb _ ih =>
    intro b hb
    rcases List.mem_cons.1 hb with rfl | hb
    · exact courseBlock_not_padding hcb
    · exact ih b hb

/-- C25: let `core` be the state after the course pass of
`generateAndSaveStudentTimetable` and `sched` the returned schedule. Then `sched` is the
sessions of `core`, unchanged and in order, none of them padded, followed by the padded
sessions; every padded session lies on a working day that held fewer than 4 sessions
after the course pass and has a course field ending in " (Extra)"; a working day with n
sessions before padding receives 4 - n padded sessions (0 when n is 4 or more) and has
max(n, 4) sessions afterwards; at most 20 sessions are padded in total. -/
theorem padding_fills_days_to_four (rand : Nat → Draw) (courses : List Course)
    (faculty : List Faculty) (rooms : List Room) (existing : List TimetableDoc)
    (core : SaveState) (sched : List Placed)
    (hcore : saveLoop rand faculty rooms courses
      (SaveState.mk [] (fun _ => []) (seedFaculty existing) (seedRoom existing) 0) =
        .ok core)
    (h : generateAndSaveStudentTimetable rand courses faculty rooms existing = .ok sched) :
    ∃ pad, sched = core.timetable ++ pad ∧
      (∀ p ∈ core.timetable, p.origin ≠ .padding) ∧
      (∀ p ∈ pad, p.origin = .padding ∧ p.session.day ∈ WORKING_DAYS ∧
        (core.timetable.filter (fun q => decide (q.session.day = p.session.day))).length
          < 4 ∧
        ∃ c ∈ courses, p.session.course = c.title ++ " (Extra)") ∧
      (∀ d ∈ WORKING_DAYS,
        (pad.filter (fun q => decide (q.session.day = d))).length =
          4 - (core.timetable.filter (fun q => decide (q.session.day = d))).length ∧
        (sched.filter (fun q => decide (q.session.day = d))).length =
          max (core.timetable.filter (fun q => decide (q.session.day = d))).length 4) ∧
      pad.length ≤ 20 := by
  unfold generateAndSaveStudentTimetable at h
  split at h
  · simp at h
  · rename_i hc
    split at h
    · simp at h
    · split at h
      · simp at h
      · split at h
        · simp at h
        · rename_i st hs
          split at h
          · simp at h
          · rename_i st1 hp
            simp only [Except.ok.injEq] at h
            subst h
            have hst : st = core := by
              have := hs.symm.trans hcore
              simpa using this
            subst hst
            have hi0 : SaveInv (SaveState.mk [] (fun _ => []) (seedFaculty existing)
                (seedRoom existing) 0) := ⟨runInv_nil _ _, fun d => by simp⟩
            obtain ⟨hi1, blocks, hbl, hf⟩ := saveLoop_spec _ _ _ hs hi0
            obtain ⟨pad, hpad, hall, hcnt, htot⟩ :=
              padLoop_count (Nat.pos_of_ne_zero hc) _ _ _ hp hi1 (by decide)
            have hcnt2 : ∀ d ∈ WORKING_DAYS, sessionsOn d pad = 4 - sessionsOn d st.timetable :=
              hcnt
            refine ⟨pad, hpad, ?_, ?_, ?_, ?_⟩
            · intro p hp
              rw [hbl] at hp
              simp only [List.nil_append, List.mem_flatten] at hp
              obtain ⟨b, hb, hpb⟩ := hp
              exact forall₂_block_not_padding hf b hb p hpb
            · intro p hp
              obtain ⟨h1, h2, h3⟩ := hall p hp
              refine ⟨h1, h2, ?_, h3⟩
              have h5 := hcnt2 _ h2
              have h6 : 0 < sessionsOn p.session.day pad := by
                unfold sessionsOn
                exact List.length_pos.2 (List.ne_nil_of_mem
                  (List.mem_filter.2 ⟨hp, by simp⟩))
              show sessionsOn p.session.day st.timetable < 4
              omega
            · intro d hd
              have h5 := hcnt2 d hd
              refine ⟨h5, ?_⟩
              show sessionsOn d st1.timetable = max (sessionsOn d st.timetable) 4
              rw [hpad, sessionsOn_append, h5]
              omega
            · simpa [minClassesPerDay, WORKING_DAYS] using htot

theorem padding_fills_days_to_four_witness :
    ∃ core sched, saveLoop sampleRand [sampleFacultyA, sampleFacultyB] [sampleRoom]
        [sampleCourse]
        (SaveState.mk [] (fun _ => []) (seedFaculty []) (seedRoom []) 0) = .ok core ∧
      generateAndSaveStudentTimetable sampleRand [sampleCourse]
        [sampleFacultyA, sampleFacultyB] [sampleRoom] [] = .ok sched ∧
      ∃ pad, sched = core.timetable ++ pad ∧
        (∀ p ∈ core.timetable, p.origin ≠ .padding) ∧
        (∀ p ∈ pad, p.origin = .padding ∧ p.session.day ∈ WORKING_DAYS ∧
          (core.timetable.filter (fun q => decide (q.session.day = p.session.day))).length
            < 4 ∧
          ∃ c ∈ [sampleCourse], p.session.course = c.title ++ " (Extra)") ∧
        (∀ d ∈ WORKING_DAYS,
          (pad.filter (fun q => decide (q.session.day = d))).length =
            4 - (core.timetable.filter (fun q => decide (q.session.day = d))).length ∧
          (sched.filter (fun q => decide (q.session.day = d))).length =
            max (core.timetable.filter (fun q => decide (q.session.day = d))).length 4) ∧
        pad.length ≤ 20 :=
  ⟨_, _, rfl, rfl, padding_fills_days_to_four sampleRand [sampleCourse]
    [sampleFacultyA, sampleFacultyB] [sampleRoom] [] _ _ rfl rfl⟩

/-! ## What the reconciler reports -/

theorem isConflict_iff (facultyId : String) (availability : AvailMap) (slot : StoredSession) :
    isConflict facultyId availability slot = true ↔
      slot.faculty_id = some (.str facultyId) ∧
      ∃ m, availability.lookup (dayNameKey slot.day) = some (.slotMap m) ∧
        m.lookup (jsKey slot.time_slot) = some false := by
  unfold isConflict facultyIdDiffers
  constructor
  · intro h
    split at h
    · simp at h
    · rename_i hd
      simp only at h
      split at h
      · rename_i m hm
        refine ⟨?_, m, hm, by simpa using h⟩
        split at hd
        · rename_i s hs
          rw [hs]
          simpa using hd
        · simp at hd
      · simp at h
  · rintro ⟨hid, m, hm, hf⟩
    simp [hid, hm, hf]

/-- C26, the code at the failing input and in general. A stored session of faculty "fa"
on "Mon" with its time-slot 09:00-10:00 under `time` and no `time_slot` field is reported
(1 conflict) when the submitted map for Monday holds `false` under the key "undefined",
the key that the absent `slot.time_slot` converts to, although the map does not mark
09:00-10:00; with Monday 09:00-10:00 set to `false` the same session is not reported. In
general the sessions reported are exactly those whose `faculty_id` is strictly equal to
the string form of the faculty's id and for which the map holds `false`, in the entry
under the key that `dayMap[slot.day]` converts to, under the key that `slot.time_slot`
converts to; records with an `ObjectId` as `faculty_id`, as the generators produce them,
are never reported. -/
theorem sync_reports_session_without_time_slot :
    (∃ s : StoredSession, s.time_slot = none ∧ s.time = some "09:00-10:00" ∧
      s.day = some "Mon" ∧ s.faculty_id = some (.str "fa") ∧
      syncAvailabilityWithSchedule "fa" [("Monday", .slotMap [("undefined", false)])]
        (some [s]) = { conflicts := 1, conflictingClasses := [s] } ∧
      syncAvailabilityWithSchedule "fa" [("Monday", .slotMap [("09:00-10:00", false)])]
        (some [s]) = { conflicts := 0, conflictingClasses := [] }) ∧
    (∀ (facultyId : String) (availability : AvailMap) (sched : List Session),
      syncAvailabilityWithSchedule facultyId availability
        (some (sched.map Session.toStored)) =
          { conflicts := 0, conflictingClasses := [] }) ∧
    (∀ (facultyId : String) (availability : AvailMap) (data : List StoredSession),
      (syncAvailabilityWithSchedule facultyId availability (some data)).conflicts =
        (syncAvailabilityWithSchedule facultyId availability
          (some data)).conflictingClasses.length ∧
      ∀ s, s ∈ (syncAvailabilityWithSchedule facultyId availability
          (some data)).conflictingClasses ↔
        s ∈ data ∧ s.faculty_id = some (.str facultyId) ∧
        ∃ m, availability.lookup (dayNameKey s.day) = some (.slotMap m) ∧
          m.lookup (match s.time_slot with | some t => t | none => "undefined") =
            some false) ∧
    (dayNameKey (some "Mon") = "Monday" ∧ dayNameKey none = "undefined" ∧
      dayNameKey (some "Sat") = "undefined" ∧
      dayNameKey (some "constructor") ≠ "undefined") := by
  refine ⟨⟨{ (classEntry "Database Systems" "CS301" "A" "fa" "R1" "r1" "Mon"
      "09:00-10:00").toStored with faculty_id := some (.str "fa") },
    rfl, rfl, rfl, rfl, by decide, by decide⟩, ?_, ?_, by decide⟩
  · intro facultyId availability sched
    have hnil : (sched.map Session.toStored).filter (isConflict facultyId availability) =
        [] := by
      rw [List.filter_eq_nil_iff]
      intro s hs
      obtain ⟨p, _, rfl⟩ := List.mem_map.1 hs
      rw [isConflict_iff]
      rintro ⟨hid, _⟩
      simp [Session.toStored] at hid
    simp only [syncAvailabilityWithSchedule, hnil, List.length_nil]
  · intro facultyId availability data
    refine ⟨rfl, fun s => ?_⟩
    simp only [syncAvailabilityWithSchedule, List.mem_filter, isConflict_iff]
    cases s.time_slot <;> rfl

/-! ## Two structured sessions in one calendar cell -/

theorem toKey_name_ne {a b : String} (d t : String) (h : a ≠ b) :
    toKey [a, d, t] ≠ toKey [b, d, t] := by
  intro he
  have e1 : toKey [a, d, t] = a ++ ("||" ++ d ++ "||" ++ t) := by
    show a ++ "||" ++ d ++ "||" ++ t = _
    simp [String.append_assoc]
  have e2 : toKey [b, d, t] = b ++ ("||" ++ d ++ "||" ++ t) := by
    show b ++ "||" ++ d ++ "||" ++ t = _
    simp [String.append_assoc]
  rw [e1, e2] at he
  have h1 : (a ++ ("||" ++ d ++ "||" ++ t)).data = (b ++ ("||" ++ d ++ "||" ++ t)).data := by
    rw [he]
  simp only [String.data_append] at h1
  exact h (String.ext (List.append_cancel_right h1))

theorem scanDays_monday_first {fas ras : List String} {rooms : List Room} {r : Room}
    {f : Faculty} (hav : f.availability = none)
    (hf : toKey [facultyNameOf f, "Mon", "09:00-10:00"] ∉ fas)
    (hr : pickRoom ras rooms "Mon" "09:00-10:00" = some r) :
    scanDays fas ras rooms [f] WORKING_DAYS = .ok (some ("Mon", f, "09:00-10:00", r)) := by
  have hs : scanSlots fas ras rooms (facultyNameOf f) "Mon" timeSlots =
      some ("09:00-10:00", r) := by
    unfold timeSlots
    unfold scanSlots
    rw [if_neg (by decide), if_neg hf, hr]
  unfold WORKING_DAYS
  unfold scanDays scanFaculty
  rw [availOf_no_entries (Or.inl hav)]
  simp only [hs]

/-- C27: for two courses whose candidate pools are two faculty members with different
names and no availability map (available in every slot), and two rooms with different
names, `generateStudentTimetable` returns exactly two sessions, both placed by the
structured search, both on Mon at "09:00-10:00": the first course with the first faculty
member in the first room, the second course with the second faculty member in the second
room. The grid that `getStudentTimetable` builds from these two records has one row per
time-slot, and its cell for Monday in the row "09:00-10:00" holds the first course
only. -/
theorem structured_search_double_books_student (rand : Nat → Draw) (c1 c2 : Course)
    (f1 f2 : Faculty) (r1 r2 : Room) (faculty : List Faculty)
    (hp1 : candidatePool c1.title faculty = [f1])
    (hp2 : candidatePool c2.title faculty = [f2])
    (hname : facultyNameOf f1 ≠ facultyNameOf f2)
    (ha1 : f1.availability = none) (ha2 : f2.availability = none)
    (hroom : r1.name ≠ r2.name) :
    ∃ p q, generateStudentTimetable rand [c1, c2] faculty [r1, r2] = .ok [p, q] ∧
      (p.origin = .structured ∧ q.origin = .structured) ∧
      (p.session.course = c1.title ∧ q.session.course = c2.title) ∧
      (p.session.faculty_id = f1._id ∧ q.session.faculty_id = f2._id) ∧
      (p.session.room = r1.name ∧ q.session.room = r2.name) ∧
      (p.session.day = "Mon" ∧ p.session.time = "09:00-10:00") ∧
      (q.session.day = "Mon" ∧ q.session.time = "09:00-10:00") ∧
      ∀ doc : TimetableDoc, doc.data = some [p.session.toStored, q.session.toStored] →
        ∃ grid, getStudentTimetable (some doc) = .ok grid ∧
          grid.map (fun row => row.time) = timeSlots ∧
          ∃ row ∈ grid, row.time = "09:00-10:00" ∧
            row.cells.lookup "monday" = some (some c1.title) := by
  have hfac : faculty.length ≠ 0 := by
    intro h0
    have : faculty = [] := List.length_eq_zero.1 h0
    rw [this] at hp1
    simp [candidatePool] at hp1
  have hr1 : pickRoom [] [r1, r2] "Mon" "09:00-10:00" = some r1 := by
    simp [pickRoom, List.find?]
  have hr2 : pickRoom [toKey [r1.name, "Mon", "09:00-10:00"]] [r1, r2] "Mon"
      "09:00-10:00" = some r2 := by
    have hne := toKey_name_ne "Mon" "09:00-10:00" hroom
    simp [pickRoom, List.find?, Ne.symm hne]
  have hk2 : toKey [facultyNameOf f2, "Mon", "09:00-10:00"] ∉
      [toKey [facultyNameOf f1, "Mon", "09:00-10:00"]] := by
    rw [List.mem_singleton]
    exact toKey_name_ne "Mon" "09:00-10:00" (Ne.symm hname)
  have hrun : generateStudentTimetable rand [c1, c2] faculty [r1, r2] = .ok
      [⟨(semesterEntry rand 0 c1.semester c1.title c1.code (facultyNameOf f1) f1._id
          r1.name r1._id "Mon" "09:00-10:00").1, .structured⟩,
        ⟨(semesterEntry rand
          (semesterEntry rand 0 c1.semester c1.title c1.code (facultyNameOf f1) f1._id
            r1.name r1._id "Mon" "09:00-10:00").2
          c2.semester c2.title c2.code (facultyNameOf f2) f2._id
          r2.name r2._id "Mon" "09:00-10:00").1, .structured⟩] := by
    unfold generateStudentTimetable
    rw [if_neg (by simp [hfac])]
    simp only [studentLoop, studentStep, hp1, hp2,
      scanDays_monday_first ha1 (List.not_mem_nil _) hr1,
      scanDays_monday_first ha2 hk2 hr2]
    rfl
  refine ⟨_, _, hrun, ⟨rfl, rfl⟩, ⟨rfl, rfl⟩, ⟨rfl, rfl⟩, ⟨rfl, rfl⟩, ⟨rfl, rfl⟩,
    ⟨rfl, rfl⟩, ?_⟩
  intro doc hdoc
  refine ⟨_, by simp only [getStudentTimetable, hdoc]; rfl, ?_, ?_⟩
  · simp only [formattedTimetable, List.map_map]
    exact List.map_id _
  · refine ⟨_, List.mem_map.2 ⟨"09:00-10:00", by decide, rfl⟩, rfl, ?_⟩
    simp [days, dayMapping, jsKey, List.lookup, gridCell, inCell, List.find?,
      Session.toStored, semesterEntry, truthy]

theorem structured_search_double_books_student_witness :
    ∃ p q, generateStudentTimetable sampleRand [sampleCourse, samplePhysics]
        [sampleFacultyA, sampleFacultyB] [sampleRoom, ⟨"r2", "R2", 30⟩] = .ok [p, q] ∧
      (p.session.day = "Mon" ∧ p.session.time = "09:00-10:00") ∧
      (q.session.day = "Mon" ∧ q.session.time = "09:00-10:00") ∧
      (p.session.course = "Database Systems" ∧ q.session.course = "Physics") ∧
      ∃ grid, getStudentTimetable
          (some ⟨some "s1", "v1", some [p.session.toStored, q.session.toStored]⟩) =
          .ok grid ∧
        ∃ row ∈ grid, row.time = "09:00-10:00" ∧
          row.cells.lookup "monday" = some (some "Database Systems") := by
  obtain ⟨p, q, h, _, hc, _, _, hp, hq, hg⟩ :=
    structured_search_double_books_student sampleRand sampleCourse samplePhysics
      sampleFacultyA sampleFacultyB sampleRoom ⟨"r2", "R2", 30⟩
      [sampleFacultyA, sampleFacultyB] (by decide) (by decide) (by decide) rfl rfl
      (by decide)
  obtain ⟨grid, h1, _, h2⟩ := hg ⟨some "s1", "v1", some [p.session.toStored,
    q.session.toStored]⟩ rfl
  exact ⟨p, q, h, hp, hq, hc, grid, h1, h2⟩

/-! ## Seeded occupancy -/

theorem seedInv_other {sf sr : List String} {st st1 : SaveState} {e : Placed}
    (hi : SeedInv sf sr st) (ht : st1.timetable = st.timetable ++ [e])
    (hf : st1.facultyAtSlot = st.facultyAtSlot) (hr : st1.roomAtSlot = st.roomAtSlot)
    (ho : e.origin ≠ .structured) : SeedInv sf sr st1 := by
  refine ⟨fun k hk => hf ▸ hi.faculty_kept k hk, fun k hk => hr ▸ hi.room_kept k hk, ?_⟩
  intro p hp hs
  rw [ht] at hp
  rcases List.mem_append.1 hp with hp | hp
  · exact hi.fresh p hp hs
  · rw [List.mem_singleton] at hp
    subst hp
    exact absurd hs ho

theorem seedInv_structured {sf sr : List String} {st st1 : SaveState} {e : Placed}
    (hi : SeedInv sf sr st) (ht : st1.timetable = st.timetable ++ [e])
    (hf : st1.facultyAtSlot =
      toKey [e.session.faculty, e.session.day, e.session.time] :: st.facultyAtSlot)
    (hr : st1.roomAtSlot =
      toKey [e.session.room, e.session.day, e.session.time] :: st.roomAtSlot)
    (hff : toKey [e.session.faculty, e.session.day, e.session.time] ∉ st.facultyAtSlot)
    (hrf : toKey [e.session.room, e.session.day, e.session.time] ∉ st.roomAtSlot) :
    SeedInv sf sr st1 := by
  refine ⟨fun k hk => hf ▸ List.mem_cons_of_mem _ (hi.faculty_kept k hk),
    fun k hk => hr ▸ List.mem_cons_of_mem _ (hi.room_kept k hk), ?_⟩
  intro p hp hs
  rw [ht] at hp
  rcases List.mem_append.1 hp with hp | hp
  · exact hi.fresh p hp hs
  · rw [List.mem_singleton] at hp
    subst hp
    exact ⟨fun hk => hff (hi.faculty_kept _ hk), fun hk => hrf (hi.room_kept _ hk)⟩

theorem structuredPass_seed {sf sr : List String} {c : Course} {isLab : Bool} {n : Nat}
    {pool : List Faculty} {rooms : List Room} :
    ∀ (fuel session assigned : Nat) (st : SaveState) (a : Nat) (st1 : SaveState),
      structuredPass c isLab n pool rooms fuel session assigned st = .ok (a, st1) →
      SeedInv sf sr st → SeedInv sf sr st1 := by
  intro fuel
  induction fuel with
  | zero =>
    intro session assigned st a st1 h hi
    unfold structuredPass at h
    split at h
    · simp at h
    · simp only [Except.ok.injEq, Prod.mk.injEq] at h
      obtain ⟨_, rfl⟩ := h
      exact hi
  | succ fuel ih =>
    intro session assigned st a st1 h hi
    unfold structuredPass at h
    split at h
    · split at h
      · simp at h
      · exact ih _ _ _ _ _ h hi
      · rename_i day f t r hs
        have hfe := scanDays_some hs
        exact ih _ _ _ _ _ h
          (seedInv_structured hi rfl rfl rfl hfe.faculty_free hfe.room_free)
    · simp only [Except.ok.injEq, Prod.mk.injEq] at h
      obtain ⟨_, rfl⟩ := h
      exact hi

theorem fallbackPass_seed {sf sr : List String} {rand : Nat → Draw} {c : Course}
    {isLab : Bool} {n : Nat} {faculty : List Faculty} {rooms : List Room} :
    ∀ (fuel assigned : Nat) (st st1 : SaveState),
      fallbackPass rand c isLab n faculty rooms fuel assigned st = .ok st1 →
      SeedInv sf sr st → SeedInv sf sr st1 := by
  intro fuel
  induction fuel with
  | zero =>
    intro assigned st st1 h hi
    unfold fallbackPass at h
    split at h
    · simp at h
    · simp only [Except.ok.injEq] at h
      subst h
      exact hi
  | succ fuel ih =>
    intro assigned st st1 h hi
    unfold fallbackPass at h
    split at h
    · split at h
      · exact ih _ _ _ h (seedInv_other hi rfl rfl rfl (by simp))
      · simp at h
    · simp only [Except.ok.injEq] at h
      subst h
      exact hi

theorem padDay_seed {sf sr : List String} {rand : Nat → Draw} {courses : List Course}
    {faculty : List Faculty} {rooms : List Room} {day : String} :
    ∀ (fuel : Nat) (st st1 : SaveState),
      padDay rand courses faculty rooms day fuel st = .ok st1 →
      SeedInv sf sr st → SeedInv sf sr st1 := by
  intro fuel
  induction fuel with
  | zero =>
    intro st st1 h hi
    unfold padDay at h
    split at h
    · simp at h
    · simp only [Except.ok.injEq] at h
      subst h
      exact hi
  | succ fuel ih =>
    intro st st1 h hi
    unfold padDay at h
    split at h
    · split at h
      · exact ih _ _ h (seedInv_other hi rfl rfl rfl (by simp))
      · simp at h
    · simp only [Except.ok.injEq] at h
      subst h
      exact hi

/-- No structured session of a returned schedule has a key that the seeding loop put in
the occupancy sets. -/
theorem generateAndSave_seed {rand : Nat → Draw} {courses : List Course}
    {faculty : List Faculty} {rooms : List Room} {existing : List TimetableDoc}
    {sched : List Placed}
    (h : generateAndSaveStudentTimetable rand courses faculty rooms existing = .ok sched) :
    ∀ p ∈ sched, p.origin = .structured →
      toKey [p.session.faculty, p.session.day, p.session.time] ∉ seedFaculty existing ∧
      toKey [p.session.room, p.session.day, p.session.time] ∉ seedRoom existing := by
  have hloop : ∀ (cs : List Course) (st st1 : SaveState),
      saveLoop rand faculty rooms cs st = .ok st1 →
      SeedInv (seedFaculty existing) (seedRoom existing) st →
      SeedInv (seedFaculty existing) (seedRoom existing) st1 := by
    intro cs
    induction cs with
    | nil =>
      intro st st1 h hi
      simp only [saveLoop, Except.ok.injEq] at h
      subst h
      exact hi
    | cons c rest ih =>
      intro st st1 h hi
      unfold saveLoop at h
      split at h
      · simp at h
      · rename_i st2 hs
        refine ih _ _ h ?_
        unfold saveStep at hs
        simp only at hs
        split at hs
        · simp at hs
        · rename_i a st3 hsp
          exact fallbackPass_seed _ _ _ _ hs (structuredPass_seed _ _ _ _ _ _ hsp hi)
  have hpad : ∀ (ds : List String) (st st1 : SaveState),
      padLoop rand courses faculty rooms ds st = .ok st1 →
      SeedInv (seedFaculty existing) (seedRoom existing) st →
      SeedInv (seedFaculty existing) (seedRoom existing) st1 := by
    intro ds
    induction ds with
    | nil =>
      intro st st1 h hi
      simp only [padLoop, Except.ok.injEq] at h
      subst h
      exact hi
    | cons d rest ih =>
      intro st st1 h hi
      unfold padLoop at h
      split at h
      · simp at h
      · rename_i st2 hs
        exact ih _ _ h (padDay_seed _ _ _ hs hi)
  unfold generateAndSaveStudentTimetable at h
  split at h
  · simp at h
  · split at h
    · simp at h
    · split at h
      · simp at h
      · split at h
        · simp at h
        · rename_i st hs
          split at h
          · simp at h
          · rename_i st1 hp
            simp only [Except.ok.injEq] at h
            subst h
            exact (hpad _ _ _ hp (hloop _ _ _ hs
              ⟨fun _ hk => hk, fun _ hk => hk, fun _ hq => by simp at hq⟩)).fresh

theorem seedKeys_of_shares {s : StoredSession} {d t : String}
    (hd : truthy s.day = some d) (ht : storedTime s = some t) :
    seedKeys s = some (toKey [storedFacultyName s, d, t], toKey [storedRoomName s, d, t]) := by
  unfold seedKeys
  rw [hd, ht]

theorem mem_storedSessions {existing : List TimetableDoc} {doc : TimetableDoc}
    {data : List StoredSession} {s : StoredSession}
    (hdoc : doc ∈ existing) (hdata : doc.data = some data) (hs : s ∈ data) :
    s ∈ storedSessions existing := by
  unfold storedSessions
  rw [List.mem_flatMap]
  exact ⟨doc, hdoc, by rw [hdata]; exact hs⟩

/-- C30: the occupancy sets of `generateAndSaveStudentTimetable` are seeded from the
sessions of every stored timetable document, whatever its `student_id`, that have a day
and a time. In every returned schedule no session placed by the structured search shares
(faculty name, day, time) or (room name, day, time) with such a stored session. Fallback
and padding sessions may: with the sample stored session (faculty "B", room "R1", Mon
09:00-10:00) a run returns a fallback session and a padding session that each share both
with it. -/
theorem structured_sessions_avoid_stored_sessions :
    (∀ (existing : List TimetableDoc), ∀ doc ∈ existing, ∀ data, doc.data = some data →
      ∀ s ∈ data, ∀ d t, truthy s.day = some d → storedTime s = some t →
        toKey [storedFacultyName s, d, t] ∈ seedFaculty existing ∧
        toKey [storedRoomName s, d, t] ∈ seedRoom existing) ∧
    (∀ (rand : Nat → Draw) (courses : List Course) (faculty : List Faculty)
        (rooms : List Room) (existing : List TimetableDoc) (sched : List Placed),
      generateAndSaveStudentTimetable rand courses faculty rooms existing = .ok sched →
      ∀ p ∈ sched, p.origin = .structured →
        ∀ doc ∈ existing, ∀ data, doc.data = some data → ∀ s ∈ data,
          ¬ SharesFaculty s p.session ∧ ¬ SharesRoom s p.session) ∧
    (∃ p q rest, generateAndSaveStudentTimetable sampleRand [sampleCalculus]
        [sampleFacultyMondayOnly, sampleFacultyBusy] [sampleRoom] sampleStoredDocs =
        .ok (p :: q :: rest) ∧
      p.origin = .fallback ∧ q.origin = .padding ∧
      (SharesFaculty sampleStoredSession p.session ∧
        SharesRoom sampleStoredSession p.session) ∧
      (SharesFaculty sampleStoredSession q.session ∧
        SharesRoom sampleStoredSession q.session)) := by
  refine ⟨?_, ?_, ⟨_, _, _, rfl, rfl, rfl, ⟨⟨rfl, rfl, rfl⟩, ⟨rfl, rfl, rfl⟩⟩,
    ⟨⟨rfl, rfl, rfl⟩, ⟨rfl, rfl, rfl⟩⟩⟩⟩
  · intro existing doc hdoc data hdata s hs d t hd ht
    have hmem := mem_storedSessions hdoc hdata hs
    constructor
    · unfold seedFaculty
      rw [List.mem_filterMap]
      exact ⟨s, hmem, by rw [seedKeys_of_shares hd ht]; rfl⟩
    · unfold seedRoom
      rw [List.mem_filterMap]
      exact ⟨s, hmem, by rw [seedKeys_of_shares hd ht]; rfl⟩
  intro rand courses faculty rooms existing sched h p hp ho doc hdoc data hdata s hs
  obtain ⟨hf, hr⟩ := generateAndSave_seed h p hp ho
  have hmem := mem_storedSessions hdoc hdata hs
  constructor
  · rintro ⟨hd, ht, hn⟩
    apply hf
    unfold seedFaculty
    rw [List.mem_filterMap]
    exact ⟨s, hmem, by rw [seedKeys_of_shares hd ht, hn]; rfl⟩
  · rintro ⟨hd, ht, hn⟩
    apply hr
    unfold seedRoom
    rw [List.mem_filterMap]
    exact ⟨s, hmem, by rw [seedKeys_of_shares hd ht, hn]; rfl⟩

theorem structured_sessions_avoid_stored_sessions_witness :
    ∃ p rest, generateAndSaveStudentTimetable sampleRand [sampleCalculus] [sampleFacultyB]
        [sampleRoom] sampleStoredDocs = .ok (p :: rest) ∧
      p.origin = .structured ∧ p.session.faculty = "B" ∧ p.session.room = "R1" ∧
      p.session.day = "Mon" ∧ p.session.time = "10:00-11:00" ∧
      ¬ SharesFaculty sampleStoredSession p.session ∧
      ¬ SharesRoom sampleStoredSession p.session :=
  ⟨_, _, rfl, rfl, rfl, rfl, rfl, rfl,
    structured_sessions_avoid_stored_sessions.2.1 sampleRand [sampleCalculus] [sampleFacultyB]
      [sampleRoom] sampleStoredDocs _ rfl _ (List.mem_cons_self _ _) rfl _
      (List.mem_cons_self _ _) _ rfl _ (List.mem_cons_self _ _)⟩

/-! ## The occupancy checks of generateNaiveTimetable -/

theorem mem_ALL_SLOTS {s : Slot} (h : s ∈ ALL_SLOTS) :
    s.day ∈ WORKING_DAYS ∧ s.time ∈ timeSlots := by
  unfold ALL_SLOTS at h
  rw [List.mem_flatMap] at h
  obtain ⟨d, hd, hs⟩ := h
  rw [List.mem_map] at hs
  obtain ⟨t, ht, rfl⟩ := hs
  exact ⟨hd, ht⟩

theorem toKey_cell_inj {a b d t d1 t1 : String}
    (hd : d.data.length = d1.data.length) (ht : t.data.length = t1.data.length)
    (h : toKey [a, d, t] = toKey [b, d1, t1]) : d = d1 ∧ t = t1 := by
  have e1 : toKey [a, d, t] = a ++ "||" ++ d ++ "||" ++ t := rfl
  have e2 : toKey [b, d1, t1] = b ++ "||" ++ d1 ++ "||" ++ t1 := rfl
  rw [e1, e2] at h
  have h1 : (a ++ "||" ++ d ++ "||" ++ t).data = (b ++ "||" ++ d1 ++ "||" ++ t1).data := by
    rw [h]
  simp only [String.data_append] at h1
  obtain ⟨h2, h3⟩ := List.append_inj' h1 ht
  have h4 := List.append_cancel_right h2
  obtain ⟨_, h5⟩ := List.append_inj' h4 hd
  exact ⟨String.ext h5, String.ext h3⟩

theorem slot_key_ne {s s1 : Slot} (hs : s ∈ ALL_SLOTS) (hs1 : s1 ∈ ALL_SLOTS) (hne : s ≠ s1)
    (a b : String) : toKey [a, s.day, s.time] ≠ toKey [b, s1.day, s1.time] := by
  intro h
  have hd : ∀ d ∈ WORKING_DAYS, d.data.length = 3 := by decide
  have ht : ∀ t ∈ timeSlots, t.data.length = 11 := by decide
  obtain ⟨m1, m2⟩ := mem_ALL_SLOTS hs
  obtain ⟨m3, m4⟩ := mem_ALL_SLOTS hs1
  obtain ⟨h1, h2⟩ := toKey_cell_inj ((hd _ m1).trans (hd _ m3).symm)
    ((ht _ m2).trans (ht _ m4).symm) h
  apply hne
  cases s
  cases s1
  simp only at h1 h2
  rw [h1, h2]

theorem chooseFaculty_unchecked {fas : List String} (workload : List (String × Nat))
    {slot : Slot} (h : ∀ a, toKey [a, slot.day, slot.time] ∉ fas) :
    ∀ (pool : List Faculty),
      chooseFaculty fas workload slot pool = chooseFaculty [] workload slot pool := by
  intro pool
  induction pool with
  | nil => rfl
  | cons f rest ih =>
    unfold chooseFaculty
    split
    · rfl
    · rw [ih, if_neg (h _), if_neg (List.not_mem_nil _)]

theorem pickRoom_unchecked {ras : List String} {d t : String}
    (h : ∀ a, toKey [a, d, t] ∉ ras) (rooms : List Room) :
    pickRoom ras rooms d t = rooms.head? := by
  cases rooms with
  | nil => rfl
  | cons r rest => simp [pickRoom, List.find?, h r.name]

theorem keysAway_tail {slot : Slot} {rest : List Slot} {keys : List String}
    (h : KeysAway (slot :: rest) keys) : KeysAway rest keys :=
  fun k hk s hs a => h k hk s (List.mem_cons_of_mem _ hs) a

theorem keysAway_cons {slot : Slot} {rest : List Slot} {keys : List String} (a : String)
    (h : KeysAway (slot :: rest) keys) (hnd : (slot :: rest).Nodup)
    (hall : ∀ s ∈ slot :: rest, s ∈ ALL_SLOTS) :
    KeysAway rest (toKey [a, slot.day, slot.time] :: keys) := by
  intro k hk s hs b
  rcases List.mem_cons.1 hk with rfl | hk
  · refine slot_key_ne (hall _ (List.mem_cons_self _ _))
      (hall _ (List.mem_cons_of_mem _ hs)) ?_ a b
    rintro rfl
    exact (List.nodup_cons.1 hnd).1 hs
  · exact h k hk s (List.mem_cons_of_mem _ hs) b

theorem naiveLoop_eq_unchecked {rand : Nat → Draw} {target : Nat} {cs : List Course}
    {fs : List Faculty} {rs : List Room} :
    ∀ (slots : List Slot) (st : NaiveState), slots.Nodup → (∀ s ∈ slots, s ∈ ALL_SLOTS) →
      KeysAway slots st.facultyAtSlot → KeysAway slots st.roomAtSlot →
      naiveLoop rand target cs fs rs slots st =
        naiveLoopUnchecked rand target cs fs rs slots st := by
  intro slots
  induction slots with
  | nil => intro st _ _ _ _; rfl
  | cons slot rest ih =>
    intro st hnd hall hf hr
    have hnd1 : rest.Nodup := (List.nodup_cons.1 hnd).2
    have hall1 : ∀ s ∈ rest, s ∈ ALL_SLOTS := fun s hs => hall s (List.mem_cons_of_mem _ hs)
    have hfk : ∀ a, toKey [a, slot.day, slot.time] ∉ st.facultyAtSlot :=
      fun a hk => hf _ hk slot (List.mem_cons_self _ _) a rfl
    have hrk : ∀ a, toKey [a, slot.day, slot.time] ∉ st.roomAtSlot :=
      fun a hk => hr _ hk slot (List.mem_cons_self _ _) a rfl
    have hcf := chooseFaculty_unchecked st.workload hfk
    have hpr := pickRoom_unchecked hrk rs
    rw [naiveLoop, naiveLoopUnchecked]
    by_cases h1 : st.timetable.length ≥ target
    · rw [if_pos h1, if_pos h1]
    · rw [if_neg h1, if_neg h1]
      by_cases h2 : slot.time = LUNCH_BREAK
      · rw [if_pos h2, if_pos h2]
        exact ih st hnd1 hall1 (keysAway_tail hf) (keysAway_tail hr)
      · rw [if_neg h2, if_neg h2]
        cases hc : cs[floorMul (rand st.k) cs.length]? with
        | none => rfl
        | some c =>
          simp only [hcf, hpr]
          cases hch : chooseFaculty [] st.workload slot (candidatePool c.title fs) with
          | error e => rfl
          | ok o =>
            cases o with
            | none =>
              exact ih _ hnd1 hall1 (keysAway_tail hf) (keysAway_tail hr)
            | some f =>
              cases hroom : rs.head? with
              | none =>
                exact ih _ hnd1 hall1 (keysAway_tail hf) (keysAway_tail hr)
              | some r =>
                exact ih _ hnd1 hall1 (keysAway_cons _ hf hnd hall)
                  (keysAway_cons _ hr hnd hall)

theorem naiveLoopUnchecked_cells {rand : Nat → Draw} {target : Nat} {cs : List Course}
    {fs : List Faculty} {rs : List Room} :
    ∀ (slots : List Slot) (st st1 : NaiveState),
      naiveLoopUnchecked rand target cs fs rs slots st = .ok st1 → slots.Nodup →
      CellInv rs slots st.timetable → CellInv rs [] st1.timetable := by
  intro slots
  induction slots with
  | nil =>
    intro st st1 h _ hi
    simp only [naiveLoopUnchecked, Except.ok.injEq] at h
    subst h
    exact hi
  | cons slot rest ih =>
    intro st st1 h hnd hi
    have hnd1 : rest.Nodup := (List.nodup_cons.1 hnd).2
    have htail : CellInv rs rest st.timetable :=
      ⟨hi.distinct, fun p hp s hs => hi.away p hp s (List.mem_cons_of_mem _ hs), hi.room⟩
    unfold naiveLoopUnchecked at h
    split at h
    · simp only [Except.ok.injEq] at h
      subst h
      exact ⟨hi.distinct, fun _ _ _ hs => by simp at hs, hi.room⟩
    · split at h
      · exact ih _ _ h hnd1 htail
      · split at h
        · simp at h
        · simp only at h
          split at h
          · simp at h
          · exact ih _ _ h hnd1 htail
          · split at h
            · exact ih _ _ h hnd1 htail
            · rename_i r hroom
              refine ih _ _ h hnd1 ⟨?_, ?_, ?_⟩
              · unfold DistinctCells
                rw [List.pairwise_append]
                refine ⟨hi.distinct, List.pairwise_singleton _ _, ?_⟩
                intro p hp q hq
                rw [List.mem_singleton] at hq
                subst hq
                exact hi.away p hp slot (List.mem_cons_self _ _)
              · intro p hp s hs
                rcases List.mem_append.1 hp with hp | hp
                · exact hi.away p hp s (List.mem_cons_of_mem _ hs)
                · rw [List.mem_singleton] at hp
                  subst hp
                  rintro ⟨e1, e2⟩
                  apply (List.nodup_cons.1 hnd).1
                  have : slot = s := by
                    cases slot
                    cases s
                    exact congrArg₂ Slot.mk e1 e2
                  rw [this]
                  exact hs
              · intro p hp
                rcases List.mem_append.1 hp with hp | hp
                · exact hi.room p hp
                · rw [List.mem_singleton] at hp
                  subst hp
                  exact ⟨r, hroom, rfl, rfl⟩

theorem ALL_SLOTS_nodup : ALL_SLOTS.Nodup := by decide

theorem generateNaive_eq_unchecked (rand : Nat → Draw) (courses : List Course)
    (faculty : List Faculty) (rooms : List Room) :
    generateNaiveTimetable rand courses faculty rooms =
      generateNaiveUnchecked rand courses faculty rooms := by
  unfold generateNaiveTimetable generateNaiveUnchecked
  have hnd := (shuffle_perm rand 0 ALL_SLOTS).nodup_iff.2 ALL_SLOTS_nodup
  have hall : ∀ s ∈ (shuffle rand 0 ALL_SLOTS).1, s ∈ ALL_SLOTS :=
    fun s hs => (shuffle_perm rand 0 ALL_SLOTS).mem_iff.1 hs
  generalize shuffle rand 0 ALL_SLOTS = sp at hnd hall ⊢
  simp only
  rw [naiveLoop_eq_unchecked _ _ hnd hall (fun _ hk => by simp at hk)
    (fun _ hk => by simp at hk)]

theorem distinctCells_count {l : List Placed} (h : DistinctCells l) (d t : String) :
    (l.filter (fun p => decide (p.session.day = d ∧ p.session.time = t))).length ≤ 1 := by
  have hp : (l.filter (fun p => decide (p.session.day = d ∧ p.session.time = t))).Pairwise
      (fun p q => ¬ (p.session.day = q.session.day ∧ p.session.time = q.session.time)) :=
    List.Pairwise.sublist (List.filter_sublist _) h
  have hall : ∀ p ∈ l.filter (fun p => decide (p.session.day = d ∧ p.session.time = t)),
      p.session.day = d ∧ p.session.time = t := fun p hp => by
    simpa using (List.mem_filter.1 hp).2
  generalize l.filter (fun p => decide (p.session.day = d ∧ p.session.time = t)) = m
    at hp hall
  match m, hp, hall with
  | [], _, _ => exact Nat.zero_le _
  | [_], _, _ => exact Nat.le_refl _
  | p :: q :: rest, hp, hall =>
    exfalso
    have h1 := hall p (List.mem_cons_self _ _)
    have h2 := hall q (List.mem_cons_of_mem _ (List.mem_cons_self _ _))
    exact (List.pairwise_cons.1 hp).1 q (List.mem_cons_self _ _)
      ⟨h1.1.trans h2.1.symm, h1.2.trans h2.2.symm⟩

/-- C28: for every course list, faculty roster, room roster and sequence of draws, the
run of `generateNaiveTimetable` equals the run whose slot loop makes no room-occupancy and
no faculty-occupancy test (so the two tests never reject a candidate); and in every
persisted schedule each (day, time-slot) cell holds at most one session, and every session
is in the first room of the shuffled room roster. -/
theorem naive_one_session_per_cell_in_first_room (rand : Nat → Draw)
    (courses : List Course) (faculty : List Faculty) (rooms : List Room) :
    generateNaiveTimetable rand courses faculty rooms =
      generateNaiveUnchecked rand courses faculty rooms ∧
    ∀ sched, generateNaiveTimetable rand courses faculty rooms = .ok sched →
      (∀ d t, (sched.filter
        (fun p => decide (p.session.day = d ∧ p.session.time = t))).length ≤ 1) ∧
      ∃ r, (naiveShuffledRooms rand courses faculty rooms).head? = some r ∧
        (naiveShuffledRooms rand courses faculty rooms).Perm rooms ∧
        ∀ p ∈ sched, p.session.room = r.name ∧ p.session.room_id = r._id := by
  refine ⟨generateNaive_eq_unchecked rand courses faculty rooms, ?_⟩
  intro sched h
  rw [generateNaive_eq_unchecked] at h
  unfold generateNaiveUnchecked at h
  split at h
  · simp at h
  · split at h
    · simp at h
    · split at h
      · simp at h
      · rename_i hr
        simp only at h
        split at h
        · simp at h
        · rename_i st hs
          simp only [Except.ok.injEq] at h
          subst h
          have hi := naiveLoopUnchecked_cells _ _ _ hs
            ((shuffle_perm rand 0 ALL_SLOTS).nodup_iff.2 ALL_SLOTS_nodup)
            ⟨List.Pairwise.nil, fun _ hp => by simp at hp, fun _ hp => by simp at hp⟩
          have hp := shuffle_perm rand st.k st.timetable
          have hd : DistinctCells (shuffle rand st.k st.timetable).1 := by
            unfold DistinctCells
            refine (hp.symm.pairwise_iff ?_).1 hi.distinct
            intro p q hpq hqp
            exact hpq ⟨hqp.1.symm, hqp.2.symm⟩
          refine ⟨distinctCells_count hd, ?_⟩
          have hne := shuffle_length_ne_zero rand
            (shuffle rand (shuffle rand (shuffle rand 0 ALL_SLOTS).2 courses).2 faculty).2 hr
          cases hh : naiveShuffledRooms rand courses faculty rooms with
          | nil =>
            unfold naiveShuffledRooms at hh
            rw [hh] at hne
            exact absurd rfl hne
          | cons r rest =>
            refine ⟨r, rfl, hh ▸ shuffle_perm rand _ rooms, ?_⟩
            intro p hpm
            obtain ⟨r1, h1, h2, h3⟩ := hi.room p (hp.mem_iff.1 hpm)
            unfold naiveShuffledRooms at hh
            rw [hh] at h1
            simp only [List.head?_cons, Option.some.injEq] at h1
            subst h1
            exact ⟨h2, h3⟩

set_option maxRecDepth 100000 in
theorem naive_one_session_per_cell_in_first_room_witness :
    ∃ sched, generateNaiveTimetable sampleRand sampleCatalog [sampleFacultyA, sampleFacultyB]
        [sampleRoom, sampleRoomTwo] = .ok sched ∧ sched.length = 8 ∧
      (∀ d t, (sched.filter
        (fun p => decide (p.session.day = d ∧ p.session.time = t))).length ≤ 1) ∧
      ∃ r, (naiveShuffledRooms sampleRand sampleCatalog [sampleFacultyA, sampleFacultyB]
          [sampleRoom, sampleRoomTwo]).head? = some r ∧
        ∀ p ∈ sched, p.session.room = r.name ∧ p.session.room_id = r._id := by
  refine ⟨_, rfl, rfl, ?_⟩
  have h := (naive_one_session_per_cell_in_first_room sampleRand sampleCatalog
    [sampleFacultyA, sampleFacultyB] [sampleRoom, sampleRoomTwo]).2 _ rfl
  exact ⟨h.1, h.2.imp (fun _ hr => ⟨hr.1, hr.2.2⟩)⟩

end Timetable
